import Mathlib

/-!
# Indicator library and strategy engine

A shallow embedding of `technical_indicators.cpp`, `trading_signal.cpp` and
`strategy_engine.cpp`.

Conventions of the embedding:

* a C++ `double` is an exact rational (`ℚ`); rounding, infinities and NaN are
  outside the model, so every statement below is one of exact arithmetic;
* a `std::vector` is a `List`; a loop over an index range is a fold over the
  corresponding slice of the list;
* the `int periods` argument of an indicator is a `Nat`: the statements range
  over windows `W ≥ 1`, where `static_cast<size_t>(periods)` is the identity;
* the library routines `std::sort` and `std::sqrt` are arguments of the
  functions that call them; statements about those functions assume the
  postcondition the C++ standard gives the routine (`IsStdSort`, a
  non-negative root of a non-negative number);
* time stamps (`std::chrono` fields) are not part of the model.
-/

namespace TradingApp

/-! ## Data model (`market_data.h`) -/

/-- One candlestick bar (`struct OHLCV`). -/
structure OHLCV where
  open_ : ℚ
  high : ℚ
  low : ℚ
  close : ℚ
  volume : Int

/-- A bar whose four prices are all `p` (helper for concrete inputs). -/
def flatBar (p : ℚ) : OHLCV :=
  { open_ := p, high := p, low := p, close := p, volume := 0 }

/-! ## Indicator library (`technical_indicators.cpp`) -/

namespace TechnicalIndicators

/-- `calculateSMA`: mean of the last `periods` closes, `0.0` on short input. -/
def calculateSMA (data : List OHLCV) (periods : Nat) : ℚ :=
  if data.length < periods then 0
  else
    let sum := (data.drop (data.length - periods)).foldl (fun s c => s + c.close) 0
    sum / periods

/-- `calculateEMA`: the seed is `calculateSMA(data, periods)`, then the loop
`for (i = periods; i < data.size(); ++i)` smooths forward. -/
def calculateEMA (data : List OHLCV) (periods : Nat) : ℚ :=
  if data.length < periods then 0
  else
    let multiplier : ℚ := 2 / ((periods : ℚ) + 1)
    let ema := calculateSMA data periods
    (data.drop periods).foldl
      (fun ema c => (c.close * multiplier) + (ema * (1 - multiplier))) ema

/-- `calculateWMA`: the loop `for (i = 0; i < periods; ++i)` reads
`data[data.size() - 1 - i]`, i.e. the `i`-th element of the reversed vector. -/
def calculateWMA (data : List OHLCV) (periods : Nat) : ℚ :=
  if data.length < periods then 0
  else
    let acc := ((data.reverse.take periods).enum).foldl
      (fun (acc : ℚ × ℚ) (ic : Nat × OHLCV) =>
        let weight : ℚ := ((periods - ic.1 : Nat) : ℚ)
        (acc.1 + ic.2.close * weight, acc.2 + weight))
      (0, 0)
    acc.1 / acc.2

/-- Close-to-close changes `data[i].close - data[i-1].close` for `i = 1 ..`. -/
def closeChanges (data : List OHLCV) : List ℚ :=
  List.zipWith (fun prev cur => cur.close - prev.close) data data.tail

/-- The `gains` vector of `calculateRSI`. -/
def gains (data : List OHLCV) : List ℚ :=
  (closeChanges data).map (fun change => if change > 0 then change else 0)

/-- The `losses` vector of `calculateRSI`. -/
def losses (data : List OHLCV) : List ℚ :=
  (closeChanges data).map (fun change => if change < 0 then -change else 0)

/-- Plain mean over the first `periods` entries: the seeding loop shared by
`calculateRSI` and `calculateATR`. -/
def seedAverage (xs : List ℚ) (periods : Nat) : ℚ :=
  (xs.take periods).foldl (fun s x => s + x) 0 / periods

/-- Wilder smoothing loop `avg = ((avg * (periods - 1)) + xs[i]) / periods`
for `i = periods ..`, shared by `calculateRSI` and `calculateATR`. -/
def wilderSmooth (xs : List ℚ) (periods : Nat) (seed : ℚ) : ℚ :=
  (xs.drop periods).foldl
    (fun avg x => ((avg * ((periods : ℚ) - 1)) + x) / periods) seed

/-- `calculateRSI`. -/
def calculateRSI (data : List OHLCV) (periods : Nat) : ℚ :=
  if data.length < periods + 1 then 50
  else if (gains data).length < periods then 50
  else
    let avg_gain := wilderSmooth (gains data) periods (seedAverage (gains data) periods)
    let avg_loss := wilderSmooth (losses data) periods (seedAverage (losses data) periods)
    if avg_loss = 0 then 100
    else
      let rs := avg_gain / avg_loss
      100 - (100 / (1 + rs))

/-- `isDoji`. -/
def isDoji (candle : OHLCV) (threshold : ℚ) : Bool :=
  if candle.high = candle.low then false
  else
    let body_size := |candle.close - candle.open_|
    let full_range := candle.high - candle.low
    decide ((body_size / full_range) < threshold)

/-- `isHammer`. -/
def isHammer (candle : OHLCV) : Bool :=
  let body := |candle.close - candle.open_|
  let lower_shadow := min candle.open_ candle.close - candle.low
  let upper_shadow := candle.high - max candle.open_ candle.close
  decide (lower_shadow > 2 * body ∧ upper_shadow < body * 0.5)

/-- `isShootingStar`. -/
def isShootingStar (candle : OHLCV) : Bool :=
  let body := |candle.close - candle.open_|
  let lower_shadow := min candle.open_ candle.close - candle.low
  let upper_shadow := candle.high - max candle.open_ candle.close
  decide (upper_shadow > 2 * body ∧ lower_shadow < body * 0.5)

/-- The exponential average as the specification words it: the seed is the
arithmetic mean of the FIRST `W` closes, then `ema <- close_i*a + ema*(1-a)`
with `a = 2/(W+1)` for `i = W .. n-1`. -/
def emaSeededFromFirst (data : List OHLCV) (W : Nat) : ℚ :=
  let a : ℚ := 2 / ((W : ℚ) + 1)
  let seed : ℚ := ((data.take W).map (fun c => c.close)).sum / W
  (data.drop W).foldl (fun ema c => c.close * a + ema * (1 - a)) seed

end TechnicalIndicators

/-! ## Quotes and history (`market_data.h`) -/

/-- Enriched per-symbol snapshot (`struct StockData`). -/
structure StockData where
  symbol : String
  name : String
  current_price : ℚ
  previous_close : ℚ
  change : ℚ
  change_percent : ℚ
  volume : Int
  avg_volume : Int
  volume_ratio : ℚ
  market_cap : ℚ
  day_high : ℚ
  day_low : ℚ
  rsi_14 : ℚ
  sma_20 : ℚ
  sma_50 : ℚ
  ema_9 : ℚ
  ema_21 : ℚ
  vwap : ℚ
  atr_14 : ℚ
  bollinger_upper : ℚ
  bollinger_lower : ℚ
  support_level : ℚ
  resistance_level : ℚ
  is_breakout : Bool
  is_breakdown : Bool
  volume_spike : Bool
  near_support : Bool
  near_resistance : Bool

/-- The default constructor `StockData()`. -/
def StockData.new : StockData :=
  { symbol := "", name := "", current_price := 0, previous_close := 0, change := 0,
    change_percent := 0, volume := 0, avg_volume := 0, volume_ratio := 1, market_cap := 0,
    day_high := 0, day_low := 0, rsi_14 := 50, sma_20 := 0, sma_50 := 0, ema_9 := 0,
    ema_21 := 0, vwap := 0, atr_14 := 0, bollinger_upper := 0, bollinger_lower := 0,
    support_level := 0, resistance_level := 0, is_breakout := false, is_breakdown := false,
    volume_spike := false, near_support := false, near_resistance := false }

/-- Price history of one symbol (`struct HistoricalData`). -/
structure HistoricalData where
  symbol : String
  candles : List OHLCV

/-! ## Signals and setups (`trading_signal.h`) -/

/-- `enum class SignalType`. -/
inductive SignalType where
  | BUY | SELL | STRONG_BUY | STRONG_SELL | HOLD | NEUTRAL
  deriving DecidableEq

/-- `enum class SignalStrength`. -/
inductive SignalStrength where
  | WEAK | MODERATE | STRONG | VERY_STRONG
  deriving DecidableEq

/-- `enum class StrategyType`. -/
inductive StrategyType where
  | ORB | VWAP | MA_CROSSOVER | RSI | BOLLINGER | BREAKOUT | SUPPORT_RESISTANCE
  | MOMENTUM | VOLUME_SPIKE | REVERSAL
  deriving DecidableEq

/-- `struct TradingSignal`. -/
structure TradingSignal where
  symbol : String
  type : SignalType
  strength : SignalStrength
  strategy : StrategyType
  entry_price : ℚ
  stop_loss : ℚ
  target_1 : ℚ
  target_2 : ℚ
  confidence : ℚ
  setup_description : String
  entry_reason : String
  risk_reward_info : String
  volume_confirmation : ℚ
  technical_score : ℚ
  breakout_confirmed : Bool
  volume_above_average : Bool

/-- The default constructor `TradingSignal()`. -/
def TradingSignal.new : TradingSignal :=
  { symbol := "", type := SignalType.NEUTRAL, strength := SignalStrength.WEAK,
    strategy := StrategyType.ORB, entry_price := 0, stop_loss := 0, target_1 := 0,
    target_2 := 0, confidence := 0, setup_description := "", entry_reason := "",
    risk_reward_info := "", volume_confirmation := 0, technical_score := 0,
    breakout_confirmed := false, volume_above_average := false }

/-- `struct TradingSetup`. -/
structure TradingSetup where
  symbol : String
  setup_name : String
  primary_signal : SignalType
  supporting_signals : List TradingSignal
  recommended_entry : ℚ
  stop_loss : ℚ
  target_1 : ℚ
  target_2 : ℚ
  risk_amount : ℚ
  potential_reward : ℚ
  risk_reward_ratio : ℚ
  best_entry_time : String
  setup_validity_minutes : Int
  overall_confidence : ℚ
  technical_confluence : Int
  volume_confirmation : Bool
  trend_alignment : Bool

/-- The default constructor `TradingSetup()`. -/
def TradingSetup.new : TradingSetup :=
  { symbol := "", setup_name := "", primary_signal := SignalType.NEUTRAL,
    supporting_signals := [], recommended_entry := 0, stop_loss := 0, target_1 := 0,
    target_2 := 0, risk_amount := 0, potential_reward := 0, risk_reward_ratio := 0,
    best_entry_time := "", setup_validity_minutes := 30, overall_confidence := 0,
    technical_confluence := 0, volume_confirmation := false, trend_alignment := false }

namespace SignalUtils

/-- `SignalUtils::calculateRiskRewardRatio`. -/
def calculateRiskRewardRatio (entry stop_loss target : ℚ) : ℚ :=
  if entry ≤ 0 ∨ stop_loss ≤ 0 ∨ target ≤ 0 ∨ entry = stop_loss then 0
  else
    let risk := |entry - stop_loss|
    let reward := |target - entry|
    reward / risk

end SignalUtils

/-- `struct SignalPerformance`. -/
structure SignalPerformance where
  strategy : StrategyType
  total_signals : Int
  successful_signals : Int
  win_rate : ℚ
  average_return : ℚ
  max_return : ℚ
  max_loss : ℚ
  average_holding_time_minutes : ℚ

/-! ## Strategies (`strategy_engine.h`, `strategy_engine.cpp`) -/

/-- `std::numeric_limits<double>::max()`. -/
def DBL_MAX : ℚ := 2 ^ 1024 - 2 ^ 971

/-- `static_cast<size_t>` of an `int` on a 64-bit target. -/
def sizeT (k : Int) : Nat := (k % 2 ^ 64).toNat

/-- `class BaseStrategy`: the virtual interface as a record of functions. -/
structure BaseStrategy where
  strategy_name_ : String
  strategy_type_ : StrategyType
  analyze : StockData → HistoricalData → List TradingSignal
  isApplicable : StockData → Bool
  getMinConfidenceThreshold : ℚ

namespace ORBStrategy

/-- `struct ORBLevels`. -/
structure ORBLevels where
  orb_high : ℚ
  orb_low : ℚ
  range_size : ℚ
  is_valid : Bool

/-- The default constructor `ORBLevels()`. -/
def ORBLevels.new : ORBLevels :=
  { orb_high := 0, orb_low := 0, range_size := 0, is_valid := false }

/-- `ORBStrategy::calculateORBLevels`: high and low over the first
`min(5, size)` candles, starting from `0` and `DBL_MAX`. -/
def calculateORBLevels (historical : HistoricalData) : ORBLevels :=
  if historical.candles.length < 5 then ORBLevels.new
  else
    let first := historical.candles.take (min 5 historical.candles.length)
    let high := first.foldl (fun h c => max h c.high) 0
    let low := first.foldl (fun l c => min l c.low) DBL_MAX
    { orb_high := high, orb_low := low, range_size := high - low,
      is_valid := decide (high - low > 0) }

/-- `ORBStrategy::calculateBreakoutProbability`. -/
def calculateBreakoutProbability (stock : StockData) (levels : ORBLevels) : ℚ :=
  let base_prob : ℚ := 0.5
  let base_prob := if stock.volume_ratio > 1.5 then base_prob + 0.2 else base_prob
  let range_pct := levels.range_size / stock.current_price
  let base_prob := if range_pct > 0.02 then base_prob + 0.1 else base_prob
  min 0.9 base_prob

/-- `ORBStrategy::analyze`. -/
def analyze (stock : StockData) (historical : HistoricalData) : List TradingSignal :=
  let orb_levels := calculateORBLevels historical
  if !orb_levels.is_valid then []
  else
    let signal : TradingSignal :=
      { TradingSignal.new with strategy := StrategyType.ORB, symbol := stock.symbol }
    if stock.current_price > orb_levels.orb_high then
      [{ signal with
          type := SignalType.BUY
          entry_price := orb_levels.orb_high
          stop_loss := orb_levels.orb_low
          target_1 := orb_levels.orb_high + (orb_levels.range_size * 1.5)
          confidence := calculateBreakoutProbability stock orb_levels
          setup_description := "ORB Breakout - Price above opening range high" }]
    else if stock.current_price < orb_levels.orb_low then
      [{ signal with
          type := SignalType.SELL
          entry_price := orb_levels.orb_low
          stop_loss := orb_levels.orb_high
          target_1 := orb_levels.orb_low - (orb_levels.range_size * 1.5)
          confidence := calculateBreakoutProbability stock orb_levels
          setup_description := "ORB Breakdown - Price below opening range low" }]
    else []

/-- `ORBStrategy::isApplicable`. -/
def isApplicable (stock : StockData) : Bool :=
  decide (stock.volume_ratio > 1.2 ∧ stock.current_price > 100)

/-- The `ORBStrategy` object. -/
def strategy : BaseStrategy :=
  { strategy_name_ := "Opening Range Breakout", strategy_type_ := StrategyType.ORB,
    analyze := analyze, isApplicable := isApplicable, getMinConfidenceThreshold := 0.6 }

end ORBStrategy

namespace VWAPStrategy

/-- `VWAPStrategy::calculateVWAPStrength`. -/
def calculateVWAPStrength (stock : StockData) : ℚ :=
  let base_strength : ℚ := 0.5
  let base_strength :=
    if stock.volume_ratio > 1.5 then base_strength + 0.2 else base_strength
  let distance := |stock.current_price - stock.vwap| / stock.vwap
  let base_strength := if distance > 0.01 then base_strength + 0.1 else base_strength
  min 0.8 base_strength

/-- `VWAPStrategy::analyze`. -/
def analyze (stock : StockData) (_historical : HistoricalData) : List TradingSignal :=
  if stock.vwap ≤ 0 then []
  else
    let signal : TradingSignal :=
      { TradingSignal.new with strategy := StrategyType.VWAP, symbol := stock.symbol }
    let price_diff_pct := (stock.current_price - stock.vwap) / stock.vwap
    if price_diff_pct > 0.01 ∧ stock.volume_ratio > 1.3 then
      [{ signal with
          type := SignalType.BUY
          entry_price := stock.current_price
          stop_loss := stock.vwap
          target_1 := stock.current_price * 1.02
          confidence := calculateVWAPStrength stock
          setup_description := "VWAP Breakout - Price above VWAP with volume" }]
    else if price_diff_pct < -0.01 ∧ stock.volume_ratio > 1.3 then
      [{ signal with
          type := SignalType.SELL
          entry_price := stock.current_price
          stop_loss := stock.vwap
          target_1 := stock.current_price * 0.98
          confidence := calculateVWAPStrength stock
          setup_description := "VWAP Breakdown - Price below VWAP with volume" }]
    else []

/-- `VWAPStrategy::isApplicable`. -/
def isApplicable (stock : StockData) : Bool :=
  decide (stock.vwap > 0 ∧ stock.volume > 0)

/-- The `VWAPStrategy` object. -/
def strategy : BaseStrategy :=
  { strategy_name_ := "VWAP", strategy_type_ := StrategyType.VWAP,
    analyze := analyze, isApplicable := isApplicable, getMinConfidenceThreshold := 0.55 }

end VWAPStrategy

namespace RSIStrategy

/-- `RSIStrategy::isOverbought`. -/
def isOverbought (rsi : ℚ) (threshold : ℚ) : Bool := decide (rsi > threshold)

/-- `RSIStrategy::isOversold`. -/
def isOversold (rsi : ℚ) (threshold : ℚ) : Bool := decide (rsi < threshold)

/-- `RSIStrategy::analyze`; the thresholds are the default arguments `30.0`
and `70.0` of the declarations in `strategy_engine.h`. -/
def analyze (stock : StockData) (_historical : HistoricalData) : List TradingSignal :=
  let signal : TradingSignal :=
    { TradingSignal.new with strategy := StrategyType.RSI, symbol := stock.symbol }
  if isOversold stock.rsi_14 30 then
    [{ signal with
        type := SignalType.BUY, confidence := 0.6, setup_description := "RSI Oversold" }]
  else if isOverbought stock.rsi_14 70 then
    [{ signal with
        type := SignalType.SELL, confidence := 0.6, setup_description := "RSI Overbought" }]
  else []

/-- `RSIStrategy::isApplicable`. -/
def isApplicable (stock : StockData) : Bool :=
  decide (stock.rsi_14 > 0 ∧ stock.rsi_14 < 100)

/-- The `RSIStrategy` object. -/
def strategy : BaseStrategy :=
  { strategy_name_ := "RSI", strategy_type_ := StrategyType.RSI,
    analyze := analyze, isApplicable := isApplicable, getMinConfidenceThreshold := 0.65 }

end RSIStrategy

namespace BreakoutStrategy

/-- `BreakoutStrategy::detectBreakout`. -/
def detectBreakout (stock : StockData) (_historical : HistoricalData) : Bool :=
  stock.is_breakout

/-- `BreakoutStrategy::analyze`. -/
def analyze (stock : StockData) (historical : HistoricalData) : List TradingSignal :=
  if detectBreakout stock historical then
    [{ TradingSignal.new with
        strategy := StrategyType.BREAKOUT
        symbol := stock.symbol
        type := SignalType.BUY
        confidence := 0.7
        setup_description := "Price Breakout" }]
  else []

/-- `BreakoutStrategy::isApplicable`. -/
def isApplicable (stock : StockData) : Bool :=
  decide (stock.volume_ratio > 1.0)

/-- The `BreakoutStrategy` object. -/
def strategy : BaseStrategy :=
  { strategy_name_ := "Breakout", strategy_type_ := StrategyType.BREAKOUT,
    analyze := analyze, isApplicable := isApplicable, getMinConfidenceThreshold := 0.7 }

end BreakoutStrategy

namespace VolumeStrategy

/-- `VolumeStrategy::isVolumeSpike`. -/
def isVolumeSpike (stock : StockData) (threshold : ℚ) : Bool :=
  decide (stock.volume_ratio > threshold)

/-- `VolumeStrategy::isPriceVolumeAlignment`. -/
def isPriceVolumeAlignment (stock : StockData) : Bool :=
  (decide (stock.change > 0) && stock.volume_spike) ||
    (decide (stock.change < 0) && stock.volume_spike)

/-- `VolumeStrategy::calculateVolumeStrength`. -/
def calculateVolumeStrength (stock : StockData) : ℚ :=
  min 0.8 (stock.volume_ratio * 0.3)

/-- `VolumeStrategy::analyze`; `1.5` is the default threshold argument of
`isVolumeSpike` in `strategy_engine.h`. -/
def analyze (stock : StockData) (_historical : HistoricalData) : List TradingSignal :=
  if isVolumeSpike stock 1.5 && isPriceVolumeAlignment stock then
    [{ TradingSignal.new with
        strategy := StrategyType.VOLUME_SPIKE
        symbol := stock.symbol
        type := if stock.change > 0 then SignalType.BUY else SignalType.SELL
        confidence := calculateVolumeStrength stock
        setup_description := "Volume Spike with Price Alignment" }]
  else []

/-- `VolumeStrategy::isApplicable`. -/
def isApplicable (stock : StockData) : Bool :=
  decide (stock.volume > 0 ∧ stock.avg_volume > 0)

/-- The `VolumeStrategy` object. -/
def strategy : BaseStrategy :=
  { strategy_name_ := "Volume Spike", strategy_type_ := StrategyType.VOLUME_SPIKE,
    analyze := analyze, isApplicable := isApplicable, getMinConfidenceThreshold := 0.6 }

end VolumeStrategy

/-! ## Engine (`strategy_engine.cpp`) -/

/-- `operator[]=` on the `std::map<std::string, bool>` of enabled flags, kept
as an association list in ascending key order (`std::string` compares its
characters lexicographically). -/
def mapSet : List (String × Bool) → String → Bool → List (String × Bool)
  | [], k, v => [(k, v)]
  | (k0, v0) :: rest, k, v =>
    if k = k0 then (k, v) :: rest
    else if k.data < k0.data then (k, v) :: (k0, v0) :: rest
    else (k0, v0) :: mapSet rest k v

/-- Reading `strategy_enabled_[name]`: a missing key reads as the
value-initialised `false`. -/
def mapGet : List (String × Bool) → String → Bool
  | [], _ => false
  | (k0, v0) :: rest, k => if k = k0 then v0 else mapGet rest k

/-- `class StrategyEngine`: its data members. -/
structure StrategyEngine where
  strategies_ : List BaseStrategy
  strategy_enabled_ : List (String × Bool)
  performance_stats_ : List (StrategyType × SignalPerformance)
  global_confidence_threshold_ : ℚ
  min_risk_reward_ratio_ : ℚ
  max_signals_per_stock_ : Int

namespace StrategyEngine

/-- `StrategyEngine::addStrategy`. -/
def addStrategy (engine : StrategyEngine) (strategy : BaseStrategy) : StrategyEngine :=
  { engine with
    strategies_ := engine.strategies_ ++ [strategy]
    strategy_enabled_ := mapSet engine.strategy_enabled_ strategy.strategy_name_ true }

/-- `StrategyEngine::initializeDefaultStrategies`. -/
def initializeDefaultStrategies (engine : StrategyEngine) : StrategyEngine :=
  ((((engine.addStrategy ORBStrategy.strategy).addStrategy VWAPStrategy.strategy).addStrategy
    RSIStrategy.strategy).addStrategy BreakoutStrategy.strategy).addStrategy
    VolumeStrategy.strategy

/-- The constructor `StrategyEngine::StrategyEngine()`. -/
def new : StrategyEngine :=
  initializeDefaultStrategies
    { strategies_ := [], strategy_enabled_ := [], performance_stats_ := [],
      global_confidence_threshold_ := 0.6, min_risk_reward_ratio_ := 1.5,
      max_signals_per_stock_ := 3 }

/-- `StrategyEngine::updateSignalMetrics`. -/
def updateSignalMetrics (signal : TradingSignal) (stock : StockData) : TradingSignal :=
  { signal with
    symbol := stock.symbol
    volume_above_average := stock.volume_spike
    breakout_confirmed := stock.is_breakout || stock.is_breakdown
    technical_score := min 1 ((stock.rsi_14 / 50) * 0.5 + 0.5) }

/-- The strategy loop of `analyzeStock`: the signals pushed to `all_signals`
before the list is capped. -/
def collectSignals (engine : StrategyEngine) (stock : StockData)
    (historical : HistoricalData) : List TradingSignal :=
  engine.strategies_.foldl
    (fun all_signals strategy =>
      if !(mapGet engine.strategy_enabled_ strategy.strategy_name_) then all_signals
      else if strategy.isApplicable stock then
        all_signals ++
          ((strategy.analyze stock historical).map
            (fun signal => updateSignalMetrics signal stock)).filter
            (fun signal => decide (signal.confidence ≥ strategy.getMinConfidenceThreshold))
      else all_signals)
    []

/-- `StrategyEngine::analyzeStock`. The library routine `std::sort` with the
comparator `a.confidence > b.confidence` is the argument `stdSort`: the C++
standard fixes its result only up to the order of equivalent elements. -/
def analyzeStock (stdSort : List TradingSignal → List TradingSignal)
    (engine : StrategyEngine) (stock : StockData) (historical : HistoricalData) :
    List TradingSignal :=
  let all_signals := collectSignals engine stock historical
  if all_signals.length > sizeT engine.max_signals_per_stock_ then
    (stdSort all_signals).take (sizeT engine.max_signals_per_stock_)
  else all_signals

/-- The scan of `std::max_element` after its first element: `best` is the
current largest (index and value), `i` the index of the next element. -/
def maxElementFrom {α : Type} (comp : α → α → Bool) (best : Nat × α) (i : Nat) :
    List α → Nat × α
  | [] => best
  | x :: xs => maxElementFrom comp (if comp best.2 x then (i, x) else best) (i + 1) xs

/-- `std::max_element(first, last, comp)`: `none` is the iterator `last` of an
empty range, otherwise the index and value of the element found. -/
def max_element {α : Type} (comp : α → α → Bool) : List α → Option (Nat × α)
  | [] => none
  | x :: xs => some (maxElementFrom comp (0, x) 1 xs)

/-- `StrategyEngine::calculateSetupConfidence`. -/
def calculateSetupConfidence (signals : List TradingSignal) : ℚ :=
  if signals.isEmpty then 0
  else
    let sum := signals.foldl (fun s signal => s + signal.confidence) 0
    let avg_confidence := sum / (signals.length : ℚ)
    let confluence_bonus := min 0.2 (((signals.length - 1 : Nat) : ℚ) * 0.05)
    min 1 (avg_confidence + confluence_bonus)

/-- `StrategyEngine::combineSignalsToSetup`. -/
def combineSignalsToSetup (symbol : String) (signals : List TradingSignal) : TradingSetup :=
  let setup : TradingSetup :=
    { TradingSetup.new with
      symbol := symbol
      supporting_signals := signals
      technical_confluence := (signals.length : Int) }
  if signals.isEmpty then setup
  else
    match max_element (fun a b => decide (a.confidence < b.confidence)) signals with
    | none => setup
    | some (_, primary) =>
      { setup with
        primary_signal := primary.type
        recommended_entry := primary.entry_price
        stop_loss := primary.stop_loss
        target_1 := primary.target_1
        target_2 := primary.target_2
        overall_confidence := calculateSetupConfidence signals
        risk_reward_ratio :=
          SignalUtils.calculateRiskRewardRatio primary.entry_price primary.stop_loss
            primary.target_1
        setup_validity_minutes := 30
        best_entry_time := "Market Open +15 mins" }

/-- `StrategyEngine::isHighQualitySetup`. -/
def isHighQualitySetup (engine : StrategyEngine) (setup : TradingSetup) : Bool :=
  decide (setup.overall_confidence ≥ engine.global_confidence_threshold_ ∧
    setup.risk_reward_ratio ≥ engine.min_risk_reward_ratio_)

end StrategyEngine

/-! ## Indicator library, continued (`technical_indicators.cpp`) -/

/-- `struct BollingerBands`. -/
structure BollingerBands where
  upper : ℚ
  middle : ℚ
  lower : ℚ

/-- The default constructor `BollingerBands()`. -/
def BollingerBands.new : BollingerBands := { upper := 0, middle := 0, lower := 0 }

namespace TechnicalIndicators

/-- `calculateTrueRange`; `std::max({hl, hc, lc})` is the maximum of three. -/
def calculateTrueRange (current previous : OHLCV) : ℚ :=
  let hl := current.high - current.low
  let hc := |current.high - previous.close|
  let lc := |current.low - previous.close|
  max (max hl hc) lc

/-- The `true_ranges` vector of `calculateATR`:
`calculateTrueRange(data[i], data[i-1])` for `i = 1 ..`. -/
def trueRanges (data : List OHLCV) : List ℚ :=
  List.zipWith (fun prev cur => calculateTrueRange cur prev) data data.tail

/-- `calculateATR`. -/
def calculateATR (data : List OHLCV) (periods : Nat) : ℚ :=
  if data.length < periods + 1 then 0
  else if (trueRanges data).length < periods then 0
  else wilderSmooth (trueRanges data) periods (seedAverage (trueRanges data) periods)

/-- `calculateBollingerBands`. The library routine `std::sqrt` is the argument
`sqrt`: the rationals have no square root function of their own. -/
def calculateBollingerBands (sqrt : ℚ → ℚ) (data : List OHLCV) (periods : Nat)
    (multiplier : ℚ) : BollingerBands :=
  if data.length < periods then BollingerBands.new
  else
    let sma := calculateSMA data periods
    let sum_sq_diff := (data.drop (data.length - periods)).foldl
      (fun s c =>
        let diff := c.close - sma
        s + diff * diff)
      0
    let std_dev := sqrt (sum_sq_diff / periods)
    { upper := sma + (multiplier * std_dev), middle := sma,
      lower := sma - (multiplier * std_dev) }

/-- `calculateTypicalPrice`. -/
def calculateTypicalPrice (candle : OHLCV) : ℚ :=
  (candle.high + candle.low + candle.close) / 3

/-- `calculateVWAP`. The `long long` accumulator `cumulative_volume` is an
`Int`; signed overflow is undefined behaviour in C++ and outside the model. -/
def calculateVWAP (data : List OHLCV) : ℚ :=
  if data.isEmpty then 0
  else
    let cumulative_pv := data.foldl
      (fun s candle => s + calculateTypicalPrice candle * (candle.volume : ℚ)) 0
    let cumulative_volume : Int := data.foldl (fun s candle => s + candle.volume) 0
    if cumulative_volume > 0 then cumulative_pv / (cumulative_volume : ℚ) else 0

end TechnicalIndicators

/-! ## Signal scoring (`trading_signal.cpp`) -/

namespace SignalUtils

/-- `SignalUtils::calculateSignalScore`. -/
def calculateSignalScore (signal : TradingSignal) : ℚ :=
  let score : ℚ := 0
  let score := score + signal.confidence * 40
  let score := score + signal.technical_score * 20
  let score :=
    if signal.volume_above_average then score + signal.volume_confirmation * 15 else score
  let score := if signal.breakout_confirmed then score + 10 else score
  let rr_ratio := calculateRiskRewardRatio signal.entry_price signal.stop_loss signal.target_1
  let score := if rr_ratio > 0 then score + min 15 (rr_ratio * 3) else score
  let score :=
    match signal.strength with
    | SignalStrength.VERY_STRONG => score * 1.2
    | SignalStrength.STRONG => score * 1.1
    | SignalStrength.MODERATE => score * 1.0
    | SignalStrength.WEAK => score * 0.9
  min 100 score

/-- The strength multiplier as the specification lists it: 1.2, 1.1, 1.0 and
0.9 for VERY_STRONG, STRONG, MODERATE and WEAK. -/
def strengthMultiplier : SignalStrength → ℚ
  | SignalStrength.VERY_STRONG => 1.2
  | SignalStrength.STRONG => 1.1
  | SignalStrength.MODERATE => 1.0
  | SignalStrength.WEAK => 0.9

end SignalUtils

/-! ## Engine, continued (`strategy_engine.cpp`) -/

/-- The postcondition of `std::sort(first, last, comp)`: the result is a
permutation of the input and no later element compares before an earlier one.
The order of elements that `comp` does not separate is left open. -/
def IsStdSort {α : Type} (comp : α → α → Bool) (sort : List α → List α) : Prop :=
  ∀ l : List α, (sort l).Perm l ∧ (sort l).Pairwise (fun a b => comp b a = false)

namespace StrategyEngine

/-- `StrategyEngine::generateSetups`. The history map is read through
`find` only, so it is a partial function on symbols; `stdSort` is the sort of
`analyzeStock`, and `stdSortSetups` is `std::sort` with the comparator
`a.overall_confidence > b.overall_confidence`. -/
def generateSetups (stdSort : List TradingSignal → List TradingSignal)
    (stdSortSetups : List TradingSetup → List TradingSetup) (engine : StrategyEngine)
    (stocks : List StockData) (historical_data : String → Option HistoricalData) :
    List TradingSetup :=
  let setups := stocks.foldl
    (fun setups stock =>
      match historical_data stock.symbol with
      | none => setups
      | some historical =>
        let signals := analyzeStock stdSort engine stock historical
        if !signals.isEmpty then
          let setup := combineSignalsToSetup stock.symbol signals
          if isHighQualitySetup engine setup then setups ++ [setup] else setups
        else setups)
    []
  stdSortSetups setups

/-- `StrategyEngine::updatePerformanceStats`: the body only discards its
three arguments (`(void)signal; (void)was_profitable; (void)return_percentage;`),
so the engine is returned as it was. -/
def updatePerformanceStats (engine : StrategyEngine) (_signal : TradingSignal)
    (_was_profitable : Bool) (_return_percentage : ℚ) : StrategyEngine :=
  engine

/-- `StrategyEngine::getPerformanceStats`: a copy of `performance_stats_`. -/
def getPerformanceStats (engine : StrategyEngine) :
    List (StrategyType × SignalPerformance) :=
  engine.performance_stats_

/-- The entry of a performance table for one strategy (`std::map::find`). -/
def statsFor (table : List (StrategyType × SignalPerformance)) (strategy : StrategyType) :
    Option SignalPerformance :=
  (table.find? (fun entry => decide (entry.1 = strategy))).map (fun entry => entry.2)

/-- `StrategyEngine::setMaxSignalsPerStock`. -/
def setMaxSignalsPerStock (engine : StrategyEngine) (max_signals : Int) : StrategyEngine :=
  { engine with max_signals_per_stock_ := max_signals }

end StrategyEngine

/-! ## Quote enrichment and validation (`yahoo_finance_api.cpp`) -/

namespace TechnicalIndicators

end TechnicalIndicators

namespace YahooFinanceAPI

end YahooFinanceAPI

namespace DataValidator

/-- The constant `LLONG_MAX` of `<climits>`. -/
def LLONG_MAX : Int := 2 ^ 63 - 1

/-- `DataValidator::isValidPrice`; `std::isfinite` holds of every rational. -/
def isValidPrice (price : ℚ) : Bool :=
  decide (price > 0 ∧ price < 1000000)

/-- `DataValidator::isValidVolume`. -/
def isValidVolume (volume : Int) : Bool :=
  decide (volume ≥ 0 ∧ volume < LLONG_MAX)

/-- `DataValidator::isValidSymbol`; `std::string::length` counts bytes. -/
def isValidSymbol (symbol : String) : Bool :=
  !(decide (symbol.utf8ByteSize = 0)) && decide (symbol.utf8ByteSize < 50)

/-- `DataValidator::sanitizeStockData`: six assignments in sequence. -/
def sanitizeStockData (data : StockData) : StockData :=
  let data := if !isValidPrice data.current_price then { data with current_price := 0 } else data
  let data :=
    if !isValidPrice data.previous_close then { data with previous_close := 0 } else data
  let data := if !isValidVolume data.volume then { data with volume := 0 } else data
  let data := if !isValidSymbol data.symbol then { data with symbol := "UNKNOWN" } else data
  let data := if |data.change_percent| > 100 then { data with change_percent := 0 } else data
  let data :=
    if data.rsi_14 < 0 ∨ data.rsi_14 > 100 then { data with rsi_14 := 50 } else data
  data

end DataValidator

/-! ## Strategy management (`strategy_engine.cpp`) -/

namespace StrategyEngine

/-- `StrategyEngine::removeStrategy`: erase/remove_if on `strategies_` only. -/
def removeStrategy (engine : StrategyEngine) (name : String) : StrategyEngine :=
  { engine with
    strategies_ := engine.strategies_.filter (fun strategy => !(strategy.strategy_name_ == name)) }

/-- `StrategyEngine::enableStrategy`. -/
def enableStrategy (engine : StrategyEngine) (name : String) : StrategyEngine :=
  { engine with strategy_enabled_ := mapSet engine.strategy_enabled_ name true }

/-- `StrategyEngine::disableStrategy`. -/
def disableStrategy (engine : StrategyEngine) (name : String) : StrategyEngine :=
  { engine with strategy_enabled_ := mapSet engine.strategy_enabled_ name false }

/-- `StrategyEngine::getActiveStrategies`: the keys of `strategy_enabled_`
whose flag is set, in key order. -/
def getActiveStrategies (engine : StrategyEngine) : List String :=
  (engine.strategy_enabled_.filter (fun entry => entry.2)).map (fun entry => entry.1)

/-- `StrategyEngine::getAvailableStrategies`: the names in `strategies_`. -/
def getAvailableStrategies (engine : StrategyEngine) : List String :=
  engine.strategies_.map (fun strategy => strategy.strategy_name_)

end StrategyEngine

/-! ## The pipeline against the system clock (`trading_signal.h`, `strategy_engine.cpp`)

The constructors `TradingSignal()` and `TradingSetup()` initialise `timestamp`
and `created_at` with `std::chrono::system_clock::now()`, and `analyzeStock`
reads `strategy_enabled_` through `operator[]`, which inserts a missing key.
The structures above carry every other member but `expiry`, which no
constructor and no function of the pipeline assigns. The namespace `Clocked`
holds the functions of `strategy_engine.cpp` once more with both effects
written out: `clock k` is the value that call number `k` of `now()` returns,
`reads` counts the calls made so far, and the engine is handed on with its
map. -/

/-- A `TradingSignal` with its `timestamp` member. -/
structure StampedSignal where
  signal : TradingSignal
  timestamp : Nat

/-- A `TradingSetup` with its `created_at` member and the `timestamp` members
of its supporting signals. -/
structure StampedSetup where
  setup : TradingSetup
  supporting_timestamps : List Nat
  created_at : Nat

/-- The constructor `TradingSignal()`: every member as in `TradingSignal.new`
and `timestamp` the next reading of the clock. The second component is the
number of readings taken so far. -/
def StampedSignal.new (clock : Nat → Nat) (reads : Nat) : StampedSignal × Nat :=
  ({ signal := TradingSignal.new, timestamp := clock reads }, reads + 1)

/-- The constructor `TradingSetup()`: every member as in `TradingSetup.new`
and `created_at` the next reading of the clock. -/
def StampedSetup.new (clock : Nat → Nat) (reads : Nat) : StampedSetup × Nat :=
  ({ setup := TradingSetup.new, supporting_timestamps := [], created_at := clock reads },
    reads + 1)

/-- Reading `strategy_enabled_[name]` through `std::map::operator[]`: the
value read, and the map afterwards, in which a missing key has been inserted
with the value-initialised `false`. -/
def mapIndex (m : List (String × Bool)) (k : String) : Bool × List (String × Bool) :=
  (mapGet m k, mapSet m k (mapGet m k))

/-- The outcome of the comparator on the elements at positions `i` and `j`
of a range. -/
def compareAt {α : Type} (comp : α → α → Bool) (l : List α) (i j : Nat) : Bool :=
  match l[i]?, l[j]? with
  | some a, some b => comp a b
  | _, _ => false

/-- `std::sort(first, last, comp)` as a comparison sort. The routine sees the
elements through `comp` only and moves them, so the order it leaves them in
is a function of the length of the range and of the outcomes of `comp`:
`arrange n outcome` lists the original positions in their final order. The
routine itself is library code and stays the argument `arrange`. -/
def std_sort {α : Type} (arrange : Nat → (Nat → Nat → Bool) → List Nat)
    (comp : α → α → Bool) (l : List α) : List α :=
  (arrange l.length (compareAt comp l)).filterMap (fun i => l[i]?)

namespace Clocked

/-- `class BaseStrategy`: `analyze` takes the clock and the number of
readings made so far, and returns the number made when it is done. -/
structure BaseStrategy where
  strategy_name_ : String
  strategy_type_ : StrategyType
  analyze : (Nat → Nat) → Nat → StockData → HistoricalData → List StampedSignal × Nat
  isApplicable : StockData → Bool
  getMinConfidenceThreshold : ℚ

namespace ORBStrategy

/-- `ORBStrategy::analyze`: `TradingSignal signal;` is reached once the
opening range is valid. -/
def analyze (clock : Nat → Nat) (reads : Nat) (stock : StockData)
    (historical : HistoricalData) : List StampedSignal × Nat :=
  let orb_levels := TradingApp.ORBStrategy.calculateORBLevels historical
  if !orb_levels.is_valid then ([], reads)
  else
    let constructed := StampedSignal.new clock reads
    let signal : StampedSignal :=
      { constructed.1 with
        signal :=
          { constructed.1.signal with strategy := StrategyType.ORB, symbol := stock.symbol } }
    if stock.current_price > orb_levels.orb_high then
      ([{ signal with
          signal :=
            { signal.signal with
              type := SignalType.BUY
              entry_price := orb_levels.orb_high
              stop_loss := orb_levels.orb_low
              target_1 := orb_levels.orb_high + (orb_levels.range_size * 1.5)
              confidence :=
                TradingApp.ORBStrategy.calculateBreakoutProbability stock orb_levels
              setup_description := "ORB Breakout - Price above opening range high" } }],
        constructed.2)
    else if stock.current_price < orb_levels.orb_low then
      ([{ signal with
          signal :=
            { signal.signal with
              type := SignalType.SELL
              entry_price := orb_levels.orb_low
              stop_loss := orb_levels.orb_high
              target_1 := orb_levels.orb_low - (orb_levels.range_size * 1.5)
              confidence :=
                TradingApp.ORBStrategy.calculateBreakoutProbability stock orb_levels
              setup_description := "ORB Breakdown - Price below opening range low" } }],
        constructed.2)
    else ([], constructed.2)

/-- The `ORBStrategy` object. -/
def strategy : BaseStrategy :=
  { strategy_name_ := "Opening Range Breakout", strategy_type_ := StrategyType.ORB,
    analyze := analyze, isApplicable := TradingApp.ORBStrategy.isApplicable,
    getMinConfidenceThreshold := 0.6 }

end ORBStrategy

namespace VWAPStrategy

/-- `VWAPStrategy::analyze`: `TradingSignal signal;` is reached once
`stock.vwap > 0`. -/
def analyze (clock : Nat → Nat) (reads : Nat) (stock : StockData)
    (_historical : HistoricalData) : List StampedSignal × Nat :=
  if stock.vwap ≤ 0 then ([], reads)
  else
    let constructed := StampedSignal.new clock reads
    let signal : StampedSignal :=
      { constructed.1 with
        signal :=
          { constructed.1.signal with strategy := StrategyType.VWAP, symbol := stock.symbol } }
    let price_diff_pct := (stock.current_price - stock.vwap) / stock.vwap
    if price_diff_pct > 0.01 ∧ stock.volume_ratio > 1.3 then
      ([{ signal with
          signal :=
            { signal.signal with
              type := SignalType.BUY
              entry_price := stock.current_price
              stop_loss := stock.vwap
              target_1 := stock.current_price * 1.02
              confidence := TradingApp.VWAPStrategy.calculateVWAPStrength stock
              setup_description := "VWAP Breakout - Price above VWAP with volume" } }],
        constructed.2)
    else if price_diff_pct < -0.01 ∧ stock.volume_ratio > 1.3 then
      ([{ signal with
          signal :=
            { signal.signal with
              type := SignalType.SELL
              entry_price := stock.current_price
              stop_loss := stock.vwap
              target_1 := stock.current_price * 0.98
              confidence := TradingApp.VWAPStrategy.calculateVWAPStrength stock
              setup_description := "VWAP Breakdown - Price below VWAP with volume" } }],
        constructed.2)
    else ([], constructed.2)

/-- The `VWAPStrategy` object. -/
def strategy : BaseStrategy :=
  { strategy_name_ := "VWAP", strategy_type_ := StrategyType.VWAP,
    analyze := analyze, isApplicable := TradingApp.VWAPStrategy.isApplicable,
    getMinConfidenceThreshold := 0.55 }

end VWAPStrategy

namespace RSIStrategy

/-- `RSIStrategy::analyze`: `TradingSignal signal;` comes before the tests,
so the clock is read on every call. -/
def analyze (clock : Nat → Nat) (reads : Nat) (stock : StockData)
    (_historical : HistoricalData) : List StampedSignal × Nat :=
  let constructed := StampedSignal.new clock reads
  let signal : StampedSignal :=
    { constructed.1 with
      signal :=
        { constructed.1.signal with strategy := StrategyType.RSI, symbol := stock.symbol } }
  if TradingApp.RSIStrategy.isOversold stock.rsi_14 30 then
    ([{ signal with
        signal :=
          { signal.signal with
            type := SignalType.BUY, confidence := 0.6, setup_description := "RSI Oversold" } }],
      constructed.2)
  else if TradingApp.RSIStrategy.isOverbought stock.rsi_14 70 then
    ([{ signal with
        signal :=
          { signal.signal with
            type := SignalType.SELL, confidence := 0.6,
            setup_description := "RSI Overbought" } }],
      constructed.2)
  else ([], constructed.2)

/-- The `RSIStrategy` object. -/
def strategy : BaseStrategy :=
  { strategy_name_ := "RSI", strategy_type_ := StrategyType.RSI,
    analyze := analyze, isApplicable := TradingApp.RSIStrategy.isApplicable,
    getMinConfidenceThreshold := 0.65 }

end RSIStrategy

namespace BreakoutStrategy

/-- `BreakoutStrategy::analyze`: `TradingSignal signal;` is inside the `if`. -/
def analyze (clock : Nat → Nat) (reads : Nat) (stock : StockData)
    (historical : HistoricalData) : List StampedSignal × Nat :=
  if TradingApp.BreakoutStrategy.detectBreakout stock historical then
    let constructed := StampedSignal.new clock reads
    ([{ constructed.1 with
        signal :=
          { constructed.1.signal with
            strategy := StrategyType.BREAKOUT
            symbol := stock.symbol
            type := SignalType.BUY
            confidence := 0.7
            setup_description := "Price Breakout" } }],
      constructed.2)
  else ([], reads)

/-- The `BreakoutStrategy` object. -/
def strategy : BaseStrategy :=
  { strategy_name_ := "Breakout", strategy_type_ := StrategyType.BREAKOUT,
    analyze := analyze, isApplicable := TradingApp.BreakoutStrategy.isApplicable,
    getMinConfidenceThreshold := 0.7 }

end BreakoutStrategy

namespace VolumeStrategy

/-- `VolumeStrategy::analyze`: `TradingSignal signal;` is inside the `if`. -/
def analyze (clock : Nat → Nat) (reads : Nat) (stock : StockData)
    (_historical : HistoricalData) : List StampedSignal × Nat :=
  if TradingApp.VolumeStrategy.isVolumeSpike stock 1.5 &&
      TradingApp.VolumeStrategy.isPriceVolumeAlignment stock then
    let constructed := StampedSignal.new clock reads
    ([{ constructed.1 with
        signal :=
          { constructed.1.signal with
            strategy := StrategyType.VOLUME_SPIKE
            symbol := stock.symbol
            type := if stock.change > 0 then SignalType.BUY else SignalType.SELL
            confidence := TradingApp.VolumeStrategy.calculateVolumeStrength stock
            setup_description := "Volume Spike with Price Alignment" } }],
      constructed.2)
  else ([], reads)

/-- The `VolumeStrategy` object. -/
def strategy : BaseStrategy :=
  { strategy_name_ := "Volume Spike", strategy_type_ := StrategyType.VOLUME_SPIKE,
    analyze := analyze, isApplicable := TradingApp.VolumeStrategy.isApplicable,
    getMinConfidenceThreshold := 0.6 }

end VolumeStrategy

/-- `class StrategyEngine`: its data members. -/
structure StrategyEngine where
  strategies_ : List BaseStrategy
  strategy_enabled_ : List (String × Bool)
  performance_stats_ : List (StrategyType × SignalPerformance)
  global_confidence_threshold_ : ℚ
  min_risk_reward_ratio_ : ℚ
  max_signals_per_stock_ : Int

namespace StrategyEngine

/-- `StrategyEngine::addStrategy`. -/
def addStrategy (engine : StrategyEngine) (strategy : BaseStrategy) : StrategyEngine :=
  { engine with
    strategies_ := engine.strategies_ ++ [strategy]
    strategy_enabled_ := mapSet engine.strategy_enabled_ strategy.strategy_name_ true }

/-- `StrategyEngine::initializeDefaultStrategies`. -/
def initializeDefaultStrategies (engine : StrategyEngine) : StrategyEngine :=
  ((((engine.addStrategy ORBStrategy.strategy).addStrategy VWAPStrategy.strategy).addStrategy
    RSIStrategy.strategy).addStrategy BreakoutStrategy.strategy).addStrategy
    VolumeStrategy.strategy

/-- The constructor `StrategyEngine::StrategyEngine()`. -/
def new : StrategyEngine :=
  initializeDefaultStrategies
    { strategies_ := [], strategy_enabled_ := [], performance_stats_ := [],
      global_confidence_threshold_ := 0.6, min_risk_reward_ratio_ := 1.5,
      max_signals_per_stock_ := 3 }

/-- `StrategyEngine::updateSignalMetrics`: `timestamp` is not assigned. -/
def updateSignalMetrics (signal : StampedSignal) (stock : StockData) : StampedSignal :=
  { signal with
    signal :=
      { signal.signal with
        symbol := stock.symbol
        volume_above_average := stock.volume_spike
        breakout_confirmed := stock.is_breakout || stock.is_breakdown
        technical_score := min 1 ((stock.rsi_14 / 50) * 0.5 + 0.5) } }

/-- The strategy loop of `analyzeStock`: `all_signals`, the number of clock
readings, and `strategy_enabled_` when the loop is done. The copies made by
`push_back` carry the `timestamp` of the signal they copy. -/
def collectSignals (clock : Nat → Nat) (reads : Nat) (engine : StrategyEngine)
    (stock : StockData) (historical : HistoricalData) :
    List StampedSignal × Nat × List (String × Bool) :=
  engine.strategies_.foldl
    (fun state strategy =>
      let enabled := mapIndex state.2.2 strategy.strategy_name_
      if !enabled.1 then (state.1, state.2.1, enabled.2)
      else if strategy.isApplicable stock then
        let signals := strategy.analyze clock state.2.1 stock historical
        (state.1 ++
            (signals.1.map (fun signal => updateSignalMetrics signal stock)).filter
              (fun signal =>
                decide (signal.signal.confidence ≥ strategy.getMinConfidenceThreshold)),
          signals.2, enabled.2)
      else (state.1, state.2.1, enabled.2))
    ([], reads, engine.strategy_enabled_)

/-- `StrategyEngine::analyzeStock`: the signals returned, the number of clock
readings, and the engine after the call. Neither `std::sort` nor the
shrinking `resize` constructs a signal. -/
def analyzeStock (arrange : Nat → (Nat → Nat → Bool) → List Nat) (clock : Nat → Nat)
    (reads : Nat) (engine : StrategyEngine) (stock : StockData)
    (historical : HistoricalData) : List StampedSignal × Nat × StrategyEngine :=
  let state := collectSignals clock reads engine stock historical
  let all_signals := state.1
  let engine := { engine with strategy_enabled_ := state.2.2 }
  if all_signals.length > sizeT engine.max_signals_per_stock_ then
    ((std_sort arrange
        (fun (a b : StampedSignal) => decide (a.signal.confidence > b.signal.confidence))
        all_signals).take (sizeT engine.max_signals_per_stock_),
      state.2.1, engine)
  else (all_signals, state.2.1, engine)

/-- `StrategyEngine::calculateSetupConfidence`. -/
def calculateSetupConfidence (signals : List StampedSignal) : ℚ :=
  if signals.isEmpty then 0
  else
    let sum := signals.foldl (fun s signal => s + signal.signal.confidence) 0
    let avg_confidence := sum / (signals.length : ℚ)
    let confluence_bonus := min 0.2 (((signals.length - 1 : Nat) : ℚ) * 0.05)
    min 1 (avg_confidence + confluence_bonus)

/-- `StrategyEngine::combineSignalsToSetup`: `TradingSetup setup;` is its
first statement; the supporting signals are copied with their stamps. -/
def combineSignalsToSetup (clock : Nat → Nat) (reads : Nat) (symbol : String)
    (signals : List StampedSignal) : StampedSetup × Nat :=
  let constructed := StampedSetup.new clock reads
  let setup : StampedSetup :=
    { constructed.1 with
      setup :=
        { constructed.1.setup with
          symbol := symbol
          supporting_signals := signals.map (fun s => s.signal)
          technical_confluence := (signals.length : Int) }
      supporting_timestamps := signals.map (fun s => s.timestamp) }
  if signals.isEmpty then (setup, constructed.2)
  else
    match TradingApp.StrategyEngine.max_element
        (fun (a b : StampedSignal) => decide (a.signal.confidence < b.signal.confidence))
        signals with
    | none => (setup, constructed.2)
    | some (_, primary) =>
      ({ setup with
          setup :=
            { setup.setup with
              primary_signal := primary.signal.type
              recommended_entry := primary.signal.entry_price
              stop_loss := primary.signal.stop_loss
              target_1 := primary.signal.target_1
              target_2 := primary.signal.target_2
              overall_confidence := calculateSetupConfidence signals
              risk_reward_ratio :=
                SignalUtils.calculateRiskRewardRatio primary.signal.entry_price
                  primary.signal.stop_loss primary.signal.target_1
              setup_validity_minutes := 30
              best_entry_time := "Market Open +15 mins" } },
        constructed.2)

/-- `StrategyEngine::isHighQualitySetup`. -/
def isHighQualitySetup (engine : StrategyEngine) (setup : StampedSetup) : Bool :=
  decide (setup.setup.overall_confidence ≥ engine.global_confidence_threshold_ ∧
    setup.setup.risk_reward_ratio ≥ engine.min_risk_reward_ratio_)

/-- `StrategyEngine::generateSetups`: the setups returned, the number of
clock readings, and the engine after the call. -/
def generateSetups (arrange arrangeSetups : Nat → (Nat → Nat → Bool) → List Nat)
    (clock : Nat → Nat) (reads : Nat) (engine : StrategyEngine) (stocks : List StockData)
    (historical_data : String → Option HistoricalData) :
    List StampedSetup × Nat × StrategyEngine :=
  let state := stocks.foldl
    (fun (state : List StampedSetup × Nat × StrategyEngine) stock =>
      match historical_data stock.symbol with
      | none => state
      | some historical =>
        let signals := analyzeStock arrange clock state.2.1 state.2.2 stock historical
        if !signals.1.isEmpty then
          let setup := combineSignalsToSetup clock signals.2.1 stock.symbol signals.1
          if isHighQualitySetup signals.2.2 setup.1 then
            (state.1 ++ [setup.1], setup.2, signals.2.2)
          else (state.1, setup.2, signals.2.2)
        else (state.1, signals.2.1, signals.2.2))
    ([], reads, engine)
  (std_sort arrangeSetups
      (fun (a b : StampedSetup) =>
        decide (a.setup.overall_confidence > b.setup.overall_confidence))
      state.1,
    state.2.1, state.2.2)

end StrategyEngine

/-- What a caller who ignores `timestamp` sees of a strategy: the signals of
`analyze` without their stamps. -/
def BaseStrategy.erase (strategy : BaseStrategy) : TradingApp.BaseStrategy :=
  { strategy_name_ := strategy.strategy_name_, strategy_type_ := strategy.strategy_type_,
    analyze := fun stock historical =>
      (strategy.analyze (fun _ => 0) 0 stock historical).1.map (fun s => s.signal),
    isApplicable := strategy.isApplicable,
    getMinConfidenceThreshold := strategy.getMinConfidenceThreshold }

/-- The engine with the stamps of its strategies ignored. -/
def StrategyEngine.erase (engine : StrategyEngine) : TradingApp.StrategyEngine :=
  { strategies_ := engine.strategies_.map BaseStrategy.erase,
    strategy_enabled_ := engine.strategy_enabled_,
    performance_stats_ := engine.performance_stats_,
    global_confidence_threshold_ := engine.global_confidence_threshold_,
    min_risk_reward_ratio_ := engine.min_risk_reward_ratio_,
    max_signals_per_stock_ := engine.max_signals_per_stock_ }

/-- Two engines with the same strategies, thresholds and cap whose
`strategy_enabled_` maps read the same under every key. -/
def StrategyEngine.Agree (a b : StrategyEngine) : Prop :=
  b.strategies_ = a.strategies_ ∧
    (∀ k, mapGet b.strategy_enabled_ k = mapGet a.strategy_enabled_ k) ∧
    b.global_confidence_threshold_ = a.global_confidence_threshold_ ∧
    b.min_risk_reward_ratio_ = a.min_risk_reward_ratio_ ∧
    b.max_signals_per_stock_ = a.max_signals_per_stock_

end Clocked

/-! ## Indicator library with checked division

The same functions as above with every `/` of the source replaced by
`safeDiv`, which has no value when the divisor is zero. -/

/-- Division that has no value on a zero divisor. -/
def safeDiv (a b : ℚ) : Option ℚ := if b = 0 then none else some (a / b)

namespace Checked

/-- `calculateSMA` with checked division. -/
def calculateSMA (data : List OHLCV) (periods : Nat) : Option ℚ :=
  if data.length < periods then some 0
  else
    let sum := (data.drop (data.length - periods)).foldl (fun s c => s + c.close) 0
    safeDiv sum periods

/-- `calculateEMA` with checked division. -/
def calculateEMA (data : List OHLCV) (periods : Nat) : Option ℚ :=
  if data.length < periods then some 0
  else
    (safeDiv 2 ((periods : ℚ) + 1)).bind fun multiplier =>
      (calculateSMA data periods).bind fun ema =>
        some ((data.drop periods).foldl
          (fun ema c => (c.close * multiplier) + (ema * (1 - multiplier))) ema)

/-- `calculateWMA` with checked division. -/
def calculateWMA (data : List OHLCV) (periods : Nat) : Option ℚ :=
  if data.length < periods then some 0
  else
    let acc := ((data.reverse.take periods).enum).foldl
      (fun (acc : ℚ × ℚ) (ic : Nat × OHLCV) =>
        let weight : ℚ := ((periods - ic.1 : Nat) : ℚ)
        (acc.1 + ic.2.close * weight, acc.2 + weight))
      (0, 0)
    safeDiv acc.1 acc.2

/-- The seeding loop of `calculateRSI` and `calculateATR` with checked
division. -/
def seedAverage (xs : List ℚ) (periods : Nat) : Option ℚ :=
  safeDiv ((xs.take periods).foldl (fun s x => s + x) 0) periods

/-- A run of checked Wilder steps over the given values. -/
def wilderSteps (periods : Nat) : List ℚ → ℚ → Option ℚ
  | [], avg => some avg
  | x :: rest, avg =>
    (safeDiv ((avg * ((periods : ℚ) - 1)) + x) periods).bind (wilderSteps periods rest)

/-- The Wilder smoothing loop with checked division. -/
def wilderSmooth (xs : List ℚ) (periods : Nat) (seed : ℚ) : Option ℚ :=
  wilderSteps periods (xs.drop periods) seed

/-- `calculateRSI` with checked division. -/
def calculateRSI (data : List OHLCV) (periods : Nat) : Option ℚ :=
  if data.length < periods + 1 then some 50
  else if (TechnicalIndicators.gains data).length < periods then some 50
  else
    (seedAverage (TechnicalIndicators.gains data) periods).bind fun gain0 =>
      (seedAverage (TechnicalIndicators.losses data) periods).bind fun loss0 =>
        (wilderSmooth (TechnicalIndicators.gains data) periods gain0).bind fun avg_gain =>
          (wilderSmooth (TechnicalIndicators.losses data) periods loss0).bind fun avg_loss =>
            if avg_loss = 0 then some 100
            else
              (safeDiv avg_gain avg_loss).bind fun rs =>
                (safeDiv 100 (1 + rs)).bind fun q => some (100 - q)

/-- `calculateATR` with checked division. -/
def calculateATR (data : List OHLCV) (periods : Nat) : Option ℚ :=
  if data.length < periods + 1 then some 0
  else if (TechnicalIndicators.trueRanges data).length < periods then some 0
  else
    (seedAverage (TechnicalIndicators.trueRanges data) periods).bind fun atr =>
      wilderSmooth (TechnicalIndicators.trueRanges data) periods atr

/-- `calculateBollingerBands` with checked division. -/
def calculateBollingerBands (sqrt : ℚ → ℚ) (data : List OHLCV) (periods : Nat)
    (multiplier : ℚ) : Option BollingerBands :=
  if data.length < periods then some BollingerBands.new
  else
    (calculateSMA data periods).bind fun sma =>
      (safeDiv
        ((data.drop (data.length - periods)).foldl
          (fun s c =>
            let diff := c.close - sma
            s + diff * diff)
          0)
        periods).bind fun variance =>
        some
          { upper := sma + (multiplier * sqrt variance), middle := sma,
            lower := sma - (multiplier * sqrt variance) }

/-- `calculateTypicalPrice` with checked division. -/
def calculateTypicalPrice (candle : OHLCV) : Option ℚ :=
  safeDiv (candle.high + candle.low + candle.close) 3

/-- The accumulation loop of `calculateVWAP` for `cumulative_pv`, with the
checked typical price. -/
def cumulativePV : List OHLCV → ℚ → Option ℚ
  | [], s => some s
  | candle :: rest, s =>
    (calculateTypicalPrice candle).bind fun typical_price =>
      cumulativePV rest (s + typical_price * (candle.volume : ℚ))

/-- `calculateVWAP` with checked division. -/
def calculateVWAP (data : List OHLCV) : Option ℚ :=
  if data.isEmpty then some 0
  else
    (cumulativePV data 0).bind fun cumulative_pv =>
      let cumulative_volume : Int := data.foldl (fun s candle => s + candle.volume) 0
      if cumulative_volume > 0 then safeDiv cumulative_pv (cumulative_volume : ℚ) else some 0

/-- `isDoji` with checked division. -/
def isDoji (candle : OHLCV) (threshold : ℚ) : Option Bool :=
  if candle.high = candle.low then some false
  else
    (safeDiv |candle.close - candle.open_| (candle.high - candle.low)).bind fun ratio =>
      some (decide (ratio < threshold))

end Checked

/-! ## Concrete inputs used by the closed statements -/

/-- A snapshot with `volume_ratio = 2.0` (volume 2000 over an average of
1000, hence `volume_spike`), price 110 = 1.10 * VWAP, RSI 25, an unchanged
price on the day and a resistance level above the price. -/
def scenarioStock : StockData :=
  { StockData.new with
    symbol := "X", current_price := 110, previous_close := 110, volume := 2000,
    avg_volume := 1000, volume_ratio := 2, day_high := 112, day_low := 95, rsi_14 := 25,
    vwap := 100, support_level := 95, resistance_level := 115, volume_spike := true }

/-- Five opening bars with high 112 and low 95 for the symbol of
`scenarioStock`: the price 110 lies inside the opening range. -/
def scenarioHistory : HistoricalData :=
  { symbol := "X",
    candles := List.replicate 5
      { open_ := 100, high := 112, low := 95, close := 105, volume := 400 } }

/-- A signal with the given type, prices and confidence, every other field
as `TradingSignal()` leaves it. -/
def sampleSignal (type : SignalType) (entry stop target1 target2 confidence : ℚ) :
    TradingSignal :=
  { TradingSignal.new with
    type := type, entry_price := entry, stop_loss := stop, target_1 := target1,
    target_2 := target2, confidence := confidence }

/-- Three signals with confidences 0.6, 0.8, 0.8: the maximum is reached at
indices 1 and 2. -/
def tiedSignals : List TradingSignal :=
  [sampleSignal SignalType.SELL 0 0 0 0 0.6, sampleSignal SignalType.BUY 110 100 112 115 0.8,
    sampleSignal SignalType.SELL 90 95 80 75 0.8]

/-- A rounded square root on the rationals, `floor(sqrt(num * den)) / den`:
a stand-in for `std::sqrt` in closed statements. -/
def ratSqrt (x : ℚ) : ℚ := (Nat.sqrt (x.num.toNat * x.den) : ℚ) / (x.den : ℚ)

/-- Five opening bars whose highest high is 105 and lowest low is 100,
followed by a sixth bar outside that range. -/
def orbHistory : HistoricalData :=
  { symbol := "X",
    candles :=
      [{ open_ := 101, high := 103, low := 100, close := 102, volume := 500 },
        { open_ := 102, high := 105, low := 101, close := 104, volume := 400 },
        { open_ := 104, high := 104, low := 102, close := 103, volume := 300 },
        { open_ := 103, high := 104, low := 101, close := 102, volume := 350 },
        { open_ := 102, high := 105, low := 102, close := 105, volume := 450 },
        { open_ := 105, high := 111, low := 104, close := 110, volume := 900 }] }

/-- A snapshot priced at 110, above the opening range of `orbHistory`. -/
def orbStock : StockData :=
  { StockData.new with symbol := "X", current_price := 110, volume_ratio := 1.6 }

/-- Insertion sort by confidence, highest first: a stable sort, one of the
routines that meet the postcondition of `std::sort` in `analyzeStock`. -/
def confidenceSort (l : List TradingSignal) : List TradingSignal :=
  List.insertionSort (fun a b => b.confidence ≤ a.confidence) l

/-- Insertion sort of setups by overall confidence, highest first. -/
def setupConfidenceSort (l : List TradingSetup) : List TradingSetup :=
  List.insertionSort (fun a b => b.overall_confidence ≤ a.overall_confidence) l

/-- A BUY signal of the given strategy type and confidence. -/
def fixedSignal (type : StrategyType) (confidence : ℚ) : TradingSignal :=
  { sampleSignal SignalType.BUY 100 95 110 0 confidence with strategy := type }

/-- The signal `ORBStrategy::analyze` emits above the opening range of
`orbHistory` (high 105, low 100), with the given symbol and confidence. -/
def orbSignal (symbol : String) (confidence : ℚ) : TradingSignal :=
  { TradingSignal.new with
    strategy := StrategyType.ORB, symbol := symbol, type := SignalType.BUY,
    entry_price := 105, stop_loss := 100, target_1 := 105 + (5 * 1.5),
    confidence := confidence,
    setup_description := "ORB Breakout - Price above opening range high" }

/-- A second snapshot above the opening range of `orbHistory`, for the symbol
"Y" and with a lower volume ratio than `orbStock`. -/
def orbStockY : StockData :=
  { StockData.new with symbol := "Y", current_price := 110, volume_ratio := 1.3 }

/-- A history map with `orbHistory` under the symbols "X" and "Y". -/
def batchHistory (symbol : String) : Option HistoricalData :=
  if symbol = "X" then some orbHistory
  else if symbol = "Y" then some { orbHistory with symbol := "Y" }
  else none

/-- Insertion sort of the positions `0 .. n-1` by the outcomes of the
comparator: one of the arrangements a comparison sort may produce. -/
def insertionArrange (n : Nat) (outcome : Nat → Nat → Bool) : List Nat :=
  List.insertionSort (fun i j => outcome j i = false) (List.range n)

/-- A clock that advances by one tick from each reading to the next. -/
def tickingClock (k : Nat) : Nat := k

/-- The signal of `VWAPStrategy` on `scenarioStock` after `updateSignalMetrics`. -/
def scenarioSignal : TradingSignal :=
  StrategyEngine.updateSignalMetrics
    { TradingSignal.new with
      strategy := StrategyType.VWAP
      symbol := "X"
      type := SignalType.BUY
      entry_price := 110
      stop_loss := 100
      target_1 := 110 * 1.02
      confidence := 0.8
      setup_description := "VWAP Breakout - Price above VWAP with volume" }
    scenarioStock

/-- A first call of `analyzeStock` on `scenarioStock`: a freshly constructed
engine, the clock not read before. -/
def scenarioFirstRun : List StampedSignal × Nat × Clocked.StrategyEngine :=
  Clocked.StrategyEngine.analyzeStock insertionArrange tickingClock 0 Clocked.StrategyEngine.new
    scenarioStock scenarioHistory

/-- The setup `combineSignalsToSetup` builds from the signals of
`scenarioFirstRun`, right after that call. -/
def scenarioFirstSetup : StampedSetup × Nat :=
  Clocked.StrategyEngine.combineSignalsToSetup tickingClock scenarioFirstRun.2.1 "X"
    scenarioFirstRun.1

/-- A second call of `analyzeStock` on the same snapshot and series, on the
engine `scenarioFirstRun` leaves and after `scenarioFirstSetup` was built. -/
def scenarioSecondRun : List StampedSignal × Nat × Clocked.StrategyEngine :=
  Clocked.StrategyEngine.analyzeStock insertionArrange tickingClock scenarioFirstSetup.2
    scenarioFirstRun.2.2 scenarioStock scenarioHistory

/-- The setup `combineSignalsToSetup` builds from the signals of
`scenarioSecondRun`. -/
def scenarioSecondSetup : StampedSetup × Nat :=
  Clocked.StrategyEngine.combineSignalsToSetup tickingClock scenarioSecondRun.2.1 "X"
    scenarioSecondRun.1

/-! ## Theorems: indicator library -/

namespace TechnicalIndicators

theorem foldl_add_nonneg (xs : List ℚ) : ∀ init : ℚ, 0 ≤ init → (∀ x ∈ xs, 0 ≤ x) →
    0 ≤ xs.foldl (fun s x => s + x) init := by
  induction xs with
  | nil => intro init h _; simpa using h
  | cons a t ih =>
    intro init h hall
    simp only [List.foldl_cons]
    apply ih
    · have := hall a (List.mem_cons_self a t); linarith
    · intro x hx; exact hall x (List.mem_cons_of_mem a hx)

theorem seedAverage_nonneg (xs : List ℚ) (W : Nat) (hall : ∀ x ∈ xs, 0 ≤ x) :
    0 ≤ seedAverage xs W := by
  unfold seedAverage
  apply div_nonneg
  · apply foldl_add_nonneg _ _ le_rfl
    intro x hx; exact hall x (List.mem_of_mem_take hx)
  · exact Nat.cast_nonneg W

theorem wilderFold_nonneg (W : Nat) (hW : 1 ≤ W) (xs : List ℚ) : ∀ seed : ℚ, 0 ≤ seed →
    (∀ x ∈ xs, 0 ≤ x) →
    0 ≤ xs.foldl (fun avg x => ((avg * ((W : ℚ) - 1)) + x) / W) seed := by
  have hW1 : (0 : ℚ) ≤ (W : ℚ) - 1 := by
    have : (1 : ℚ) ≤ (W : ℚ) := by exact_mod_cast hW
    linarith
  induction xs with
  | nil => intro seed h _; simpa using h
  | cons a t ih =>
    intro seed h hall
    simp only [List.foldl_cons]
    apply ih
    · apply div_nonneg
      · have := hall a (List.mem_cons_self a t)
        have := mul_nonneg h hW1
        linarith
      · exact Nat.cast_nonneg W
    · intro x hx; exact hall x (List.mem_cons_of_mem a hx)

theorem wilderSmooth_nonneg (W : Nat) (hW : 1 ≤ W) (xs : List ℚ) (seed : ℚ) (hs : 0 ≤ seed)
    (hall : ∀ x ∈ xs, 0 ≤ x) : 0 ≤ wilderSmooth xs W seed := by
  unfold wilderSmooth
  apply wilderFold_nonneg W hW _ _ hs
  intro x hx; exact hall x (List.mem_of_mem_drop hx)

theorem gains_nonneg (data : List OHLCV) : ∀ x ∈ gains data, 0 ≤ x := by
  intro x hx
  unfold gains at hx
  rcases List.mem_map.mp hx with ⟨c, _, rfl⟩
  split_ifs with h
  · exact le_of_lt h
  · exact le_rfl

theorem losses_nonneg (data : List OHLCV) : ∀ x ∈ losses data, 0 ≤ x := by
  intro x hx
  unfold losses at hx
  rcases List.mem_map.mp hx with ⟨c, _, rfl⟩
  split_ifs with h
  · linarith
  · exact le_rfl

/-- C2. For every candle series and every window `W ≥ 1`, `calculateRSI`
returns a value between 0 and 100 (exact arithmetic). -/
theorem calculateRSI_range (data : List OHLCV) (W : Nat) (hW : 1 ≤ W) :
    0 ≤ calculateRSI data W ∧ calculateRSI data W ≤ 100 := by
  unfold calculateRSI
  split_ifs with h1 h2
  · norm_num
  · norm_num
  by_cases h3 : wilderSmooth (losses data) W (seedAverage (losses data) W) = 0
  · simp only [if_pos h3]; norm_num
  · simp only [if_neg h3]
    have hg : 0 ≤ wilderSmooth (gains data) W (seedAverage (gains data) W) :=
      wilderSmooth_nonneg W hW _ _ (seedAverage_nonneg _ _ (gains_nonneg data)) (gains_nonneg data)
    have hl : 0 ≤ wilderSmooth (losses data) W (seedAverage (losses data) W) :=
      wilderSmooth_nonneg W hW _ _ (seedAverage_nonneg _ _ (losses_nonneg data))
        (losses_nonneg data)
    have hlpos : 0 < wilderSmooth (losses data) W (seedAverage (losses data) W) :=
      lt_of_le_of_ne hl (Ne.symm h3)
    have hrs : 0 ≤ wilderSmooth (gains data) W (seedAverage (gains data) W) /
        wilderSmooth (losses data) W (seedAverage (losses data) W) := div_nonneg hg hl
    have hden : (1 : ℚ) ≤ 1 + wilderSmooth (gains data) W (seedAverage (gains data) W) /
        wilderSmooth (losses data) W (seedAverage (losses data) W) := by linarith
    have hq1 : (100 : ℚ) / (1 + wilderSmooth (gains data) W (seedAverage (gains data) W) /
        wilderSmooth (losses data) W (seedAverage (losses data) W)) ≤ 100 := by
      rw [div_le_iff₀ (by linarith)]
      nlinarith
    have hq0 : (0 : ℚ) ≤ 100 / (1 + wilderSmooth (gains data) W (seedAverage (gains data) W) /
        wilderSmooth (losses data) W (seedAverage (losses data) W)) := by
      apply div_nonneg <;> linarith
    constructor <;> linarith

/-- Witness for C2: five bars with closes 3, 1, 2, 5, 4 and window 2. -/
theorem calculateRSI_range_witness :
    0 ≤ calculateRSI [flatBar 3, flatBar 1, flatBar 2, flatBar 5, flatBar 4] 2 ∧
      calculateRSI [flatBar 3, flatBar 1, flatBar 2, flatBar 5, flatBar 4] 2 ≤ 100 :=
  calculateRSI_range _ 2 (by decide)

theorem closeChanges_length (data : List OHLCV) :
    (closeChanges data).length = data.length - 1 := by
  unfold closeChanges
  simp only [List.length_zipWith, List.length_tail]
  omega

theorem gains_length (data : List OHLCV) : (gains data).length = data.length - 1 := by
  unfold gains
  rw [List.length_map, closeChanges_length]

theorem losses_zero_of_nondecreasing (data : List OHLCV)
    (hmono : List.Chain' (fun a b => a.close ≤ b.close) data) :
    ∀ x ∈ losses data, x = 0 := by
  induction data with
  | nil => intro x hx; simp [losses, closeChanges] at hx
  | cons a t ih =>
    cases t with
    | nil => intro x hx; simp [losses, closeChanges] at hx
    | cons b r =>
      intro x hx
      have hab : a.close ≤ b.close := (List.chain'_cons.mp hmono).1
      have htail := ih (List.chain'_cons.mp hmono).2
      have hsplit : losses (a :: b :: r) =
          (if b.close - a.close < 0 then -(b.close - a.close) else 0) :: losses (b :: r) := by
        simp [losses, closeChanges]
      rw [hsplit] at hx
      rcases List.mem_cons.mp hx with h | h
      · rw [h, if_neg (by linarith)]
      · exact htail x h

theorem foldl_add_zero (xs : List ℚ) (hall : ∀ x ∈ xs, x = 0) :
    xs.foldl (fun s x => s + x) 0 = 0 := by
  induction xs with
  | nil => rfl
  | cons a t ih =>
    have ha : a = 0 := hall a (List.mem_cons_self a t)
    simp only [List.foldl_cons, ha, add_zero]
    exact ih (fun x hx => hall x (List.mem_cons_of_mem a hx))

theorem wilderFold_zero (W : Nat) (xs : List ℚ) (hall : ∀ x ∈ xs, x = 0) :
    xs.foldl (fun avg x => ((avg * ((W : ℚ) - 1)) + x) / W) 0 = 0 := by
  induction xs with
  | nil => rfl
  | cons a t ih =>
    have ha : a = 0 := hall a (List.mem_cons_self a t)
    simp only [List.foldl_cons, ha, zero_mul, add_zero, zero_div]
    exact ih (fun x hx => hall x (List.mem_cons_of_mem a hx))

theorem avg_loss_zero (xs : List ℚ) (W : Nat) (hall : ∀ x ∈ xs, x = 0) :
    wilderSmooth xs W (seedAverage xs W) = 0 := by
  have hseed : seedAverage xs W = 0 := by
    unfold seedAverage
    rw [foldl_add_zero _ (fun x hx => hall x (List.mem_of_mem_take hx)), zero_div]
  unfold wilderSmooth
  rw [hseed]
  exact wilderFold_zero W _ (fun x hx => hall x (List.mem_of_mem_drop hx))

/-- C1. On the bars with closes 10, 10, 13 and window 2, `calculateEMA` seeds
with the mean of the LAST two closes (11.5) and returns 12.5, whereas seeding
with the mean of the first two closes, as the specification words it, gives 12. -/
theorem calculateEMA_seed_last_window :
    calculateEMA [flatBar 10, flatBar 10, flatBar 13] 2 = 25 / 2 ∧
      calculateSMA [flatBar 10, flatBar 10, flatBar 13] 2 = 23 / 2 ∧
      emaSeededFromFirst [flatBar 10, flatBar 10, flatBar 13] 2 = 12 ∧
      calculateEMA [flatBar 10, flatBar 10, flatBar 13] 2 ≠
        emaSeededFromFirst [flatBar 10, flatBar 10, flatBar 13] 2 := by
  refine ⟨?_, ?_, ?_, ?_⟩ <;>
    norm_num [calculateEMA, calculateSMA, emaSeededFromFirst, flatBar]

/-- C3. For every candle series shorter than the window `W`, `calculateSMA`,
`calculateEMA` and `calculateWMA` return exactly 0 and `calculateRSI` returns
exactly 50. -/
theorem undersized_defaults (data : List OHLCV) (W : Nat) (hlen : data.length < W) :
    calculateSMA data W = 0 ∧ calculateEMA data W = 0 ∧ calculateWMA data W = 0 ∧
      calculateRSI data W = 50 := by
  have hlen1 : data.length < W + 1 := Nat.lt_succ_of_lt hlen
  refine ⟨?_, ?_, ?_, ?_⟩
  · unfold calculateSMA; rw [if_pos hlen]
  · unfold calculateEMA; rw [if_pos hlen]
  · unfold calculateWMA; rw [if_pos hlen]
  · unfold calculateRSI; rw [if_pos hlen1]

/-- Witness for C3: one bar, window 2. -/
theorem undersized_defaults_witness :
    calculateSMA [flatBar 10] 2 = 0 ∧ calculateEMA [flatBar 10] 2 = 0 ∧
      calculateWMA [flatBar 10] 2 = 0 ∧ calculateRSI [flatBar 10] 2 = 50 :=
  undersized_defaults [flatBar 10] 2 (by decide)

/-- C4. For every window `W ≥ 1` and every series of at least `W + 1` bars
whose closes never fall from one bar to the next, `calculateRSI` returns
exactly 100. -/
theorem calculateRSI_nondecreasing (data : List OHLCV) (W : Nat) (hW : 1 ≤ W)
    (hlen : W + 1 ≤ data.length)
    (hmono : List.Chain' (fun a b => a.close ≤ b.close) data) :
    calculateRSI data W = 100 := by
  have _hpos : 0 < W := hW
  unfold calculateRSI
  rw [if_neg (by omega), if_neg (by rw [gains_length]; omega)]
  simp only [avg_loss_zero (losses data) W (losses_zero_of_nondecreasing data hmono), if_true]

/-- Witness for C4: 20 bars with closes 100, 101, ..., 119 and window 14. -/
theorem calculateRSI_nondecreasing_witness :
    calculateRSI
      [flatBar 100, flatBar 101, flatBar 102, flatBar 103, flatBar 104, flatBar 105,
        flatBar 106, flatBar 107, flatBar 108, flatBar 109, flatBar 110, flatBar 111,
        flatBar 112, flatBar 113, flatBar 114, flatBar 115, flatBar 116, flatBar 117,
        flatBar 118, flatBar 119] 14 = 100 :=
  calculateRSI_nondecreasing _ 14 (by decide) (by decide)
    (by simp only [List.chain'_cons, List.chain'_singleton, flatBar]; norm_num)

/-- C5 as stated fails: on the flat candle with all four prices 50 and the
threshold 0.001, `isDoji` does not return true. -/
theorem isDoji_flat_not_true : ¬ (isDoji (flatBar 50) 0.001 = true) := by
  simp [isDoji, flatBar]

/-- C5 amended. For every flat candle (open = high = low = close), `isDoji`
returns false, for the threshold 0.001 as for any other: the zero-range guard
answers before the ratio is formed. -/
theorem isDoji_flat_false (candle : OHLCV) (threshold : ℚ)
    (h1 : candle.open_ = candle.high) (h2 : candle.high = candle.low)
    (h3 : candle.low = candle.close) : isDoji candle threshold = false := by
  have _hflat : candle.open_ = candle.close := by rw [h1, h2, h3]
  unfold isDoji
  rw [if_pos h2]

/-- Witness for C5 amended: the flat candle at 120 with volume 500. -/
theorem isDoji_flat_false_witness :
    isDoji { open_ := 120, high := 120, low := 120, close := 120, volume := 500 } 0.001 =
      false :=
  isDoji_flat_false _ 0.001 rfl rfl rfl

end TechnicalIndicators

/-! ## Theorems: signals and engine -/

namespace SignalUtils

/-- C7 as stated fails: with entry 10, stop 20 (both positive, different) and
the target -5, `calculateRiskRewardRatio` returns 0 while
`|target - entry| / |entry - stop|` is 3/2. -/
theorem calculateRiskRewardRatio_negative_target :
    (0 : ℚ) < 10 ∧ (0 : ℚ) < 20 ∧ (10 : ℚ) ≠ 20 ∧
      calculateRiskRewardRatio 10 20 (-5) = 0 ∧
      |(-5 : ℚ) - 10| / |(10 : ℚ) - 20| = 3 / 2 ∧
      calculateRiskRewardRatio 10 20 (-5) ≠ |(-5 : ℚ) - 10| / |(10 : ℚ) - 20| := by
  have hcode : calculateRiskRewardRatio 10 20 (-5) = 0 := by
    norm_num [calculateRiskRewardRatio]
  have hformula : |(-5 : ℚ) - 10| / |(10 : ℚ) - 20| = 3 / 2 := by
    rw [abs_of_neg (by norm_num), abs_of_neg (by norm_num)]; norm_num
  refine ⟨by norm_num, by norm_num, by norm_num, hcode, hformula, ?_⟩
  rw [hcode, hformula]
  norm_num

/-- C7 amended. For all entry > 0, stop > 0 and target > 0 with entry ≠ stop,
`calculateRiskRewardRatio` equals `|target - entry| / |entry - stop|`; the
result is 0 exactly when entry equals stop, or entry, stop or target is
non-positive, or target equals entry. -/
theorem calculateRiskRewardRatio_spec (entry stop_loss target : ℚ) :
    (0 < entry → 0 < stop_loss → 0 < target → entry ≠ stop_loss →
        calculateRiskRewardRatio entry stop_loss target =
          |target - entry| / |entry - stop_loss|) ∧
      (calculateRiskRewardRatio entry stop_loss target = 0 ↔
        (entry ≤ 0 ∨ stop_loss ≤ 0 ∨ target ≤ 0 ∨ entry = stop_loss ∨ target = entry)) := by
  unfold calculateRiskRewardRatio
  constructor
  · intro he hs ht hne
    rw [if_neg]
    rintro (h | h | h | h)
    · linarith
    · linarith
    · linarith
    · exact hne h
  · by_cases hg : entry ≤ 0 ∨ stop_loss ≤ 0 ∨ target ≤ 0 ∨ entry = stop_loss
    · rw [if_pos hg]
      constructor
      · intro _
        rcases hg with h | h | h | h
        · exact Or.inl h
        · exact Or.inr (Or.inl h)
        · exact Or.inr (Or.inr (Or.inl h))
        · exact Or.inr (Or.inr (Or.inr (Or.inl h)))
      · intro _; rfl
    · rw [if_neg hg]
      have hne : entry ≠ stop_loss := fun h => hg (Or.inr (Or.inr (Or.inr h)))
      have hrisk : |entry - stop_loss| ≠ 0 := by
        rw [abs_ne_zero]; exact sub_ne_zero.mpr hne
      constructor
      · intro h
        have h0 : |target - entry| = 0 := by
          rcases div_eq_zero_iff.mp h with h1 | h1
          · exact h1
          · exact absurd h1 hrisk
        have : target - entry = 0 := abs_eq_zero.mp h0
        exact Or.inr (Or.inr (Or.inr (Or.inr (by linarith))))
      · rintro (h | h | h | h | h)
        · exact absurd (Or.inl h) hg
        · exact absurd (Or.inr (Or.inl h)) hg
        · exact absurd (Or.inr (Or.inr (Or.inl h))) hg
        · exact absurd h hne
        · rw [h, sub_self, abs_zero, zero_div]

/-- Witness for C7 amended: entry 100, stop 95, target 110. -/
theorem calculateRiskRewardRatio_spec_witness :
    calculateRiskRewardRatio 100 95 110 = |(110 : ℚ) - 100| / |(100 : ℚ) - 95| :=
  (calculateRiskRewardRatio_spec 100 95 110).1 (by norm_num) (by norm_num) (by norm_num)
    (by norm_num)

end SignalUtils

namespace StrategyEngine

theorem foldl_confidence (signals : List TradingSignal) : ∀ init : ℚ,
    signals.foldl (fun s signal => s + signal.confidence) init =
      init + (signals.map (fun s => s.confidence)).sum := by
  induction signals with
  | nil => intro init; simp
  | cons a t ih =>
    intro init
    simp only [List.foldl_cons, List.map_cons, List.sum_cons, ih]
    ring

theorem calculateSetupConfidence_cons (a : TradingSignal) (t : List TradingSignal) :
    calculateSetupConfidence (a :: t) =
      min 1 (((a :: t).map (fun s => s.confidence)).sum / (((a :: t).length : Nat) : ℚ) +
        min 0.2 (((((a :: t).length : Nat) : ℚ) - 1) * 0.05)) := by
  unfold calculateSetupConfidence
  rw [foldl_confidence]
  simp

theorem combineSignalsToSetup_cons (symbol : String) (a : TradingSignal)
    (t : List TradingSignal) :
    combineSignalsToSetup symbol (a :: t) =
      { TradingSetup.new with
        symbol := symbol
        supporting_signals := a :: t
        technical_confluence := ((a :: t).length : Int)
        primary_signal :=
          (maxElementFrom (fun a b => decide (a.confidence < b.confidence)) (0, a) 1 t).2.type
        recommended_entry :=
          (maxElementFrom (fun a b => decide (a.confidence < b.confidence)) (0, a) 1
            t).2.entry_price
        stop_loss :=
          (maxElementFrom (fun a b => decide (a.confidence < b.confidence)) (0, a) 1
            t).2.stop_loss
        target_1 :=
          (maxElementFrom (fun a b => decide (a.confidence < b.confidence)) (0, a) 1
            t).2.target_1
        target_2 :=
          (maxElementFrom (fun a b => decide (a.confidence < b.confidence)) (0, a) 1
            t).2.target_2
        overall_confidence := calculateSetupConfidence (a :: t)
        risk_reward_ratio :=
          SignalUtils.calculateRiskRewardRatio
            (maxElementFrom (fun a b => decide (a.confidence < b.confidence)) (0, a) 1
              t).2.entry_price
            (maxElementFrom (fun a b => decide (a.confidence < b.confidence)) (0, a) 1
              t).2.stop_loss
            (maxElementFrom (fun a b => decide (a.confidence < b.confidence)) (0, a) 1
              t).2.target_1
        setup_validity_minutes := 30
        best_entry_time := "Market Open +15 mins" } := rfl

theorem combineSignalsToSetup_overall (symbol : String) (a : TradingSignal)
    (t : List TradingSignal) :
    (combineSignalsToSetup symbol (a :: t)).overall_confidence =
      calculateSetupConfidence (a :: t) := rfl

theorem combineSignalsToSetup_nil (symbol : String) :
    combineSignalsToSetup symbol [] = { TradingSetup.new with symbol := symbol } := rfl

/-- C8. For every non-empty signal list, the setup built by
`combineSignalsToSetup` has `overall_confidence` equal to
`min(1, mean(confidences) + min(0.2, (count - 1) * 0.05))` and
`technical_confluence` equal to the number of supporting signals. -/
theorem combineSignalsToSetup_confidence (symbol : String) (signals : List TradingSignal)
    (hne : signals ≠ []) :
    (combineSignalsToSetup symbol signals).overall_confidence =
        min 1 ((signals.map (fun s => s.confidence)).sum / (signals.length : ℚ) +
          min 0.2 (((signals.length : ℚ) - 1) * 0.05)) ∧
      (combineSignalsToSetup symbol signals).technical_confluence = (signals.length : Int) ∧
      (combineSignalsToSetup symbol signals).supporting_signals = signals := by
  cases signals with
  | nil => exact absurd rfl hne
  | cons a t =>
    rw [combineSignalsToSetup_cons]
    exact ⟨calculateSetupConfidence_cons a t, rfl, rfl⟩

/-- Witness for C8: two signals with confidences 0.8 and 0.6. -/
theorem combineSignalsToSetup_confidence_witness :
    (combineSignalsToSetup "X"
        [sampleSignal SignalType.BUY 110 100 112 0 0.8,
          sampleSignal SignalType.BUY 0 0 0 0 0.6]).technical_confluence = 2 :=
  (combineSignalsToSetup_confidence "X"
    [sampleSignal SignalType.BUY 110 100 112 0 0.8, sampleSignal SignalType.BUY 0 0 0 0 0.6]
    (by simp)).2.1

theorem calculateSetupConfidence_le_one (signals : List TradingSignal) :
    calculateSetupConfidence signals ≤ 1 := by
  unfold calculateSetupConfidence
  split_ifs
  · norm_num
  · exact min_le_left _ _

theorem sum_ge_of_forall_ge (m : ℚ) (cs : List ℚ) (h : ∀ c ∈ cs, m ≤ c) :
    (cs.length : ℚ) * m ≤ cs.sum := by
  induction cs with
  | nil => simp
  | cons a t ih =>
    have ha : m ≤ a := h a (List.mem_cons_self a t)
    have ht := ih (fun c hc => h c (List.mem_cons_of_mem a hc))
    simp only [List.length_cons, List.sum_cons, Nat.cast_add, Nat.cast_one]
    linarith

/-- C9. For every signal list the setup has `overall_confidence ≤ 1`; and for
every non-empty list whose confidences lie in [0,1], `overall_confidence` is
at least the minimum of the supporting signals' confidences. -/
theorem combineSignalsToSetup_confidence_bounds (symbol : String)
    (signals : List TradingSignal) :
    (combineSignalsToSetup symbol signals).overall_confidence ≤ 1 ∧
      (signals ≠ [] → (∀ s ∈ signals, 0 ≤ s.confidence ∧ s.confidence ≤ 1) →
        ∀ m ∈ signals, (∀ s ∈ signals, m.confidence ≤ s.confidence) →
          m.confidence ≤ (combineSignalsToSetup symbol signals).overall_confidence) := by
  cases signals with
  | nil =>
    rw [combineSignalsToSetup_nil]
    exact ⟨by norm_num [TradingSetup.new], fun h => absurd rfl h⟩
  | cons a t =>
    rw [combineSignalsToSetup_cons]
    refine ⟨calculateSetupConfidence_le_one _, ?_⟩
    intro _ hrange m hm hmin
    show m.confidence ≤ calculateSetupConfidence (a :: t)
    rw [calculateSetupConfidence_cons]
    have hm1 : m.confidence ≤ 1 := (hrange m hm).2
    have hlen : (0 : ℚ) < (((a :: t).length : Nat) : ℚ) := by
      have : 0 < (a :: t).length := Nat.succ_pos _
      exact_mod_cast this
    have hsum : (((a :: t).map (fun s => s.confidence)).length : ℚ) * m.confidence ≤
        ((a :: t).map (fun s => s.confidence)).sum := by
      apply sum_ge_of_forall_ge
      intro c hc
      rcases List.mem_map.mp hc with ⟨s, hs, rfl⟩
      exact hmin s hs
    rw [List.length_map] at hsum
    have hmean : m.confidence ≤
        ((a :: t).map (fun s => s.confidence)).sum / (((a :: t).length : Nat) : ℚ) := by
      rw [le_div_iff₀ hlen]
      linarith
    have hbonus : (0 : ℚ) ≤ min 0.2 (((((a :: t).length : Nat) : ℚ) - 1) * 0.05) := by
      apply le_min
      · norm_num
      · have h1 : (1 : ℚ) ≤ (((a :: t).length : Nat) : ℚ) := by
          have : 1 ≤ (a :: t).length := Nat.succ_pos _
          exact_mod_cast this
        have h2 : (0 : ℚ) ≤ (((a :: t).length : Nat) : ℚ) - 1 := by linarith
        have h3 : (0 : ℚ) ≤ 0.05 := by norm_num
        exact mul_nonneg h2 h3
    apply le_min hm1
    linarith

/-- Witness for C9: confidences 0.8 and 0.6; the minimum 0.6 is a lower bound
of the setup confidence. -/
theorem combineSignalsToSetup_confidence_bounds_witness :
    (0.6 : ℚ) ≤
      (combineSignalsToSetup "X"
        [sampleSignal SignalType.BUY 110 100 112 0 0.8,
          sampleSignal SignalType.SELL 0 0 0 0 0.6]).overall_confidence :=
  (combineSignalsToSetup_confidence_bounds "X"
    [sampleSignal SignalType.BUY 110 100 112 0 0.8,
      sampleSignal SignalType.SELL 0 0 0 0 0.6]).2 (by simp)
    (by
      intro s hs
      simp only [List.mem_cons, List.mem_singleton, List.not_mem_nil, or_false] at hs
      rcases hs with rfl | rfl <;> norm_num [sampleSignal])
    (sampleSignal SignalType.SELL 0 0 0 0 0.6) (by simp)
    (by
      intro s hs
      simp only [List.mem_cons, List.mem_singleton, List.not_mem_nil, or_false] at hs
      rcases hs with rfl | rfl <;> norm_num [sampleSignal])

theorem maxElementFrom_spec {α : Type} (key : α → ℚ) (xs : List α) :
    ∀ (pre : List α) (bi : Nat) (b : α),
      pre[bi]? = some b →
      (∀ x ∈ pre, key x ≤ key b) →
      (∀ j y, j < bi → pre[j]? = some y → key y < key b) →
      (pre ++ xs)[(maxElementFrom (fun a c => decide (key a < key c)) (bi, b)
          pre.length xs).1]? =
          some (maxElementFrom (fun a c => decide (key a < key c)) (bi, b) pre.length xs).2 ∧
        (∀ x ∈ pre ++ xs,
          key x ≤ key (maxElementFrom (fun a c => decide (key a < key c)) (bi, b)
            pre.length xs).2) ∧
        (∀ j y,
          j < (maxElementFrom (fun a c => decide (key a < key c)) (bi, b) pre.length xs).1 →
          (pre ++ xs)[j]? = some y →
          key y < key (maxElementFrom (fun a c => decide (key a < key c)) (bi, b)
            pre.length xs).2) := by
  induction xs with
  | nil =>
    intro pre bi b hb hmax hfirst
    simp only [maxElementFrom, List.append_nil]
    exact ⟨hb, hmax, hfirst⟩
  | cons x t ih =>
    intro pre bi b hb hmax hfirst
    have hbi : bi < pre.length := by
      rcases List.getElem?_eq_some.mp hb with ⟨h, _⟩
      exact h
    have happ : pre ++ x :: t = (pre ++ [x]) ++ t := by simp
    have hlen : (pre ++ [x]).length = pre.length + 1 := by simp
    rw [maxElementFrom, happ, ← hlen]
    by_cases hlt : key b < key x
    · simp only [hlt, decide_True, if_true]
      apply ih (pre ++ [x]) pre.length x
      · simp
      · intro y hy
        rcases List.mem_append.mp hy with h | h
        · exact le_trans (hmax y h) (le_of_lt hlt)
        · rw [List.mem_singleton.mp h]
      · intro j y hj hy
        rw [List.getElem?_append_left hj] at hy
        exact lt_of_le_of_lt (hmax y (List.getElem?_mem hy)) hlt
    · simp only [hlt, decide_False, if_false]
      apply ih (pre ++ [x]) bi b
      · rw [List.getElem?_append_left hbi]; exact hb
      · intro y hy
        rcases List.mem_append.mp hy with h | h
        · exact hmax y h
        · rw [List.mem_singleton.mp h]; exact not_lt.mp hlt
      · intro j y hj hy
        rw [List.getElem?_append_left (lt_trans hj hbi)] at hy
        exact hfirst j y hj hy


/-- C10. For every non-empty signal list, `combineSignalsToSetup` takes as
primary the element found by `std::max_element`, which is the first signal
(lowest index) among those of maximum confidence, and copies its type,
entry price, stop loss and two targets into the setup. -/
theorem combineSignalsToSetup_primary (symbol : String) (signals : List TradingSignal)
    (hne : signals ≠ []) :
    ∃ (i : Nat) (primary : TradingSignal),
      max_element (fun a b => decide (a.confidence < b.confidence)) signals =
          some (i, primary) ∧
        signals[i]? = some primary ∧
        (∀ s ∈ signals, s.confidence ≤ primary.confidence) ∧
        (∀ j s, j < i → signals[j]? = some s → s.confidence < primary.confidence) ∧
        (combineSignalsToSetup symbol signals).primary_signal = primary.type ∧
        (combineSignalsToSetup symbol signals).recommended_entry = primary.entry_price ∧
        (combineSignalsToSetup symbol signals).stop_loss = primary.stop_loss ∧
        (combineSignalsToSetup symbol signals).target_1 = primary.target_1 ∧
        (combineSignalsToSetup symbol signals).target_2 = primary.target_2 := by
  cases signals with
  | nil => exact absurd rfl hne
  | cons a t =>
    have hspec := maxElementFrom_spec (fun s : TradingSignal => s.confidence) t [a] 0 a rfl
      (by intro x hx; rw [List.mem_singleton.mp hx])
      (by intro j y hj; exact absurd hj (Nat.not_lt_zero j))
    have hfound : max_element (fun (a b : TradingSignal) => decide (a.confidence < b.confidence))
        (a :: t) =
        some ((maxElementFrom (fun (a b : TradingSignal) =>
            decide (a.confidence < b.confidence)) (0, a) 1 t).1,
          (maxElementFrom (fun (a b : TradingSignal) =>
            decide (a.confidence < b.confidence)) (0, a) 1 t).2) := rfl
    refine ⟨_, _, hfound, hspec.1, hspec.2.1, hspec.2.2, ?_⟩
    rw [combineSignalsToSetup_cons]
    exact ⟨rfl, rfl, rfl, rfl, rfl⟩

/-- Witness for C10: confidences 0.6, 0.8, 0.8; the primary is the signal at
index 1, the first of the two at 0.8, and the setup carries its prices. -/
theorem combineSignalsToSetup_primary_witness :
    ∃ (i : Nat) (primary : TradingSignal),
      max_element (fun a b => decide (a.confidence < b.confidence))
          tiedSignals = some (i, primary) ∧
        tiedSignals[i]? = some primary ∧
        (∀ s ∈ tiedSignals, s.confidence ≤ primary.confidence) ∧
        (∀ j s, j < i →
          tiedSignals[j]? = some s →
          s.confidence < primary.confidence) ∧
        (combineSignalsToSetup "X"
          tiedSignals).primary_signal = primary.type ∧
        (combineSignalsToSetup "X"
          tiedSignals).recommended_entry =
          primary.entry_price ∧
        (combineSignalsToSetup "X"
          tiedSignals).stop_loss = primary.stop_loss ∧
        (combineSignalsToSetup "X"
          tiedSignals).target_1 = primary.target_1 ∧
        (combineSignalsToSetup "X"
          tiedSignals).target_2 = primary.target_2 :=
  combineSignalsToSetup_primary "X" tiedSignals (by simp [tiedSignals])

theorem new_strategies_ : StrategyEngine.new.strategies_ =
    [ORBStrategy.strategy, VWAPStrategy.strategy, RSIStrategy.strategy,
      BreakoutStrategy.strategy, VolumeStrategy.strategy] := rfl

theorem new_strategy_enabled_ : StrategyEngine.new.strategy_enabled_ =
    [("Breakout", true), ("Opening Range Breakout", true), ("RSI", true), ("VWAP", true),
      ("Volume Spike", true)] := by
  decide

theorem new_max_signals_per_stock_ : StrategyEngine.new.max_signals_per_stock_ = 3 := rfl

theorem sizeT_three : sizeT 3 = 3 := by decide

theorem scenario_orb_silent :
    ORBStrategy.isApplicable scenarioStock = true ∧
      ORBStrategy.analyze scenarioStock scenarioHistory = [] := by
  constructor
  · norm_num [ORBStrategy.isApplicable, scenarioStock, StockData.new]
  · norm_num [ORBStrategy.analyze, ORBStrategy.calculateORBLevels, scenarioHistory,
      scenarioStock, StockData.new, List.replicate, DBL_MAX]

theorem scenario_breakout_silent :
    BreakoutStrategy.isApplicable scenarioStock = true ∧
      BreakoutStrategy.analyze scenarioStock scenarioHistory = [] := by
  constructor
  · norm_num [BreakoutStrategy.isApplicable, scenarioStock, StockData.new]
  · simp [BreakoutStrategy.analyze, BreakoutStrategy.detectBreakout, scenarioStock,
      StockData.new]

theorem scenario_volume_silent :
    VolumeStrategy.isApplicable scenarioStock = true ∧
      VolumeStrategy.analyze scenarioStock scenarioHistory = [] := by
  constructor
  · simp [VolumeStrategy.isApplicable, scenarioStock, StockData.new]
  · simp [VolumeStrategy.analyze, VolumeStrategy.isPriceVolumeAlignment, scenarioStock,
      StockData.new]

theorem scenario_vwap_fires :
    VWAPStrategy.isApplicable scenarioStock = true ∧
      VWAPStrategy.analyze scenarioStock scenarioHistory =
        [{ TradingSignal.new with
            strategy := StrategyType.VWAP
            symbol := "X"
            type := SignalType.BUY
            entry_price := 110
            stop_loss := 100
            target_1 := 110 * 1.02
            confidence := 0.8
            setup_description := "VWAP Breakout - Price above VWAP with volume" }] := by
  constructor
  · simp [VWAPStrategy.isApplicable, scenarioStock, StockData.new]
  · norm_num [VWAPStrategy.analyze, VWAPStrategy.calculateVWAPStrength, scenarioStock,
      StockData.new, abs_of_pos]

theorem scenario_rsi_fires :
    RSIStrategy.isApplicable scenarioStock = true ∧
      RSIStrategy.analyze scenarioStock scenarioHistory =
        [{ TradingSignal.new with
            strategy := StrategyType.RSI
            symbol := "X"
            type := SignalType.BUY
            confidence := 0.6
            setup_description := "RSI Oversold" }] := by
  constructor
  · norm_num [RSIStrategy.isApplicable, scenarioStock, StockData.new]
  · norm_num [RSIStrategy.analyze, RSIStrategy.isOversold, scenarioStock, StockData.new]

theorem new_all_enabled :
    mapGet StrategyEngine.new.strategy_enabled_ "Opening Range Breakout" = true ∧
      mapGet StrategyEngine.new.strategy_enabled_ "VWAP" = true ∧
      mapGet StrategyEngine.new.strategy_enabled_ "RSI" = true ∧
      mapGet StrategyEngine.new.strategy_enabled_ "Breakout" = true ∧
      mapGet StrategyEngine.new.strategy_enabled_ "Volume Spike" = true := by
  rw [new_strategy_enabled_]
  decide

theorem scenario_collectSignals :
    collectSignals StrategyEngine.new scenarioStock scenarioHistory =
      [updateSignalMetrics
        { TradingSignal.new with
          strategy := StrategyType.VWAP
          symbol := "X"
          type := SignalType.BUY
          entry_price := 110
          stop_loss := 100
          target_1 := 110 * 1.02
          confidence := 0.8
          setup_description := "VWAP Breakout - Price above VWAP with volume" }
        scenarioStock] := by
  unfold collectSignals
  rw [new_strategies_]
  norm_num [ORBStrategy.strategy, VWAPStrategy.strategy,
    RSIStrategy.strategy, BreakoutStrategy.strategy, VolumeStrategy.strategy,
    new_all_enabled.1, new_all_enabled.2.1, new_all_enabled.2.2.1, new_all_enabled.2.2.2.1,
    new_all_enabled.2.2.2.2,
    scenario_orb_silent.1, scenario_orb_silent.2, scenario_breakout_silent.1,
    scenario_breakout_silent.2, scenario_volume_silent.1, scenario_volume_silent.2,
    scenario_vwap_fires.1, scenario_vwap_fires.2, scenario_rsi_fires.1, scenario_rsi_fires.2,
    updateSignalMetrics]


/-- C6. On `scenarioStock` (volume_ratio 2.0, vwap 100 > 0, volume 2000 > 0,
price 110 = 1.10 * vwap, RSI 25) with `scenarioHistory`, the ORB, Breakout and
Volume Spike strategies emit nothing and the RSI strategy emits a BUY of
confidence 0.6; that is below the RSI strategy's own threshold 0.65, so
`analyzeStock` of the default engine returns one signal only, the VWAP BUY of
confidence 0.8, and the combined setup has confluence 1 and confidence 0.8. -/
theorem analyzeStock_scenario_drops_rsi
    (stdSort : List TradingSignal → List TradingSignal) :
    (scenarioStock.volume_ratio = 2 ∧ scenarioStock.vwap > 0 ∧ scenarioStock.volume > 0 ∧
        scenarioStock.current_price = 1.10 * scenarioStock.vwap ∧
        scenarioStock.rsi_14 = 25) ∧
      (ORBStrategy.analyze scenarioStock scenarioHistory = [] ∧
        BreakoutStrategy.analyze scenarioStock scenarioHistory = [] ∧
        VolumeStrategy.analyze scenarioStock scenarioHistory = []) ∧
      (RSIStrategy.strategy.isApplicable scenarioStock = true ∧
        (RSIStrategy.strategy.analyze scenarioStock scenarioHistory).map
            (fun s => (s.type, s.confidence)) = [(SignalType.BUY, 0.6)] ∧
        RSIStrategy.strategy.getMinConfidenceThreshold = 0.65) ∧
      (analyzeStock stdSort StrategyEngine.new scenarioStock scenarioHistory).map
          (fun s => (s.strategy, s.type, s.confidence)) =
        [(StrategyType.VWAP, SignalType.BUY, 0.8)] ∧
      (combineSignalsToSetup "X"
          (analyzeStock stdSort StrategyEngine.new scenarioStock
            scenarioHistory)).technical_confluence = 1 ∧
      (combineSignalsToSetup "X"
          (analyzeStock stdSort StrategyEngine.new scenarioStock
            scenarioHistory)).overall_confidence = 0.8 := by
  have hall : analyzeStock stdSort StrategyEngine.new scenarioStock scenarioHistory =
      collectSignals StrategyEngine.new scenarioStock scenarioHistory := by
    unfold analyzeStock
    rw [scenario_collectSignals, new_max_signals_per_stock_, sizeT_three]
    simp
  rw [hall, scenario_collectSignals]
  refine ⟨?_, ⟨scenario_orb_silent.2, scenario_breakout_silent.2, scenario_volume_silent.2⟩,
    ⟨scenario_rsi_fires.1, ?_, rfl⟩, ?_, ?_, ?_⟩
  · norm_num [scenarioStock, StockData.new]
  · show (RSIStrategy.analyze scenarioStock scenarioHistory).map
      (fun s => (s.type, s.confidence)) = [(SignalType.BUY, 0.6)]
    rw [scenario_rsi_fires.2]
    rfl
  · simp [updateSignalMetrics]
  · rw [combineSignalsToSetup_cons]
    rfl
  · rw [combineSignalsToSetup_overall, calculateSetupConfidence_cons]
    norm_num [updateSignalMetrics]

end StrategyEngine

/-! ## Theorems: signal scoring -/

namespace SignalUtils

theorem calculateRiskRewardRatio_nonneg (entry stop_loss target : ℚ) :
    0 ≤ calculateRiskRewardRatio entry stop_loss target := by
  unfold calculateRiskRewardRatio
  split_ifs
  · exact le_rfl
  · exact div_nonneg (abs_nonneg _) (abs_nonneg _)

/-- C17. For every signal, `calculateSignalScore` equals
`min(100, m * (confidence*40 + technical_score*20 + (volume_above_average ?
volume_confirmation*15 : 0) + (breakout_confirmed ? 10 : 0) + min(15, rr*3)))`
with `rr = calculateRiskRewardRatio(entry_price, stop_loss, target_1)` and `m`
the strength multiplier; in particular the score never exceeds 100. -/
theorem calculateSignalScore_formula (signal : TradingSignal) :
    calculateSignalScore signal =
        min 100 (strengthMultiplier signal.strength *
          (signal.confidence * 40 + signal.technical_score * 20 +
            (if signal.volume_above_average then signal.volume_confirmation * 15 else 0) +
            (if signal.breakout_confirmed then 10 else 0) +
            min 15 (calculateRiskRewardRatio signal.entry_price signal.stop_loss
              signal.target_1 * 3))) ∧
      calculateSignalScore signal ≤ 100 := by
  have hrr := calculateRiskRewardRatio_nonneg signal.entry_price signal.stop_loss
    signal.target_1
  have hbonus : (if calculateRiskRewardRatio signal.entry_price signal.stop_loss
        signal.target_1 > 0 then
      (0 + signal.confidence * 40 + signal.technical_score * 20 +
          (if signal.volume_above_average then signal.volume_confirmation * 15 else 0) +
          (if signal.breakout_confirmed then 10 else 0)) +
        min 15 (calculateRiskRewardRatio signal.entry_price signal.stop_loss
          signal.target_1 * 3)
      else
        (0 + signal.confidence * 40 + signal.technical_score * 20 +
          (if signal.volume_above_average then signal.volume_confirmation * 15 else 0) +
          (if signal.breakout_confirmed then 10 else 0))) =
      signal.confidence * 40 + signal.technical_score * 20 +
          (if signal.volume_above_average then signal.volume_confirmation * 15 else 0) +
          (if signal.breakout_confirmed then 10 else 0) +
        min 15 (calculateRiskRewardRatio signal.entry_price signal.stop_loss
          signal.target_1 * 3) := by
    by_cases hpos : calculateRiskRewardRatio signal.entry_price signal.stop_loss
        signal.target_1 > 0
    · rw [if_pos hpos]; ring
    · have hzero : calculateRiskRewardRatio signal.entry_price signal.stop_loss
          signal.target_1 = 0 := le_antisymm (not_lt.mp hpos) hrr
      rw [if_neg hpos, hzero]
      norm_num
  have hscore : calculateSignalScore signal =
      min 100 (strengthMultiplier signal.strength *
          (signal.confidence * 40 + signal.technical_score * 20 +
            (if signal.volume_above_average then signal.volume_confirmation * 15 else 0) +
            (if signal.breakout_confirmed then 10 else 0) +
            min 15 (calculateRiskRewardRatio signal.entry_price signal.stop_loss
              signal.target_1 * 3))) := by
    rw [← hbonus]
    unfold calculateSignalScore strengthMultiplier
    cases signal.strength <;> cases signal.volume_above_average <;>
      cases signal.breakout_confirmed <;> simp <;> ring_nf
  exact ⟨hscore, hscore ▸ min_le_left _ _⟩

end SignalUtils

/-! ## Theorems: volatility and volume indicators -/

namespace TechnicalIndicators

theorem calculateTrueRange_nonneg (current previous : OHLCV) :
    0 ≤ calculateTrueRange current previous := by
  unfold calculateTrueRange
  exact le_trans (abs_nonneg (current.low - previous.close)) (le_max_right _ _)

theorem trueRanges_nonneg (data : List OHLCV) : ∀ x ∈ trueRanges data, 0 ≤ x := by
  intro x hx
  unfold trueRanges at hx
  rcases List.mem_iff_get.mp hx with ⟨i, rfl⟩
  simp only [List.get_eq_getElem, List.getElem_zipWith]
  exact calculateTrueRange_nonneg _ _

theorem foldl_close_nonneg (cs : List OHLCV) : ∀ init : ℚ, 0 ≤ init →
    (∀ c ∈ cs, 0 ≤ c.close) → 0 ≤ cs.foldl (fun s c => s + c.close) init := by
  induction cs with
  | nil => intro init h _; simpa using h
  | cons a t ih =>
    intro init h hall
    simp only [List.foldl_cons]
    apply ih
    · have := hall a (List.mem_cons_self a t); linarith
    · intro c hc; exact hall c (List.mem_cons_of_mem a hc)

/-- C19. For every window `W ≥ 1` and every candle series whose open, high,
low and close are all non-negative, `calculateATR(data, W) ≥ 0` and
`calculateSMA(data, W) ≥ 0`. -/
theorem calculateATR_calculateSMA_nonneg (data : List OHLCV) (W : Nat) (hW : 1 ≤ W)
    (hprices : ∀ c ∈ data, 0 ≤ c.open_ ∧ 0 ≤ c.high ∧ 0 ≤ c.low ∧ 0 ≤ c.close) :
    0 ≤ calculateATR data W ∧ 0 ≤ calculateSMA data W := by
  constructor
  · unfold calculateATR
    split_ifs
    · exact le_rfl
    · exact le_rfl
    · exact wilderSmooth_nonneg W hW _ _ (seedAverage_nonneg _ _ (trueRanges_nonneg data))
        (trueRanges_nonneg data)
  · unfold calculateSMA
    split_ifs
    · exact le_rfl
    · apply div_nonneg _ (Nat.cast_nonneg W)
      apply foldl_close_nonneg _ _ le_rfl
      intro c hc
      exact (hprices c (List.mem_of_mem_drop hc)).2.2.2

/-- Witness for C19: four bars and the window 2. -/
theorem calculateATR_calculateSMA_nonneg_witness :
    0 ≤ calculateATR
        [{ open_ := 10, high := 12, low := 9, close := 11, volume := 100 },
          { open_ := 11, high := 13, low := 10, close := 12, volume := 150 },
          { open_ := 12, high := 12, low := 8, close := 9, volume := 300 },
          { open_ := 9, high := 11, low := 9, close := 10, volume := 120 }] 2 ∧
      0 ≤ calculateSMA
        [{ open_ := 10, high := 12, low := 9, close := 11, volume := 100 },
          { open_ := 11, high := 13, low := 10, close := 12, volume := 150 },
          { open_ := 12, high := 12, low := 8, close := 9, volume := 300 },
          { open_ := 9, high := 11, low := 9, close := 10, volume := 120 }] 2 :=
  calculateATR_calculateSMA_nonneg _ 2 (by decide)
    (by
      intro c hc
      simp only [List.mem_cons, List.mem_singleton, List.not_mem_nil, or_false] at hc
      rcases hc with rfl | rfl | rfl | rfl <;> norm_num)

theorem foldl_sq_nonneg (cs : List OHLCV) (m : ℚ) : ∀ init : ℚ, 0 ≤ init →
    0 ≤ cs.foldl (fun s c => s + (c.close - m) * (c.close - m)) init := by
  induction cs with
  | nil => intro init h; simpa using h
  | cons a t ih =>
    intro init h
    simp only [List.foldl_cons]
    apply ih
    have := mul_self_nonneg (a.close - m)
    linarith

/-- C18. For every window `W ≥ 1`, every multiplier `≥ 0` and every candle
series, `calculateBollingerBands` returns `upper ≥ middle ≥ lower` (the
default of undersized input included), and with at least `W` bars `middle` is
`calculateSMA(data, W)`. The square root is any function that is non-negative
on non-negative arguments. -/
theorem calculateBollingerBands_ordered (sqrt : ℚ → ℚ)
    (hsqrt : ∀ x : ℚ, 0 ≤ x → 0 ≤ sqrt x) (data : List OHLCV) (W : Nat) (hW : 1 ≤ W)
    (multiplier : ℚ) (hmult : 0 ≤ multiplier) :
    (calculateBollingerBands sqrt data W multiplier).middle ≤
        (calculateBollingerBands sqrt data W multiplier).upper ∧
      (calculateBollingerBands sqrt data W multiplier).lower ≤
        (calculateBollingerBands sqrt data W multiplier).middle ∧
      (W ≤ data.length →
        (calculateBollingerBands sqrt data W multiplier).middle = calculateSMA data W) := by
  have _hWpos : 0 < W := hW
  unfold calculateBollingerBands
  by_cases hlen : data.length < W
  · rw [if_pos hlen]
    exact ⟨le_rfl, le_rfl, fun h => absurd hlen (not_lt.mpr h)⟩
  · rw [if_neg hlen]
    have hvar : 0 ≤ (data.drop (data.length - W)).foldl
        (fun s c => s + (c.close - calculateSMA data W) * (c.close - calculateSMA data W)) 0 /
          (W : ℚ) :=
      div_nonneg (foldl_sq_nonneg _ _ _ le_rfl) (Nat.cast_nonneg W)
    have hband := mul_nonneg hmult (hsqrt _ hvar)
    refine ⟨?_, ?_, fun _ => rfl⟩
    · show calculateSMA data W ≤ calculateSMA data W + _
      linarith
    · show calculateSMA data W - _ ≤ calculateSMA data W
      linarith

/-- Witness for C18: closes 1 and 3, window 2, multiplier 2 and the rounded
rational square root. -/
theorem calculateBollingerBands_ordered_witness :
    (calculateBollingerBands ratSqrt [flatBar 1, flatBar 3] 2 2).middle ≤
        (calculateBollingerBands ratSqrt [flatBar 1, flatBar 3] 2 2).upper ∧
      (calculateBollingerBands ratSqrt [flatBar 1, flatBar 3] 2 2).lower ≤
        (calculateBollingerBands ratSqrt [flatBar 1, flatBar 3] 2 2).middle ∧
      (2 ≤ [flatBar 1, flatBar 3].length →
        (calculateBollingerBands ratSqrt [flatBar 1, flatBar 3] 2 2).middle =
          calculateSMA [flatBar 1, flatBar 3] 2) :=
  calculateBollingerBands_ordered ratSqrt
    (fun x _ => div_nonneg (Nat.cast_nonneg _) (Nat.cast_nonneg _))
    [flatBar 1, flatBar 3] 2 (by decide) 2 (by norm_num)

end TechnicalIndicators

/-! ## Theorems: opening-range breakout -/

namespace ORBStrategy

theorem foldl_max_high (cs : List OHLCV) (H : ℚ) : ∀ init : ℚ, init ≤ H →
    (∀ c ∈ cs, c.high ≤ H) → (init = H ∨ ∃ c ∈ cs, c.high = H) →
    cs.foldl (fun h c => max h c.high) init = H := by
  induction cs with
  | nil =>
    intro init _ _ hatt
    rcases hatt with h | ⟨c, hc, _⟩
    · simpa using h
    · exact absurd hc (List.not_mem_nil c)
  | cons a t ih =>
    intro init hinit hall hatt
    simp only [List.foldl_cons]
    have ha : a.high ≤ H := hall a (List.mem_cons_self a t)
    apply ih _ (max_le hinit ha) (fun c hc => hall c (List.mem_cons_of_mem a hc))
    rcases hatt with h | ⟨c, hc, hcH⟩
    · left; rw [h]; exact max_eq_left ha
    · rcases List.mem_cons.mp hc with h | h
      · left; rw [← h, hcH]; exact max_eq_right hinit
      · right; exact ⟨c, h, hcH⟩

theorem foldl_min_low (cs : List OHLCV) (L : ℚ) : ∀ init : ℚ, L ≤ init →
    (∀ c ∈ cs, L ≤ c.low) → (init = L ∨ ∃ c ∈ cs, c.low = L) →
    cs.foldl (fun l c => min l c.low) init = L := by
  induction cs with
  | nil =>
    intro init _ _ hatt
    rcases hatt with h | ⟨c, hc, _⟩
    · simpa using h
    · exact absurd hc (List.not_mem_nil c)
  | cons a t ih =>
    intro init hinit hall hatt
    simp only [List.foldl_cons]
    have ha : L ≤ a.low := hall a (List.mem_cons_self a t)
    apply ih _ (le_min hinit ha) (fun c hc => hall c (List.mem_cons_of_mem a hc))
    rcases hatt with h | ⟨c, hc, hcL⟩
    · left; rw [h]; exact min_eq_left ha
    · rcases List.mem_cons.mp hc with h | h
      · left; rw [← h, hcL]; exact min_eq_right hinit
      · right; exact ⟨c, h, hcL⟩

/-- C14. For every series with at least 5 candles whose first five candles
have maximum high `H > 0` and minimum low `L < H` (a finite double, so
`L ≤ DBL_MAX`), and every snapshot with `current_price > H`,
`ORBStrategy::analyze` returns exactly one signal: a BUY with entry `H`, stop
`L` and `target_1 = H + 1.5 * (H - L)`. -/
theorem analyze_breakout_buy (stock : StockData) (historical : HistoricalData) (H L : ℚ)
    (hlen : 5 ≤ historical.candles.length)
    (hHmax : ∀ c ∈ historical.candles.take 5, c.high ≤ H)
    (hHatt : ∃ c ∈ historical.candles.take 5, c.high = H)
    (hLmin : ∀ c ∈ historical.candles.take 5, L ≤ c.low)
    (hLatt : ∃ c ∈ historical.candles.take 5, c.low = L)
    (hHpos : 0 < H) (hHL : L < H) (hfin : L ≤ DBL_MAX) (hprice : H < stock.current_price) :
    ∃ signal : TradingSignal,
      analyze stock historical = [signal] ∧ signal.type = SignalType.BUY ∧
        signal.entry_price = H ∧ signal.stop_loss = L ∧
        signal.target_1 = H + 1.5 * (H - L) := by
  have hmin5 : min 5 historical.candles.length = 5 := min_eq_left hlen
  have hhigh : (historical.candles.take 5).foldl (fun h c => max h c.high) 0 = H :=
    foldl_max_high _ H 0 (le_of_lt hHpos) hHmax (Or.inr hHatt)
  have hlow : (historical.candles.take 5).foldl (fun l c => min l c.low) DBL_MAX = L :=
    foldl_min_low _ L DBL_MAX hfin hLmin (Or.inr hLatt)
  have hlevels : calculateORBLevels historical =
      { orb_high := H, orb_low := L, range_size := H - L, is_valid := true } := by
    unfold calculateORBLevels
    rw [if_neg (not_lt.mpr hlen), hmin5]
    simp only [hhigh, hlow]
    have hpos : H - L > 0 := sub_pos.mpr hHL
    simp [hpos]
  have hres : analyze stock historical =
      [{ TradingSignal.new with
          strategy := StrategyType.ORB
          symbol := stock.symbol
          type := SignalType.BUY
          entry_price := H
          stop_loss := L
          target_1 := H + ((H - L) * 1.5)
          confidence := calculateBreakoutProbability stock
            { orb_high := H, orb_low := L, range_size := H - L, is_valid := true }
          setup_description := "ORB Breakout - Price above opening range high" }] := by
    unfold analyze
    simp only [hlevels, Bool.not_true, Bool.false_eq_true, if_false]
    rw [if_pos hprice]
  refine ⟨_, hres, rfl, rfl, rfl, ?_⟩
  show H + (H - L) * 1.5 = H + 1.5 * (H - L)
  ring

/-- Witness for C14: opening range 100 .. 105 and price 110 give entry 105,
stop 100 and target 112.5. -/
theorem analyze_breakout_buy_witness :
    ∃ signal : TradingSignal,
      analyze orbStock orbHistory = [signal] ∧ signal.type = SignalType.BUY ∧
        signal.entry_price = 105 ∧ signal.stop_loss = 100 ∧
        signal.target_1 = 105 + 1.5 * (105 - 100) :=
  analyze_breakout_buy orbStock orbHistory 105 100 (by simp [orbHistory])
    (by
      intro c hc
      simp only [orbHistory, List.take, List.mem_cons, List.mem_singleton, List.not_mem_nil,
        or_false] at hc
      rcases hc with rfl | rfl | rfl | rfl | rfl <;> norm_num)
    ⟨{ open_ := 102, high := 105, low := 101, close := 104, volume := 400 },
      by simp [orbHistory], rfl⟩
    (by
      intro c hc
      simp only [orbHistory, List.take, List.mem_cons, List.mem_singleton, List.not_mem_nil,
        or_false] at hc
      rcases hc with rfl | rfl | rfl | rfl | rfl <;> norm_num)
    ⟨{ open_ := 101, high := 103, low := 100, close := 102, volume := 500 },
      by simp [orbHistory], rfl⟩
    (by norm_num) (by norm_num) (by norm_num [DBL_MAX]) (by norm_num [orbStock, StockData.new])

theorem orbScenario_target :
    (analyze orbStock orbHistory).map
        (fun s => (s.type, s.entry_price, s.stop_loss, s.target_1)) =
      [(SignalType.BUY, 105, 100, 225 / 2)] := by
  norm_num [analyze, calculateORBLevels, orbHistory, orbStock, StockData.new, DBL_MAX]

end ORBStrategy

/-! ## Theorems: performance statistics -/

namespace StrategyEngine

/-- C13. `updatePerformanceStats` changes nothing: after recording a
profitable ORB outcome with a return of 5 on the freshly constructed engine,
`getPerformanceStats` is still the empty table, with no entry for ORB at all;
in general the table after the call is the table before it. -/
theorem updatePerformanceStats_unchanged :
    getPerformanceStats
        (updatePerformanceStats StrategyEngine.new
          (sampleSignal SignalType.BUY 105 100 112 0 0.8) true 5) = [] ∧
      statsFor
        (getPerformanceStats
          (updatePerformanceStats StrategyEngine.new
            (sampleSignal SignalType.BUY 105 100 112 0 0.8) true 5))
        (sampleSignal SignalType.BUY 105 100 112 0 0.8).strategy = none ∧
      ∀ (engine : StrategyEngine) (signal : TradingSignal) (was_profitable : Bool)
        (return_percentage : ℚ),
        getPerformanceStats
            (updatePerformanceStats engine signal was_profitable return_percentage) =
          getPerformanceStats engine :=
  ⟨rfl, rfl, fun _ _ _ _ => rfl⟩

end StrategyEngine

/-! ## Theorems: ranking and truncation -/

theorem insertionSort_isStdSort {α : Type} (key : α → ℚ) :
    IsStdSort (fun a b => decide (key a > key b))
      (List.insertionSort (fun a b => key b ≤ key a)) := by
  intro l
  haveI : IsTotal α (fun a b => key b ≤ key a) := ⟨fun a b => le_total (key b) (key a)⟩
  haveI : IsTrans α (fun a b => key b ≤ key a) := ⟨fun _ _ _ hab hbc => le_trans hbc hab⟩
  refine ⟨List.perm_insertionSort _ l, ?_⟩
  have hsorted := List.sorted_insertionSort (fun a b => key b ≤ key a) l
  refine List.Pairwise.imp ?_ hsorted
  intro a b hab
  exact decide_eq_false (not_lt.mpr hab)

theorem confidenceSort_isStdSort :
    IsStdSort (fun a b : TradingSignal => decide (a.confidence > b.confidence))
      confidenceSort :=
  insertionSort_isStdSort (fun s : TradingSignal => s.confidence)

theorem setupConfidenceSort_isStdSort :
    IsStdSort (fun a b : TradingSetup => decide (a.overall_confidence > b.overall_confidence))
      setupConfidenceSort :=
  insertionSort_isStdSort (fun s : TradingSetup => s.overall_confidence)

theorem stdSort_descending (stdSort : List TradingSignal → List TradingSignal)
    (hsort : IsStdSort (fun a b : TradingSignal => decide (a.confidence > b.confidence))
      stdSort) (l : List TradingSignal) :
    (stdSort l).Pairwise (fun a b => b.confidence ≤ a.confidence) := by
  refine List.Pairwise.imp ?_ (hsort l).2
  intro a b hab
  exact not_lt.mp (of_decide_eq_false hab)

namespace StrategyEngine

theorem updateSignalMetrics_confidence (signal : TradingSignal) (stock : StockData) :
    (updateSignalMetrics signal stock).confidence = signal.confidence := rfl

theorem updateSignalMetrics_strategy (signal : TradingSignal) (stock : StockData) :
    (updateSignalMetrics signal stock).strategy = signal.strategy := rfl

theorem fixedSignal_strategy (type : StrategyType) (confidence : ℚ) :
    (fixedSignal type confidence).strategy = type := rfl

theorem descending_confidences_unique (l₁ l₂ : List TradingSignal) (hperm : l₁.Perm l₂)
    (h₁ : l₁.Pairwise (fun a b => b.confidence ≤ a.confidence))
    (h₂ : l₂.Pairwise (fun a b => b.confidence ≤ a.confidence)) :
    l₁.map (fun s => s.confidence) = l₂.map (fun s => s.confidence) := by
  have hp : (l₁.map (fun s => s.confidence)).Perm (l₂.map (fun s => s.confidence)) :=
    hperm.map _
  have hs₁ : (l₁.map (fun s => s.confidence)).Sorted (fun x y : ℚ => y ≤ x) :=
    List.pairwise_map.mpr h₁
  have hs₂ : (l₂.map (fun s => s.confidence)).Sorted (fun x y : ℚ => y ≤ x) :=
    List.pairwise_map.mpr h₂
  haveI : IsAntisymm ℚ (fun x y : ℚ => y ≤ x) := ⟨fun _ _ hab hba => le_antisymm hba hab⟩
  exact List.eq_of_perm_of_sorted hp hs₁ hs₂

/-- When `analyzeStock` ranks and truncates a symbol's signal list, then for
every routine meeting the `std::sort` postcondition the returned list is in
non-increasing confidence order and carries, position by position, the
confidences the insertion sort `confidenceSort` returns. The postcondition
says nothing on which of several signals of equal confidence come first. -/
theorem analyzeStock_ranking (stdSort : List TradingSignal → List TradingSignal)
    (hsort : IsStdSort (fun a b : TradingSignal => decide (a.confidence > b.confidence))
      stdSort)
    (engine : StrategyEngine) (stock : StockData) (historical : HistoricalData)
    (htrunc : sizeT engine.max_signals_per_stock_ <
      (collectSignals engine stock historical).length) :
    (analyzeStock stdSort engine stock historical).Pairwise
        (fun a b => b.confidence ≤ a.confidence) ∧
      (analyzeStock stdSort engine stock historical).map (fun s => s.confidence) =
        (analyzeStock confidenceSort engine stock historical).map (fun s => s.confidence) := by
  have hdesc := stdSort_descending stdSort hsort (collectSignals engine stock historical)
  have hstable := stdSort_descending confidenceSort confidenceSort_isStdSort
    (collectSignals engine stock historical)
  have hperm : (stdSort (collectSignals engine stock historical)).Perm
      (confidenceSort (collectSignals engine stock historical)) :=
    (hsort _).1.trans (confidenceSort_isStdSort _).1.symm
  unfold analyzeStock
  simp only [if_pos htrunc]
  refine ⟨hdesc.sublist (List.take_sublist _ _), ?_⟩
  rw [List.map_take, List.map_take, descending_confidences_unique _ _ hperm hdesc hstable]

/-! ## Theorems: batch setups -/

theorem generateSetups_foldl (stdSort : List TradingSignal → List TradingSignal)
    (engine : StrategyEngine) (historical_data : String → Option HistoricalData)
    (stocks : List StockData) : ∀ acc : List TradingSetup,
    stocks.foldl
        (fun setups stock =>
          match historical_data stock.symbol with
          | none => setups
          | some historical =>
            if !(analyzeStock stdSort engine stock historical).isEmpty then
              if isHighQualitySetup engine
                  (combineSignalsToSetup stock.symbol
                    (analyzeStock stdSort engine stock historical)) then
                setups ++ [combineSignalsToSetup stock.symbol
                  (analyzeStock stdSort engine stock historical)]
              else setups
            else setups)
        acc =
      acc ++ stocks.filterMap
        (fun stock =>
          match historical_data stock.symbol with
          | none => none
          | some historical =>
            if !(analyzeStock stdSort engine stock historical).isEmpty then
              if isHighQualitySetup engine
                  (combineSignalsToSetup stock.symbol
                    (analyzeStock stdSort engine stock historical)) then
                some (combineSignalsToSetup stock.symbol
                  (analyzeStock stdSort engine stock historical))
              else none
            else none) := by
  induction stocks with
  | nil => intro acc; simp
  | cons a t ih =>
    intro acc
    rw [List.foldl_cons, ih]
    cases hh : historical_data a.symbol with
    | none => simp [List.filterMap_cons, hh]
    | some historical =>
      by_cases hne : (!(analyzeStock stdSort engine a historical).isEmpty) = true
      · by_cases hq : isHighQualitySetup engine
            (combineSignalsToSetup a.symbol (analyzeStock stdSort engine a historical)) = true
        · simp [List.filterMap_cons, hh, hne, hq]
        · simp [List.filterMap_cons, hh, hne, hq]
      · simp [List.filterMap_cons, hh, hne]

theorem mem_generateSetups (stdSort : List TradingSignal → List TradingSignal)
    (stdSortSetups : List TradingSetup → List TradingSetup)
    (hperm : ∀ l, (stdSortSetups l).Perm l)
    (engine : StrategyEngine) (stocks : List StockData)
    (historical_data : String → Option HistoricalData) (setup : TradingSetup) :
    setup ∈ generateSetups stdSort stdSortSetups engine stocks historical_data ↔
      ∃ stock ∈ stocks, ∃ historical, historical_data stock.symbol = some historical ∧
        analyzeStock stdSort engine stock historical ≠ [] ∧
        isHighQualitySetup engine
          (combineSignalsToSetup stock.symbol
            (analyzeStock stdSort engine stock historical)) = true ∧
        setup = combineSignalsToSetup stock.symbol
          (analyzeStock stdSort engine stock historical) := by
  unfold generateSetups
  rw [(hperm _).mem_iff]
  show setup ∈ stocks.foldl _ [] ↔ _
  rw [generateSetups_foldl, List.nil_append, List.mem_filterMap]
  constructor
  · rintro ⟨stock, hmem, hsome⟩
    cases hh : historical_data stock.symbol with
    | none => simp [hh] at hsome
    | some historical =>
      simp only [hh] at hsome
      by_cases hne : (!(analyzeStock stdSort engine stock historical).isEmpty) = true
      · by_cases hq : isHighQualitySetup engine
            (combineSignalsToSetup stock.symbol
              (analyzeStock stdSort engine stock historical)) = true
        · simp only [hne, hq, if_true] at hsome
          refine ⟨stock, hmem, historical, hh, ?_, hq, (Option.some.inj hsome).symm⟩
          intro hnil
          rw [hnil] at hne
          simp at hne
        · simp [hne, hq] at hsome
      · simp [hne] at hsome
  · rintro ⟨stock, hmem, historical, hh, hne, hq, rfl⟩
    refine ⟨stock, hmem, ?_⟩
    have hne' : (!(analyzeStock stdSort engine stock historical).isEmpty) = true := by
      cases hres : analyzeStock stdSort engine stock historical with
      | nil => exact absurd hres hne
      | cons _ _ => rfl
    simp only [hh, hne', hq, if_true]

theorem collectSignals_orb_only (stock : StockData) (historical : HistoricalData)
    (hvwap : stock.vwap = 0) (hvol : stock.volume = 0) (hbrk : stock.is_breakout = false)
    (hrsi : stock.rsi_14 = 50) (happ : ORBStrategy.isApplicable stock = true) :
    collectSignals StrategyEngine.new stock historical =
      ((ORBStrategy.analyze stock historical).map
        (fun signal => updateSignalMetrics signal stock)).filter
        (fun signal => decide (signal.confidence ≥ 0.6)) := by
  have h1 : VWAPStrategy.isApplicable stock = false := by
    simp [VWAPStrategy.isApplicable, hvwap]
  have h2 : RSIStrategy.analyze stock historical = [] := by
    norm_num [RSIStrategy.analyze, RSIStrategy.isOversold, RSIStrategy.isOverbought, hrsi]
  have h3 : BreakoutStrategy.analyze stock historical = [] := by
    simp [BreakoutStrategy.analyze, BreakoutStrategy.detectBreakout, hbrk]
  have h4 : VolumeStrategy.isApplicable stock = false := by
    simp [VolumeStrategy.isApplicable, hvol]
  unfold collectSignals
  rw [new_strategies_]
  simp [ORBStrategy.strategy, VWAPStrategy.strategy,
    RSIStrategy.strategy, BreakoutStrategy.strategy, VolumeStrategy.strategy,
    new_all_enabled.1, new_all_enabled.2.1, new_all_enabled.2.2.1, new_all_enabled.2.2.2.1,
    new_all_enabled.2.2.2.2, h1, h2, h3, h4, happ]

theorem orbBatch_analyzeStock (stdSort : List TradingSignal → List TradingSignal) :
    analyzeStock stdSort StrategyEngine.new orbStock orbHistory =
        [updateSignalMetrics (orbSignal "X" 0.8) orbStock] ∧
      analyzeStock stdSort StrategyEngine.new orbStockY { orbHistory with symbol := "Y" } =
        [updateSignalMetrics (orbSignal "Y" 0.6) orbStockY] := by
  have hx : collectSignals StrategyEngine.new orbStock orbHistory =
      [updateSignalMetrics (orbSignal "X" 0.8) orbStock] := by
    rw [collectSignals_orb_only orbStock orbHistory rfl rfl rfl rfl
      (by norm_num [ORBStrategy.isApplicable, orbStock, StockData.new])]
    norm_num [ORBStrategy.analyze, ORBStrategy.calculateORBLevels,
      ORBStrategy.calculateBreakoutProbability, orbHistory, orbStock, StockData.new, DBL_MAX,
      orbSignal, updateSignalMetrics]
  have hy : collectSignals StrategyEngine.new orbStockY { orbHistory with symbol := "Y" } =
      [updateSignalMetrics (orbSignal "Y" 0.6) orbStockY] := by
    rw [collectSignals_orb_only orbStockY _ rfl rfl rfl rfl
      (by norm_num [ORBStrategy.isApplicable, orbStockY, StockData.new])]
    norm_num [ORBStrategy.analyze, ORBStrategy.calculateORBLevels,
      ORBStrategy.calculateBreakoutProbability, orbHistory, orbStockY, StockData.new, DBL_MAX,
      orbSignal, updateSignalMetrics]
  unfold analyzeStock
  rw [hx, hy, new_max_signals_per_stock_, sizeT_three]
  simp

theorem orbBatch_setups (stdSort : List TradingSignal → List TradingSignal) :
    (combineSignalsToSetup "X"
          (analyzeStock stdSort StrategyEngine.new orbStock orbHistory)).overall_confidence =
        0.8 ∧
      (combineSignalsToSetup "X"
          (analyzeStock stdSort StrategyEngine.new orbStock orbHistory)).risk_reward_ratio =
        1.5 ∧
      (combineSignalsToSetup "Y"
          (analyzeStock stdSort StrategyEngine.new orbStockY
            { orbHistory with symbol := "Y" })).overall_confidence = 0.6 ∧
      (combineSignalsToSetup "Y"
          (analyzeStock stdSort StrategyEngine.new orbStockY
            { orbHistory with symbol := "Y" })).risk_reward_ratio = 1.5 := by
  rw [(orbBatch_analyzeStock stdSort).1, (orbBatch_analyzeStock stdSort).2]
  have hrr : SignalUtils.calculateRiskRewardRatio 105 100 (105 + 5 * 1.5) = 1.5 := by
    norm_num [SignalUtils.calculateRiskRewardRatio, abs_of_pos]
  refine ⟨?_, ?_, ?_, ?_⟩
  · rw [combineSignalsToSetup_overall, calculateSetupConfidence_cons]
    norm_num [updateSignalMetrics, orbSignal]
  · rw [combineSignalsToSetup_cons]
    exact hrr
  · rw [combineSignalsToSetup_overall, calculateSetupConfidence_cons]
    norm_num [updateSignalMetrics, orbSignal]
  · rw [combineSignalsToSetup_cons]
    exact hrr

/-- C15. Every setup returned by `generateSetups` has
`overall_confidence ≥` the global confidence threshold and
`risk_reward_ratio ≥` the minimum risk:reward threshold; conversely every
input stock with a history entry, a non-empty `analyzeStock` result and a
combined setup meeting both thresholds has that setup in the output. The
final sort is any routine meeting the `std::sort` postcondition. -/
theorem generateSetups_high_quality (stdSort : List TradingSignal → List TradingSignal)
    (stdSortSetups : List TradingSetup → List TradingSetup)
    (hsetups : IsStdSort
      (fun a b : TradingSetup => decide (a.overall_confidence > b.overall_confidence))
      stdSortSetups)
    (engine : StrategyEngine) (stocks : List StockData)
    (historical_data : String → Option HistoricalData) :
    (∀ setup ∈ generateSetups stdSort stdSortSetups engine stocks historical_data,
        setup.overall_confidence ≥ engine.global_confidence_threshold_ ∧
          setup.risk_reward_ratio ≥ engine.min_risk_reward_ratio_) ∧
      (∀ stock ∈ stocks, ∀ historical, historical_data stock.symbol = some historical →
        analyzeStock stdSort engine stock historical ≠ [] →
        (combineSignalsToSetup stock.symbol
            (analyzeStock stdSort engine stock historical)).overall_confidence ≥
          engine.global_confidence_threshold_ →
        (combineSignalsToSetup stock.symbol
            (analyzeStock stdSort engine stock historical)).risk_reward_ratio ≥
          engine.min_risk_reward_ratio_ →
        combineSignalsToSetup stock.symbol (analyzeStock stdSort engine stock historical) ∈
          generateSetups stdSort stdSortSetups engine stocks historical_data) := by
  have hperm : ∀ l, (stdSortSetups l).Perm l := fun l => (hsetups l).1
  constructor
  · intro setup hmem
    rcases (mem_generateSetups stdSort stdSortSetups hperm engine stocks historical_data
      setup).mp hmem with ⟨stock, _, historical, _, _, hq, rfl⟩
    unfold isHighQualitySetup at hq
    exact of_decide_eq_true hq
  · intro stock hmem historical hh hne hconf hrr
    apply (mem_generateSetups stdSort stdSortSetups hperm engine stocks historical_data _).mpr
    refine ⟨stock, hmem, historical, hh, hne, ?_, rfl⟩
    unfold isHighQualitySetup
    exact decide_eq_true ⟨hconf, hrr⟩

/-- Witness for C15: the default engine on the batch `orbStockY`, `orbStock`;
the setup of `orbStock` (confidence 0.8, risk:reward 1.5) is in the output. -/
theorem generateSetups_high_quality_witness :
    combineSignalsToSetup orbStock.symbol
        (analyzeStock confidenceSort StrategyEngine.new orbStock orbHistory) ∈
      generateSetups confidenceSort setupConfidenceSort StrategyEngine.new
        [orbStockY, orbStock] batchHistory :=
  (generateSetups_high_quality confidenceSort setupConfidenceSort
    setupConfidenceSort_isStdSort StrategyEngine.new [orbStockY, orbStock] batchHistory).2
    orbStock (by simp) orbHistory (by simp [batchHistory, orbStock, StockData.new])
    (by rw [(orbBatch_analyzeStock confidenceSort).1]; simp)
    (by
      show (combineSignalsToSetup "X" _).overall_confidence ≥ (0.6 : ℚ)
      rw [(orbBatch_setups confidenceSort).1]; norm_num)
    (by
      show (combineSignalsToSetup "X" _).risk_reward_ratio ≥ (1.5 : ℚ)
      rw [(orbBatch_setups confidenceSort).2.1])

theorem orbBatch_generateSetups :
    (generateSetups confidenceSort setupConfidenceSort StrategyEngine.new
        [orbStockY, orbStock] batchHistory).map
        (fun setup => (setup.symbol, setup.overall_confidence)) =
      [("X", 0.8), ("Y", 0.6)] := by
  have hX : batchHistory "X" = some orbHistory := by simp [batchHistory]
  have hY : batchHistory "Y" = some { orbHistory with symbol := "Y" } := by
    simp [batchHistory]
  have hoX := (orbBatch_setups confidenceSort).1
  have hrX := (orbBatch_setups confidenceSort).2.1
  have hoY := (orbBatch_setups confidenceSort).2.2.1
  have hrY := (orbBatch_setups confidenceSort).2.2.2
  have haX := (orbBatch_analyzeStock confidenceSort).1
  have haY := (orbBatch_analyzeStock confidenceSort).2
  have hqX : isHighQualitySetup StrategyEngine.new
      (combineSignalsToSetup "X"
        (analyzeStock confidenceSort StrategyEngine.new orbStock orbHistory)) = true := by
    unfold isHighQualitySetup
    rw [hoX, hrX]
    norm_num [StrategyEngine.new, initializeDefaultStrategies, addStrategy]
  have hqY : isHighQualitySetup StrategyEngine.new
      (combineSignalsToSetup "Y"
        (analyzeStock confidenceSort StrategyEngine.new orbStockY
          { orbHistory with symbol := "Y" })) = true := by
    unfold isHighQualitySetup
    rw [hoY, hrY]
    norm_num [StrategyEngine.new, initializeDefaultStrategies, addStrategy]
  have hsX : orbStock.symbol = "X" := rfl
  have hsY : orbStockY.symbol = "Y" := rfl
  rw [haX] at hqX hoX
  rw [haY] at hqY hoY
  have hlist : generateSetups confidenceSort setupConfidenceSort StrategyEngine.new
      [orbStockY, orbStock] batchHistory =
      setupConfidenceSort
        [combineSignalsToSetup "Y" [updateSignalMetrics (orbSignal "Y" 0.6) orbStockY],
          combineSignalsToSetup "X" [updateSignalMetrics (orbSignal "X" 0.8) orbStock]] := by
    unfold generateSetups
    show setupConfidenceSort (List.foldl _ [] _) = _
    rw [generateSetups_foldl]
    simp only [List.filterMap_cons, List.filterMap_nil, hsX, hsY, hX, hY, haX, haY,
      List.isEmpty_cons, Bool.not_false, if_true, hqX, hqY, List.nil_append]
  rw [hlist]
  simp only [setupConfidenceSort, List.insertionSort, List.orderedInsert]
  rw [if_neg (by rw [hoX, hoY]; norm_num)]
  simp only [List.map_cons, List.map_nil, hoX, hoY]
  rfl

end StrategyEngine

/-! ## Theorems: risk:reward on degenerate levels -/

namespace StrategyEngine

theorem combineSignalsToSetup_risk_reward (symbol : String) (signals : List TradingSignal)
    (i : Nat) (primary : TradingSignal)
    (hprimary : max_element (fun (a b : TradingSignal) => decide (a.confidence < b.confidence))
      signals = some (i, primary)) :
    (combineSignalsToSetup symbol signals).risk_reward_ratio =
      SignalUtils.calculateRiskRewardRatio primary.entry_price primary.stop_loss
        primary.target_1 := by
  cases signals with
  | nil => simp [max_element] at hprimary
  | cons a t =>
    have hp : (maxElementFrom (fun (a b : TradingSignal) =>
        decide (a.confidence < b.confidence)) (0, a) 1 t).2 = primary := by
      have h := Option.some.inj hprimary
      rw [h]
    rw [combineSignalsToSetup_cons, ← hp]

end StrategyEngine

/-! ## Theorems: candlestick shadows -/

namespace TechnicalIndicators

/-- C25. For every candle whose lower shadow `min(open, close) - low` is 0,
`isHammer` returns false, and for every candle whose upper shadow
`high - max(open, close)` is 0, `isShootingStar` returns false; both return
false on every flat candle. -/
theorem zero_shadow_patterns (candle : OHLCV) :
    (min candle.open_ candle.close - candle.low = 0 → isHammer candle = false) ∧
      (candle.high - max candle.open_ candle.close = 0 → isShootingStar candle = false) ∧
      (candle.open_ = candle.high → candle.high = candle.low → candle.low = candle.close →
        isHammer candle = false ∧ isShootingStar candle = false) := by
  have hbody : 0 ≤ |candle.close - candle.open_| := abs_nonneg _
  have hhammer : min candle.open_ candle.close - candle.low = 0 → isHammer candle = false := by
    intro h
    unfold isHammer
    simp only [h]
    apply decide_eq_false
    rintro ⟨hlt, _⟩
    linarith
  have hstar : candle.high - max candle.open_ candle.close = 0 →
      isShootingStar candle = false := by
    intro h
    unfold isShootingStar
    simp only [h]
    apply decide_eq_false
    rintro ⟨hlt, _⟩
    linarith
  refine ⟨hhammer, hstar, ?_⟩
  intro h1 h2 h3
  constructor
  · apply hhammer
    rw [h1, h2, h3, min_self, sub_self]
  · apply hstar
    rw [h1, h2, h3, max_self, sub_self]

/-- Witness for C25: the flat candle at 50. -/
theorem zero_shadow_patterns_witness :
    isHammer (flatBar 50) = false ∧ isShootingStar (flatBar 50) = false :=
  (zero_shadow_patterns (flatBar 50)).2.2 rfl rfl rfl

end TechnicalIndicators

/-! ## Theorems: snapshot validation and enrichment -/

namespace DataValidator

theorem sanitizeStockData_fields (data : StockData) :
    sanitizeStockData data =
      { data with
        current_price := if isValidPrice data.current_price then data.current_price else 0
        previous_close := if isValidPrice data.previous_close then data.previous_close else 0
        volume := if isValidVolume data.volume then data.volume else 0
        symbol := if isValidSymbol data.symbol then data.symbol else "UNKNOWN"
        change_percent := if |data.change_percent| > 100 then 0 else data.change_percent
        rsi_14 := if data.rsi_14 < 0 ∨ data.rsi_14 > 100 then 50 else data.rsi_14 } := by
  unfold sanitizeStockData
  cases h1 : isValidPrice data.current_price <;> cases h2 : isValidPrice data.previous_close <;>
    cases h3 : isValidVolume data.volume <;> cases h4 : isValidSymbol data.symbol <;>
    by_cases h5 : |data.change_percent| > 100 <;>
    by_cases h6 : data.rsi_14 < 0 ∨ data.rsi_14 > 100 <;>
    simp [h1, h2, h3, h4, h5, h6]

theorem sanitizeStockData_example :
    (sanitizeStockData
        { scenarioStock with
          current_price := -5, symbol := "", rsi_14 := 120, change_percent := 250,
          volume := -1 }).current_price = 0 ∧
      (sanitizeStockData
        { scenarioStock with
          current_price := -5, symbol := "", rsi_14 := 120, change_percent := 250,
          volume := -1 }).symbol = "UNKNOWN" ∧
      (sanitizeStockData
        { scenarioStock with
          current_price := -5, symbol := "", rsi_14 := 120, change_percent := 250,
          volume := -1 }).rsi_14 = 50 ∧
      (sanitizeStockData
        { scenarioStock with
          current_price := -5, symbol := "", rsi_14 := 120, change_percent := 250,
          volume := -1 }).previous_close = 110 := by
  rw [sanitizeStockData_fields]
  have hs : isValidSymbol "" = false := by decide
  norm_num [isValidPrice, hs, scenarioStock, StockData.new]

end DataValidator

/-! ## Theorems: breakout flag and strategy registry -/

namespace YahooFinanceAPI

end YahooFinanceAPI

namespace StrategyEngine

/-- C30. After `removeStrategy("RSI")` on the freshly constructed engine,
`getActiveStrategies` still returns "RSI" (its entry of `strategy_enabled_`
is untouched) while `getAvailableStrategies` no longer does; likewise
`enableStrategy` of a name that was never registered makes it active. -/
theorem removed_strategy_stays_active :
    getActiveStrategies (removeStrategy StrategyEngine.new "RSI") =
        ["Breakout", "Opening Range Breakout", "RSI", "VWAP", "Volume Spike"] ∧
      getAvailableStrategies (removeStrategy StrategyEngine.new "RSI") =
        ["Opening Range Breakout", "VWAP", "Breakout", "Volume Spike"] ∧
      "RSI" ∈ getActiveStrategies (removeStrategy StrategyEngine.new "RSI") ∧
      "RSI" ∉ getAvailableStrategies (removeStrategy StrategyEngine.new "RSI") ∧
      "Momentum" ∈ getActiveStrategies (enableStrategy StrategyEngine.new "Momentum") ∧
      "Momentum" ∉ getAvailableStrategies (enableStrategy StrategyEngine.new "Momentum") := by
  have hactive : getActiveStrategies (removeStrategy StrategyEngine.new "RSI") =
      ["Breakout", "Opening Range Breakout", "RSI", "VWAP", "Volume Spike"] := by
    unfold getActiveStrategies removeStrategy
    simp only [new_strategy_enabled_]
    decide
  have havailable : getAvailableStrategies (removeStrategy StrategyEngine.new "RSI") =
      ["Opening Range Breakout", "VWAP", "Breakout", "Volume Spike"] := by
    unfold getAvailableStrategies removeStrategy
    simp only [new_strategies_]
    decide
  have hactive2 : getActiveStrategies (enableStrategy StrategyEngine.new "Momentum") =
      ["Breakout", "Momentum", "Opening Range Breakout", "RSI", "VWAP", "Volume Spike"] := by
    unfold getActiveStrategies enableStrategy
    simp only [new_strategy_enabled_]
    decide
  have havailable2 : getAvailableStrategies (enableStrategy StrategyEngine.new "Momentum") =
      ["Opening Range Breakout", "VWAP", "RSI", "Breakout", "Volume Spike"] := by
    unfold getAvailableStrategies enableStrategy
    simp only [new_strategies_]
    decide
  refine ⟨hactive, havailable, ?_, ?_, ?_, ?_⟩
  · rw [hactive]; decide
  · rw [havailable]; decide
  · rw [hactive2]; decide
  · rw [havailable2]; decide

end StrategyEngine

/-! ## Theorems: the RSI strategy in the default engine -/

namespace StrategyEngine

theorem collectSignals_foldl_forall (P : TradingSignal → Prop) (enabled : List (String × Bool))
    (stock : StockData) (historical : HistoricalData) (strategies : List BaseStrategy)
    (hP : ∀ strategy ∈ strategies, ∀ s ∈ strategy.analyze stock historical,
      (updateSignalMetrics s stock).confidence ≥ strategy.getMinConfidenceThreshold →
        P (updateSignalMetrics s stock)) :
    ∀ acc : List TradingSignal, (∀ s ∈ acc, P s) →
      ∀ s ∈ strategies.foldl
          (fun all_signals strategy =>
            if !(mapGet enabled strategy.strategy_name_) then all_signals
            else if strategy.isApplicable stock then
              all_signals ++
                ((strategy.analyze stock historical).map
                  (fun signal => updateSignalMetrics signal stock)).filter
                  (fun signal => decide (signal.confidence ≥ strategy.getMinConfidenceThreshold))
            else all_signals)
          acc, P s := by
  induction strategies with
  | nil => intro acc hacc s hs; exact hacc s hs
  | cons a t ih =>
    intro acc hacc
    rw [List.foldl_cons]
    apply ih (fun strategy hmem => hP strategy (List.mem_cons_of_mem a hmem))
    split_ifs
    · exact hacc
    · intro s hs
      rcases List.mem_append.mp hs with h | h
      · exact hacc s h
      · rcases List.mem_filter.mp h with ⟨hmap, hconf⟩
        rcases List.mem_map.mp hmap with ⟨s0, hs0, rfl⟩
        exact hP a (List.mem_cons_self a t) s0 hs0 (of_decide_eq_true hconf)
    · exact hacc

theorem analyzeStock_subset (stdSort : List TradingSignal → List TradingSignal)
    (hperm : ∀ l, (stdSort l).Perm l) (engine : StrategyEngine) (stock : StockData)
    (historical : HistoricalData) :
    ∀ s ∈ analyzeStock stdSort engine stock historical,
      s ∈ collectSignals engine stock historical := by
  intro s hs
  unfold analyzeStock at hs
  dsimp only at hs
  split_ifs at hs
  · exact (hperm _).mem_iff.mp (List.mem_of_mem_take hs)
  · exact hs

theorem orb_signal_strategy (stock : StockData) (historical : HistoricalData) :
    ∀ s ∈ ORBStrategy.analyze stock historical, s.strategy = StrategyType.ORB := by
  intro s hs
  unfold ORBStrategy.analyze at hs
  by_cases hv : (!(ORBStrategy.calculateORBLevels historical).is_valid) = true
  · rw [if_pos hv] at hs; exact absurd hs (List.not_mem_nil s)
  · rw [if_neg hv] at hs
    dsimp only at hs
    split_ifs at hs
    · rw [List.mem_singleton.mp hs]
    · rw [List.mem_singleton.mp hs]
    · exact absurd hs (List.not_mem_nil s)

theorem vwap_signal_strategy (stock : StockData) (historical : HistoricalData) :
    ∀ s ∈ VWAPStrategy.analyze stock historical, s.strategy = StrategyType.VWAP := by
  intro s hs
  unfold VWAPStrategy.analyze at hs
  dsimp only at hs
  split_ifs at hs
  · exact absurd hs (List.not_mem_nil s)
  · rw [List.mem_singleton.mp hs]
  · rw [List.mem_singleton.mp hs]
  · exact absurd hs (List.not_mem_nil s)

theorem rsi_signal_fields (stock : StockData) (historical : HistoricalData) :
    ∀ s ∈ RSIStrategy.analyze stock historical,
      s.strategy = StrategyType.RSI ∧ s.confidence = 0.6 ∧ s.entry_price = 0 ∧
        s.stop_loss = 0 ∧ s.target_1 = 0 := by
  intro s hs
  unfold RSIStrategy.analyze at hs
  split_ifs at hs
  · rw [List.mem_singleton.mp hs]; exact ⟨rfl, rfl, rfl, rfl, rfl⟩
  · rw [List.mem_singleton.mp hs]; exact ⟨rfl, rfl, rfl, rfl, rfl⟩
  · exact absurd hs (List.not_mem_nil s)

theorem breakout_signal_fields (stock : StockData) (historical : HistoricalData) :
    ∀ s ∈ BreakoutStrategy.analyze stock historical,
      s.strategy = StrategyType.BREAKOUT ∧ s.entry_price = 0 ∧ s.stop_loss = 0 ∧
        s.target_1 = 0 := by
  intro s hs
  unfold BreakoutStrategy.analyze at hs
  split_ifs at hs
  · rw [List.mem_singleton.mp hs]; exact ⟨rfl, rfl, rfl, rfl⟩
  · exact absurd hs (List.not_mem_nil s)

theorem volume_signal_fields (stock : StockData) (historical : HistoricalData) :
    ∀ s ∈ VolumeStrategy.analyze stock historical,
      s.strategy = StrategyType.VOLUME_SPIKE ∧ s.entry_price = 0 ∧ s.stop_loss = 0 ∧
        s.target_1 = 0 := by
  intro s hs
  unfold VolumeStrategy.analyze at hs
  by_cases hcond : (VolumeStrategy.isVolumeSpike stock 1.5 &&
      VolumeStrategy.isPriceVolumeAlignment stock) = true
  · rw [if_pos hcond] at hs
    rw [List.mem_singleton.mp hs]; exact ⟨rfl, rfl, rfl, rfl⟩
  · rw [if_neg hcond] at hs
    exact absurd hs (List.not_mem_nil s)

/-- C27. With the default strategy set, for every snapshot, every series,
every enabled map and every value of `max_signals_per_stock`, the list
returned by `analyzeStock` contains no signal whose strategy is RSI: every
signal `RSIStrategy` emits has confidence 0.6, below the strategy's own
minimum confidence threshold 0.65. -/
theorem analyzeStock_no_rsi (stdSort : List TradingSignal → List TradingSignal)
    (hsort : IsStdSort (fun a b : TradingSignal => decide (a.confidence > b.confidence))
      stdSort)
    (engine : StrategyEngine)
    (hdefault : engine.strategies_ = StrategyEngine.new.strategies_) (stock : StockData)
    (historical : HistoricalData) :
    (∀ s ∈ RSIStrategy.analyze stock historical,
        s.confidence = 0.6 ∧ s.confidence < RSIStrategy.strategy.getMinConfidenceThreshold) ∧
      ∀ s ∈ analyzeStock stdSort engine stock historical, s.strategy ≠ StrategyType.RSI := by
  have hthreshold : RSIStrategy.strategy.getMinConfidenceThreshold = 0.65 := rfl
  constructor
  · intro s hs
    have h := (rsi_signal_fields stock historical s hs).2.1
    rw [h, hthreshold]
    norm_num
  · intro s hs
    have hmem := analyzeStock_subset stdSort (fun l => (hsort l).1) engine stock historical s hs
    unfold collectSignals at hmem
    rw [hdefault, new_strategies_] at hmem
    refine collectSignals_foldl_forall (fun s => s.strategy ≠ StrategyType.RSI)
      engine.strategy_enabled_ stock historical _ ?_ [] (fun s h => absurd h (List.not_mem_nil s))
      s hmem
    intro strategy hstrategy s0 hs0 hconf
    simp only [List.mem_cons, List.mem_singleton, List.not_mem_nil, or_false] at hstrategy
    rcases hstrategy with rfl | rfl | rfl | rfl | rfl
    · have h := orb_signal_strategy stock historical s0 hs0
      rw [updateSignalMetrics_strategy, h]; decide
    · have h := vwap_signal_strategy stock historical s0 hs0
      rw [updateSignalMetrics_strategy, h]; decide
    · exfalso
      have h := (rsi_signal_fields stock historical s0 hs0).2.1
      rw [updateSignalMetrics_confidence, h, hthreshold] at hconf
      norm_num at hconf
    · have h := (breakout_signal_fields stock historical s0 hs0).1
      rw [updateSignalMetrics_strategy, h]; decide
    · have h := (volume_signal_fields stock historical s0 hs0).1
      rw [updateSignalMetrics_strategy, h]; decide

/-- Witness for C27: the default engine on `scenarioStock`, where the RSI
strategy fires (RSI 25) and its signal is not in the result. -/
theorem analyzeStock_no_rsi_witness :
    (∀ s ∈ RSIStrategy.analyze scenarioStock scenarioHistory,
        s.confidence = 0.6 ∧ s.confidence < RSIStrategy.strategy.getMinConfidenceThreshold) ∧
      ∀ s ∈ analyzeStock confidenceSort StrategyEngine.new scenarioStock scenarioHistory,
        s.strategy ≠ StrategyType.RSI :=
  analyzeStock_no_rsi confidenceSort confidenceSort_isStdSort StrategyEngine.new rfl
    scenarioStock scenarioHistory

end StrategyEngine

/-! ## Theorems: strategies without price levels -/

namespace StrategyEngine

/-- C28. Every signal emitted by `RSIStrategy`, `BreakoutStrategy` or
`VolumeStrategy` has `entry_price = stop_loss = target_1 = 0`; and for every
signal list whose primary (first maximum-confidence) signal has these three
zeros, `combineSignalsToSetup` yields `risk_reward_ratio = 0`, the setup
fails `isHighQualitySetup` for every minimum risk:reward threshold `> 0`, and
`generateSetups` with such a threshold returns no setup of ratio 0. -/
theorem levelless_signals_never_high_quality :
    (∀ (stock : StockData) (historical : HistoricalData),
        ∀ s ∈ RSIStrategy.analyze stock historical ++
            BreakoutStrategy.analyze stock historical ++
            VolumeStrategy.analyze stock historical,
          s.entry_price = 0 ∧ s.stop_loss = 0 ∧ s.target_1 = 0) ∧
      (∀ (symbol : String) (signals : List TradingSignal) (i : Nat) (primary : TradingSignal),
        max_element (fun (a b : TradingSignal) => decide (a.confidence < b.confidence))
            signals = some (i, primary) →
          primary.entry_price = 0 → primary.stop_loss = 0 → primary.target_1 = 0 →
          (combineSignalsToSetup symbol signals).risk_reward_ratio = 0 ∧
            ∀ engine : StrategyEngine, engine.min_risk_reward_ratio_ > 0 →
              isHighQualitySetup engine (combineSignalsToSetup symbol signals) = false) ∧
      (∀ (stdSort : List TradingSignal → List TradingSignal)
        (stdSortSetups : List TradingSetup → List TradingSetup),
        IsStdSort
            (fun a b : TradingSetup => decide (a.overall_confidence > b.overall_confidence))
            stdSortSetups →
          ∀ (engine : StrategyEngine) (stocks : List StockData)
            (historical_data : String → Option HistoricalData),
            engine.min_risk_reward_ratio_ > 0 →
              ∀ setup ∈ generateSetups stdSort stdSortSetups engine stocks historical_data,
                setup.risk_reward_ratio ≠ 0) := by
  refine ⟨?_, ?_, ?_⟩
  · intro stock historical s hs
    rcases List.mem_append.mp hs with h | h
    · rcases List.mem_append.mp h with h' | h'
      · exact (rsi_signal_fields stock historical s h').2.2
      · exact (breakout_signal_fields stock historical s h').2
    · exact (volume_signal_fields stock historical s h).2
  · intro symbol signals i primary hprimary he hs ht
    have hrr : (combineSignalsToSetup symbol signals).risk_reward_ratio = 0 := by
      rw [combineSignalsToSetup_risk_reward symbol signals i primary hprimary, he, hs, ht]
      simp [SignalUtils.calculateRiskRewardRatio]
    refine ⟨hrr, ?_⟩
    intro engine hmin
    unfold isHighQualitySetup
    apply decide_eq_false
    rintro ⟨_, hge⟩
    rw [hrr] at hge
    exact absurd hmin (not_lt.mpr hge)
  · intro stdSort stdSortSetups hsetups engine stocks historical_data hmin setup hmem hzero
    rcases (mem_generateSetups stdSort stdSortSetups (fun l => (hsetups l).1) engine stocks
      historical_data setup).mp hmem with ⟨stock, _, historical, _, _, hq, rfl⟩
    unfold isHighQualitySetup at hq
    have hge := (of_decide_eq_true hq).2
    rw [hzero] at hge
    exact absurd hmin (not_lt.mpr hge)

/-- Witness for C28: a Breakout signal (confidence 0.7, no price levels) ahead
of an RSI signal gives a setup of ratio 0 that the default engine rejects. -/
theorem levelless_signals_never_high_quality_witness :
    (combineSignalsToSetup "X"
        [sampleSignal SignalType.BUY 0 0 0 0 0.7,
          sampleSignal SignalType.BUY 0 0 0 0 0.6]).risk_reward_ratio = 0 ∧
      ∀ engine : StrategyEngine, engine.min_risk_reward_ratio_ > 0 →
        isHighQualitySetup engine
          (combineSignalsToSetup "X"
            [sampleSignal SignalType.BUY 0 0 0 0 0.7,
              sampleSignal SignalType.BUY 0 0 0 0 0.6]) = false :=
  levelless_signals_never_high_quality.2.1 "X"
    [sampleSignal SignalType.BUY 0 0 0 0 0.7, sampleSignal SignalType.BUY 0 0 0 0 0.6] 0
    (sampleSignal SignalType.BUY 0 0 0 0 0.7)
    (by norm_num [max_element, maxElementFrom, sampleSignal, TradingSignal.new])
    rfl rfl rfl

end StrategyEngine

/-! ## Theorems: moving averages as convex combinations -/

namespace TechnicalIndicators

theorem moving_averages_example :
    calculateSMA [flatBar 3, flatBar 1, flatBar 2, flatBar 5, flatBar 4] 3 = 11 / 3 ∧
      calculateWMA [flatBar 3, flatBar 1, flatBar 2, flatBar 5, flatBar 4] 3 = 4 ∧
      calculateEMA [flatBar 3, flatBar 1, flatBar 2, flatBar 5, flatBar 4] 3 = 25 / 6 := by
  refine ⟨?_, ?_, ?_⟩ <;>
    norm_num [calculateSMA, calculateWMA, calculateEMA, flatBar, List.enum, List.enumFrom]

end TechnicalIndicators

/-! ## Theorems: divisors -/

theorem safeDiv_of_ne (a b : ℚ) (hb : b ≠ 0) : safeDiv a b = some (a / b) := by
  unfold safeDiv
  rw [if_neg hb]

namespace Checked

theorem wilderSteps_eq (periods : Nat) (hp : (periods : ℚ) ≠ 0) (xs : List ℚ) :
    ∀ avg : ℚ, wilderSteps periods xs avg =
      some (xs.foldl (fun avg x => ((avg * ((periods : ℚ) - 1)) + x) / periods) avg) := by
  induction xs with
  | nil => intro avg; rfl
  | cons x rest ih =>
    intro avg
    rw [wilderSteps, safeDiv_of_ne _ _ hp, Option.some_bind, ih]
    rfl

theorem cumulativePV_eq (data : List OHLCV) : ∀ s : ℚ,
    cumulativePV data s =
      some (data.foldl
        (fun s candle =>
          s + TechnicalIndicators.calculateTypicalPrice candle * (candle.volume : ℚ)) s) := by
  induction data with
  | nil => intro s; rfl
  | cons c rest ih =>
    intro s
    rw [cumulativePV, calculateTypicalPrice, safeDiv_of_ne _ _ (by norm_num),
      Option.some_bind, ih]
    rfl

theorem calculateSMA_eq (data : List OHLCV) (W : Nat) (hW : 1 ≤ W) :
    calculateSMA data W = some (TechnicalIndicators.calculateSMA data W) := by
  have hp : (W : ℚ) ≠ 0 := by
    have : (0 : ℚ) < (W : ℚ) := by exact_mod_cast hW
    exact ne_of_gt this
  unfold calculateSMA TechnicalIndicators.calculateSMA
  split_ifs
  · rfl
  · exact safeDiv_of_ne _ _ hp

theorem wmaFold_weight (W : Nat) (cs : List OHLCV) : ∀ (n : Nat) (acc : ℚ × ℚ),
    acc.2 ≤ ((cs.enumFrom n).foldl
        (fun (acc : ℚ × ℚ) (ic : Nat × OHLCV) =>
          (acc.1 + ic.2.close * ((W - ic.1 : Nat) : ℚ), acc.2 + ((W - ic.1 : Nat) : ℚ)))
        acc).2 := by
  induction cs with
  | nil => intro n acc; exact le_rfl
  | cons a t ih =>
    intro n acc
    simp only [List.enumFrom_cons, List.foldl_cons]
    refine le_trans ?_ (ih (n + 1) _)
    have hw : (0 : ℚ) ≤ ((W - n : Nat) : ℚ) := Nat.cast_nonneg _
    show acc.2 ≤ acc.2 + ((W - n : Nat) : ℚ)
    linarith

theorem calculateWMA_divisor_pos (data : List OHLCV) (W : Nat) (hW : 1 ≤ W)
    (hlen : W ≤ data.length) :
    0 < (((data.reverse.take W).enum).foldl
      (fun (acc : ℚ × ℚ) (ic : Nat × OHLCV) =>
        (acc.1 + ic.2.close * ((W - ic.1 : Nat) : ℚ), acc.2 + ((W - ic.1 : Nat) : ℚ)))
      (0, 0)).2 := by
  have hWpos : (0 : ℚ) < (W : ℚ) := by exact_mod_cast hW
  cases hlist : data.reverse.take W with
  | nil =>
    have hl : (data.reverse.take W).length = W := by
      rw [List.length_take, List.length_reverse]; exact min_eq_left hlen
    rw [hlist] at hl
    simp at hl
    omega
  | cons x rest =>
    simp only [List.enum, List.enumFrom_cons, List.foldl_cons, zero_add]
    refine lt_of_lt_of_le ?_ (wmaFold_weight W rest 1 _)
    simpa using hWpos

theorem calculateEMA_eq (data : List OHLCV) (W : Nat) (hW : 1 ≤ W) :
    calculateEMA data W = some (TechnicalIndicators.calculateEMA data W) := by
  have hden : (W : ℚ) + 1 ≠ 0 := by
    have : (0 : ℚ) ≤ (W : ℚ) := Nat.cast_nonneg W
    intro h; linarith
  unfold calculateEMA TechnicalIndicators.calculateEMA
  split_ifs
  · rfl
  · rw [safeDiv_of_ne _ _ hden, Option.some_bind, calculateSMA_eq data W hW, Option.some_bind]

theorem calculateWMA_eq (data : List OHLCV) (W : Nat) (hW : 1 ≤ W) :
    calculateWMA data W = some (TechnicalIndicators.calculateWMA data W) := by
  unfold calculateWMA TechnicalIndicators.calculateWMA
  by_cases hlen : data.length < W
  · rw [if_pos hlen, if_pos hlen]
  · rw [if_neg hlen, if_neg hlen]
    exact safeDiv_of_ne _ _ (ne_of_gt (calculateWMA_divisor_pos data W hW (not_lt.mp hlen)))

theorem seedAverage_eq (xs : List ℚ) (W : Nat) (hW : 1 ≤ W) :
    seedAverage xs W = some (TechnicalIndicators.seedAverage xs W) := by
  have hp : (W : ℚ) ≠ 0 := by
    have : (0 : ℚ) < (W : ℚ) := by exact_mod_cast hW
    exact ne_of_gt this
  exact safeDiv_of_ne _ _ hp

theorem wilderSmooth_eq (xs : List ℚ) (W : Nat) (hW : 1 ≤ W) (seed : ℚ) :
    wilderSmooth xs W seed = some (TechnicalIndicators.wilderSmooth xs W seed) := by
  have hp : (W : ℚ) ≠ 0 := by
    have : (0 : ℚ) < (W : ℚ) := by exact_mod_cast hW
    exact ne_of_gt this
  exact wilderSteps_eq W hp _ seed

theorem calculateRSI_eq (data : List OHLCV) (W : Nat) (hW : 1 ≤ W) :
    calculateRSI data W = some (TechnicalIndicators.calculateRSI data W) := by
  unfold calculateRSI TechnicalIndicators.calculateRSI
  by_cases h1 : data.length < W + 1
  · rw [if_pos h1, if_pos h1]
  · rw [if_neg h1, if_neg h1]
    by_cases h2 : (TechnicalIndicators.gains data).length < W
    · rw [if_pos h2, if_pos h2]
    · rw [if_neg h2, if_neg h2]
      rw [seedAverage_eq _ W hW, Option.some_bind, seedAverage_eq _ W hW, Option.some_bind,
        wilderSmooth_eq _ W hW, Option.some_bind, wilderSmooth_eq _ W hW, Option.some_bind]
      by_cases h3 : TechnicalIndicators.wilderSmooth (TechnicalIndicators.losses data) W
          (TechnicalIndicators.seedAverage (TechnicalIndicators.losses data) W) = 0
      · simp only [if_pos h3]
      · simp only [if_neg h3]
        have hg : 0 ≤ TechnicalIndicators.wilderSmooth (TechnicalIndicators.gains data) W
            (TechnicalIndicators.seedAverage (TechnicalIndicators.gains data) W) :=
          TechnicalIndicators.wilderSmooth_nonneg W hW _ _
            (TechnicalIndicators.seedAverage_nonneg _ _ (TechnicalIndicators.gains_nonneg data))
            (TechnicalIndicators.gains_nonneg data)
        have hl : 0 ≤ TechnicalIndicators.wilderSmooth (TechnicalIndicators.losses data) W
            (TechnicalIndicators.seedAverage (TechnicalIndicators.losses data) W) :=
          TechnicalIndicators.wilderSmooth_nonneg W hW _ _
            (TechnicalIndicators.seedAverage_nonneg _ _ (TechnicalIndicators.losses_nonneg data))
            (TechnicalIndicators.losses_nonneg data)
        have hrs := div_nonneg hg hl
        rw [safeDiv_of_ne _ _ h3, Option.some_bind,
          safeDiv_of_ne _ _ (by intro h; linarith), Option.some_bind]

theorem calculateATR_eq (data : List OHLCV) (W : Nat) (hW : 1 ≤ W) :
    calculateATR data W = some (TechnicalIndicators.calculateATR data W) := by
  unfold calculateATR TechnicalIndicators.calculateATR
  split_ifs
  · rfl
  · rfl
  · rw [seedAverage_eq _ W hW, Option.some_bind, wilderSmooth_eq _ W hW]

theorem calculateBollingerBands_eq (sqrt : ℚ → ℚ) (data : List OHLCV) (W : Nat) (hW : 1 ≤ W)
    (multiplier : ℚ) :
    calculateBollingerBands sqrt data W multiplier =
      some (TechnicalIndicators.calculateBollingerBands sqrt data W multiplier) := by
  have hp : (W : ℚ) ≠ 0 := by
    have : (0 : ℚ) < (W : ℚ) := by exact_mod_cast hW
    exact ne_of_gt this
  unfold calculateBollingerBands TechnicalIndicators.calculateBollingerBands
  split_ifs
  · rfl
  · rw [calculateSMA_eq data W hW, Option.some_bind, safeDiv_of_ne _ _ hp, Option.some_bind]

theorem calculateVWAP_eq (data : List OHLCV) :
    calculateVWAP data = some (TechnicalIndicators.calculateVWAP data) := by
  unfold calculateVWAP TechnicalIndicators.calculateVWAP
  by_cases hempty : data.isEmpty = true
  · rw [if_pos hempty, if_pos hempty]
  · rw [if_neg hempty, if_neg hempty, cumulativePV_eq, Option.some_bind]
    by_cases hvol : data.foldl (fun s candle => s + candle.volume) (0 : Int) > 0
    · simp only [if_pos hvol]
      apply safeDiv_of_ne
      have : (0 : ℚ) < ((data.foldl (fun s candle => s + candle.volume) (0 : Int) : Int) : ℚ) := by
        exact_mod_cast hvol
      exact ne_of_gt this
    · simp only [if_neg hvol]

theorem isDoji_eq (candle : OHLCV) (threshold : ℚ) :
    isDoji candle threshold = some (TechnicalIndicators.isDoji candle threshold) := by
  unfold isDoji TechnicalIndicators.isDoji
  by_cases h : candle.high = candle.low
  · rw [if_pos h, if_pos h]
  · rw [if_neg h, if_neg h, safeDiv_of_ne _ _ (sub_ne_zero.mpr h), Option.some_bind]

/-- C23. For every window `W ≥ 1` and every candle series, degenerate candles
included, no division in `calculateSMA`, `calculateEMA`, `calculateWMA`,
`calculateRSI`, `calculateATR`, `calculateBollingerBands`, `calculateVWAP` or
`isDoji` has a zero divisor: the copies with checked division always have a
value, the one of the plain function; and `isDoji` answers false before
dividing when `high = low`. -/
theorem no_zero_divisor (data : List OHLCV) (W : Nat) (hW : 1 ≤ W) :
    calculateSMA data W = some (TechnicalIndicators.calculateSMA data W) ∧
      calculateEMA data W = some (TechnicalIndicators.calculateEMA data W) ∧
      calculateWMA data W = some (TechnicalIndicators.calculateWMA data W) ∧
      calculateRSI data W = some (TechnicalIndicators.calculateRSI data W) ∧
      calculateATR data W = some (TechnicalIndicators.calculateATR data W) ∧
      (∀ (sqrt : ℚ → ℚ) (multiplier : ℚ),
        calculateBollingerBands sqrt data W multiplier =
          some (TechnicalIndicators.calculateBollingerBands sqrt data W multiplier)) ∧
      calculateVWAP data = some (TechnicalIndicators.calculateVWAP data) ∧
      (∀ (candle : OHLCV) (threshold : ℚ),
        isDoji candle threshold = some (TechnicalIndicators.isDoji candle threshold) ∧
          (candle.high = candle.low → isDoji candle threshold = some false)) :=
  ⟨calculateSMA_eq data W hW, calculateEMA_eq data W hW, calculateWMA_eq data W hW,
    calculateRSI_eq data W hW, calculateATR_eq data W hW,
    fun sqrt multiplier => calculateBollingerBands_eq sqrt data W hW multiplier,
    calculateVWAP_eq data,
    fun candle threshold =>
      ⟨isDoji_eq candle threshold, fun h => by unfold isDoji; rw [if_pos h]⟩⟩

/-- Witness for C23: three flat candles with zero volume and the window 2. -/
theorem no_zero_divisor_witness :
    calculateSMA [flatBar 50, flatBar 50, flatBar 50] 2 =
        some (TechnicalIndicators.calculateSMA [flatBar 50, flatBar 50, flatBar 50] 2) ∧
      calculateEMA [flatBar 50, flatBar 50, flatBar 50] 2 =
        some (TechnicalIndicators.calculateEMA [flatBar 50, flatBar 50, flatBar 50] 2) ∧
      calculateWMA [flatBar 50, flatBar 50, flatBar 50] 2 =
        some (TechnicalIndicators.calculateWMA [flatBar 50, flatBar 50, flatBar 50] 2) ∧
      calculateRSI [flatBar 50, flatBar 50, flatBar 50] 2 =
        some (TechnicalIndicators.calculateRSI [flatBar 50, flatBar 50, flatBar 50] 2) ∧
      calculateATR [flatBar 50, flatBar 50, flatBar 50] 2 =
        some (TechnicalIndicators.calculateATR [flatBar 50, flatBar 50, flatBar 50] 2) ∧
      (∀ (sqrt : ℚ → ℚ) (multiplier : ℚ),
        calculateBollingerBands sqrt [flatBar 50, flatBar 50, flatBar 50] 2 multiplier =
          some (TechnicalIndicators.calculateBollingerBands sqrt
            [flatBar 50, flatBar 50, flatBar 50] 2 multiplier)) ∧
      calculateVWAP [flatBar 50, flatBar 50, flatBar 50] =
        some (TechnicalIndicators.calculateVWAP [flatBar 50, flatBar 50, flatBar 50]) ∧
      (∀ (candle : OHLCV) (threshold : ℚ),
        isDoji candle threshold = some (TechnicalIndicators.isDoji candle threshold) ∧
          (candle.high = candle.low → isDoji candle threshold = some false)) :=
  no_zero_divisor [flatBar 50, flatBar 50, flatBar 50] 2 (by decide)

theorem safeDiv_zero (a : ℚ) : safeDiv a 0 = none := by
  unfold safeDiv
  rw [if_pos rfl]

theorem calculateSMA_window_zero : calculateSMA [flatBar 50] 0 = none := by
  unfold calculateSMA
  simp [safeDiv_zero]

end Checked

/-! ## Theorems: repeated runs -/

theorem mapGet_mapSet (m : List (String × Bool)) (k : String) (v : Bool) (k' : String) :
    mapGet (mapSet m k v) k' = if k' = k then v else mapGet m k' := by
  induction m with
  | nil => simp [mapSet, mapGet]
  | cons head rest ih =>
    obtain ⟨k0, v0⟩ := head
    simp only [mapSet]
    by_cases h1 : k = k0
    · subst h1
      simp only [if_pos rfl, mapGet]
      by_cases h3 : k' = k
      · simp only [if_pos h3]
      · simp only [if_neg h3]
    · simp only [if_neg h1]
      by_cases h2 : k.data < k0.data
      · simp only [if_pos h2, mapGet]
      · simp only [if_neg h2, mapGet, ih]
        by_cases h3 : k' = k0
        · have h4 : k' ≠ k := fun h => h1 (h ▸ h3)
          simp only [if_pos h3, if_neg h4]
        · simp only [if_neg h3]

theorem mapGet_mapIndex (m : List (String × Bool)) (k k' : String) :
    mapGet (mapIndex m k).2 k' = mapGet m k' := by
  unfold mapIndex
  simp only [mapGet_mapSet]
  by_cases h : k' = k
  · subst h; simp
  · simp [h]

theorem compareAt_map {α β : Type} (f : α → β) (comp : β → β → Bool) (l : List α) :
    compareAt comp (l.map f) = compareAt (fun a b => comp (f a) (f b)) l := by
  funext i j
  simp only [compareAt, List.getElem?_map]
  cases l[i]? <;> cases l[j]? <;> rfl

theorem std_sort_map {α β : Type} (arrange : Nat → (Nat → Nat → Bool) → List Nat) (f : α → β)
    (comp : β → β → Bool) (l : List α) :
    (std_sort arrange (fun a b => comp (f a) (f b)) l).map f =
      std_sort arrange comp (l.map f) := by
  unfold std_sort
  rw [compareAt_map, List.length_map, List.map_filterMap]
  simp only [List.getElem?_map]

namespace Clocked

theorem orb_analyze_stamps (clock : Nat → Nat) (reads : Nat) (stock : StockData)
    (historical : HistoricalData) :
    ORBStrategy.analyze clock reads stock historical =
      ((TradingApp.ORBStrategy.analyze stock historical).map
          (fun s => { signal := s, timestamp := clock reads }),
        if (TradingApp.ORBStrategy.calculateORBLevels historical).is_valid then reads + 1
        else reads) := by
  unfold ORBStrategy.analyze TradingApp.ORBStrategy.analyze
  dsimp only
  cases hv : (TradingApp.ORBStrategy.calculateORBLevels historical).is_valid
  · simp
  · simp only [Bool.not_true, Bool.false_eq_true, if_false, if_true]
    split_ifs <;> rfl

theorem vwap_analyze_stamps (clock : Nat → Nat) (reads : Nat) (stock : StockData)
    (historical : HistoricalData) :
    VWAPStrategy.analyze clock reads stock historical =
      ((TradingApp.VWAPStrategy.analyze stock historical).map
          (fun s => { signal := s, timestamp := clock reads }),
        if stock.vwap ≤ 0 then reads else reads + 1) := by
  unfold VWAPStrategy.analyze TradingApp.VWAPStrategy.analyze
  dsimp only
  split_ifs <;> rfl

theorem rsi_analyze_stamps (clock : Nat → Nat) (reads : Nat) (stock : StockData)
    (historical : HistoricalData) :
    RSIStrategy.analyze clock reads stock historical =
      ((TradingApp.RSIStrategy.analyze stock historical).map
          (fun s => { signal := s, timestamp := clock reads }),
        reads + 1) := by
  unfold RSIStrategy.analyze TradingApp.RSIStrategy.analyze
  dsimp only
  split_ifs <;> rfl

theorem breakout_analyze_stamps (clock : Nat → Nat) (reads : Nat) (stock : StockData)
    (historical : HistoricalData) :
    BreakoutStrategy.analyze clock reads stock historical =
      ((TradingApp.BreakoutStrategy.analyze stock historical).map
          (fun s => { signal := s, timestamp := clock reads }),
        if TradingApp.BreakoutStrategy.detectBreakout stock historical then reads + 1
        else reads) := by
  unfold BreakoutStrategy.analyze TradingApp.BreakoutStrategy.analyze
  dsimp only
  split_ifs <;> rfl

theorem volume_analyze_stamps (clock : Nat → Nat) (reads : Nat) (stock : StockData)
    (historical : HistoricalData) :
    VolumeStrategy.analyze clock reads stock historical =
      ((TradingApp.VolumeStrategy.analyze stock historical).map
          (fun s => { signal := s, timestamp := clock reads }),
        if (TradingApp.VolumeStrategy.isVolumeSpike stock 1.5 &&
            TradingApp.VolumeStrategy.isPriceVolumeAlignment stock) = true then reads + 1
        else reads) := by
  unfold VolumeStrategy.analyze TradingApp.VolumeStrategy.analyze
  dsimp only
  by_cases hcond : (TradingApp.VolumeStrategy.isVolumeSpike stock 1.5 &&
      TradingApp.VolumeStrategy.isPriceVolumeAlignment stock) = true
  · simp only [if_pos hcond]; rfl
  · simp only [if_neg hcond]; rfl

namespace StrategyEngine

theorem filter_updateSignalMetrics_erase (stock : StockData) (threshold : ℚ)
    (signals : List StampedSignal) :
    (((signals.map (fun signal => updateSignalMetrics signal stock)).filter
        (fun signal => decide (signal.signal.confidence ≥ threshold))).map
        (fun s => s.signal)) =
      ((signals.map (fun s => s.signal)).map
        (fun signal => TradingApp.StrategyEngine.updateSignalMetrics signal stock)).filter
        (fun signal => decide (signal.confidence ≥ threshold)) := by
  induction signals with
  | nil => rfl
  | cons s rest ih =>
    simp only [List.map_cons, List.filter_cons]
    have hs : (updateSignalMetrics s stock).signal =
        TradingApp.StrategyEngine.updateSignalMetrics s.signal stock := rfl
    rw [hs]
    split_ifs
    · rw [List.map_cons, ih, hs]
    · exact ih

theorem collectSignals_foldl_erase (clock : Nat → Nat) (stock : StockData)
    (historical : HistoricalData) (m0 : List (String × Bool)) :
    ∀ (strategies : List BaseStrategy),
      (∀ s ∈ strategies, ∀ reads : Nat,
        (s.analyze clock reads stock historical).1.map (fun x => x.signal) =
          s.erase.analyze stock historical) →
      ∀ (state : List StampedSignal × Nat × List (String × Bool)),
        (∀ k, mapGet state.2.2 k = mapGet m0 k) →
        ((strategies.foldl
            (fun (state : List StampedSignal × Nat × List (String × Bool)) strategy =>
              let enabled := mapIndex state.2.2 strategy.strategy_name_
              if !enabled.1 then (state.1, state.2.1, enabled.2)
              else if strategy.isApplicable stock then
                let signals := strategy.analyze clock state.2.1 stock historical
                (state.1 ++
                    (signals.1.map (fun signal => updateSignalMetrics signal stock)).filter
                      (fun signal =>
                        decide (signal.signal.confidence ≥ strategy.getMinConfidenceThreshold)),
                  signals.2, enabled.2)
              else (state.1, state.2.1, enabled.2))
            state).1.map (fun x => x.signal) =
          (strategies.map BaseStrategy.erase).foldl
            (fun all_signals (strategy : TradingApp.BaseStrategy) =>
              if !(mapGet m0 strategy.strategy_name_) then all_signals
              else if strategy.isApplicable stock then
                all_signals ++
                  ((strategy.analyze stock historical).map
                    (fun signal =>
                      TradingApp.StrategyEngine.updateSignalMetrics signal stock)).filter
                    (fun signal =>
                      decide (signal.confidence ≥ strategy.getMinConfidenceThreshold))
              else all_signals)
            (state.1.map (fun x => x.signal))) ∧
          ∀ k, mapGet (strategies.foldl
            (fun (state : List StampedSignal × Nat × List (String × Bool)) strategy =>
              let enabled := mapIndex state.2.2 strategy.strategy_name_
              if !enabled.1 then (state.1, state.2.1, enabled.2)
              else if strategy.isApplicable stock then
                let signals := strategy.analyze clock state.2.1 stock historical
                (state.1 ++
                    (signals.1.map (fun signal => updateSignalMetrics signal stock)).filter
                      (fun signal =>
                        decide (signal.signal.confidence ≥ strategy.getMinConfidenceThreshold)),
                  signals.2, enabled.2)
              else (state.1, state.2.1, enabled.2))
            state).2.2 k = mapGet m0 k := by
  intro strategies
  induction strategies with
  | nil =>
    intro _ state hstate
    exact ⟨rfl, hstate⟩
  | cons strategy rest ih =>
    intro hfree state hstate
    simp only [List.foldl_cons, List.map_cons]
    have hrest : ∀ s ∈ rest, ∀ reads : Nat,
        (s.analyze clock reads stock historical).1.map (fun x => x.signal) =
          s.erase.analyze stock historical :=
      fun s hs => hfree s (List.mem_cons_of_mem _ hs)
    have hhead := hfree strategy (List.mem_cons_self _ _)
    have hflag : (mapIndex state.2.2 strategy.strategy_name_).1 =
        mapGet m0 strategy.strategy_name_ := hstate _
    have hmap : ∀ k, mapGet (mapIndex state.2.2 strategy.strategy_name_).2 k = mapGet m0 k :=
      fun k => (mapGet_mapIndex _ _ k).trans (hstate k)
    have hname : strategy.erase.strategy_name_ = strategy.strategy_name_ := rfl
    have happ : strategy.erase.isApplicable = strategy.isApplicable := rfl
    have hthr : strategy.erase.getMinConfidenceThreshold = strategy.getMinConfidenceThreshold :=
      rfl
    rw [hname, happ, hthr]
    rw [hflag]
    by_cases hen : mapGet m0 strategy.strategy_name_ = true
    · by_cases hap : strategy.isApplicable stock = true
      · simp only [hen, hap, Bool.not_true, Bool.false_eq_true, if_false, if_true]
        have h := ih hrest
          (state.1 ++
            ((strategy.analyze clock state.2.1 stock historical).1.map
              (fun signal => updateSignalMetrics signal stock)).filter
              (fun signal =>
                decide (signal.signal.confidence ≥ strategy.getMinConfidenceThreshold)),
            (strategy.analyze clock state.2.1 stock historical).2,
            (mapIndex state.2.2 strategy.strategy_name_).2) hmap
        rw [List.map_append, filter_updateSignalMetrics_erase, hhead] at h
        exact h
      · simp only [hen, hap, Bool.not_true, Bool.false_eq_true, if_false]
        exact ih hrest (state.1, state.2.1, (mapIndex state.2.2 strategy.strategy_name_).2) hmap
    · have hen' : mapGet m0 strategy.strategy_name_ = false := by
        cases h : mapGet m0 strategy.strategy_name_
        · rfl
        · exact absurd h hen
      simp only [hen', Bool.not_false, if_true]
      exact ih hrest (state.1, state.2.1, (mapIndex state.2.2 strategy.strategy_name_).2) hmap


theorem analyzeStock_erase (arrange : Nat → (Nat → Nat → Bool) → List Nat) (clock : Nat → Nat)
    (reads : Nat) (engine₀ engine : StrategyEngine) (stock : StockData)
    (historical : HistoricalData)
    (hfree : ∀ s ∈ engine₀.strategies_, ∀ reads : Nat,
      (s.analyze clock reads stock historical).1.map (fun x => x.signal) =
        s.erase.analyze stock historical)
    (hagree : Agree engine₀ engine) :
    (analyzeStock arrange clock reads engine stock historical).1.map (fun x => x.signal) =
        TradingApp.StrategyEngine.analyzeStock
          (std_sort arrange (fun (a b : TradingSignal) => decide (a.confidence > b.confidence)))
          (erase engine₀) stock historical ∧
      Agree engine₀ (analyzeStock arrange clock reads engine stock historical).2.2 := by
  obtain ⟨hs, hm, hg, hr, hx⟩ := hagree
  have hfold := collectSignals_foldl_erase clock stock historical engine₀.strategy_enabled_
    engine₀.strategies_ hfree ([], reads, engine.strategy_enabled_) hm
  have hcollect : (collectSignals clock reads engine stock historical).1.map (fun x => x.signal) =
      TradingApp.StrategyEngine.collectSignals (erase engine₀) stock historical := by
    unfold collectSignals TradingApp.StrategyEngine.collectSignals
    rw [hs]
    exact hfold.1
  have hlookup : ∀ k, mapGet (collectSignals clock reads engine stock historical).2.2 k =
      mapGet engine₀.strategy_enabled_ k := by
    unfold collectSignals
    rw [hs]
    exact hfold.2
  have hlen : (collectSignals clock reads engine stock historical).1.length =
      (TradingApp.StrategyEngine.collectSignals (erase engine₀) stock historical).length := by
    rw [← hcollect, List.length_map]
  have hmax : (erase engine₀).max_signals_per_stock_ = engine.max_signals_per_stock_ := hx.symm
  unfold analyzeStock TradingApp.StrategyEngine.analyzeStock
  dsimp only
  rw [hlen, hmax]
  split_ifs with hc
  · refine ⟨?_, hs, hlookup, hg, hr, hx⟩
    dsimp only
    rw [List.map_take, ← hcollect]
    congr 1
    exact std_sort_map arrange (fun x : StampedSignal => x.signal)
      (fun (a b : TradingSignal) => decide (a.confidence > b.confidence)) _
  · exact ⟨hcollect, hs, hlookup, hg, hr, hx⟩

theorem maxElementFrom_map {α β : Type} (f : α → β) (comp : β → β → Bool) (l : List α) :
    ∀ (best : Nat × α) (i : Nat),
      TradingApp.StrategyEngine.maxElementFrom comp (best.1, f best.2) i (l.map f) =
        ((TradingApp.StrategyEngine.maxElementFrom (fun a b => comp (f a) (f b)) best i l).1,
          f (TradingApp.StrategyEngine.maxElementFrom (fun a b => comp (f a) (f b)) best i
            l).2) := by
  induction l with
  | nil => intro best i; rfl
  | cons x xs ih =>
    intro best i
    simp only [List.map_cons, TradingApp.StrategyEngine.maxElementFrom]
    by_cases h : comp (f best.2) (f x) = true
    · simp only [h, if_true]
      exact ih (i, x) (i + 1)
    · simp only [h, if_false]
      exact ih best (i + 1)

theorem calculateSetupConfidence_erase (signals : List StampedSignal) :
    calculateSetupConfidence signals =
      TradingApp.StrategyEngine.calculateSetupConfidence (signals.map (fun x => x.signal)) := by
  unfold calculateSetupConfidence TradingApp.StrategyEngine.calculateSetupConfidence
  rw [List.foldl_map, List.length_map]
  cases signals <;> rfl

theorem combineSignalsToSetup_erase (clock : Nat → Nat) (reads : Nat) (symbol : String)
    (signals : List StampedSignal) :
    (combineSignalsToSetup clock reads symbol signals).1.setup =
        TradingApp.StrategyEngine.combineSignalsToSetup symbol
          (signals.map (fun x => x.signal)) ∧
      (combineSignalsToSetup clock reads symbol signals).1.created_at = clock reads ∧
      (combineSignalsToSetup clock reads symbol signals).1.supporting_timestamps =
        signals.map (fun x => x.timestamp) ∧
      (combineSignalsToSetup clock reads symbol signals).2 = reads + 1 := by
  cases signals with
  | nil => exact ⟨rfl, rfl, rfl, rfl⟩
  | cons x xs =>
    have hmax := maxElementFrom_map (fun x : StampedSignal => x.signal)
      (fun (a b : TradingSignal) => decide (a.confidence < b.confidence)) xs (0, x) 1
    have hconf := calculateSetupConfidence_erase (x :: xs)
    rw [List.map_cons] at hconf
    refine ⟨?_, ?_, ?_, ?_⟩ <;>
      simp only [combineSignalsToSetup, TradingApp.StrategyEngine.combineSignalsToSetup,
        List.map_cons, TradingApp.StrategyEngine.max_element, List.isEmpty_cons,
        Bool.false_eq_true, if_false, List.length_cons, List.length_map, hmax, hconf] <;>
      rfl


theorem isHighQualitySetup_erase (engine₀ engine : StrategyEngine)
    (hagree : Agree engine₀ engine) (setup : StampedSetup) :
    isHighQualitySetup engine setup =
      TradingApp.StrategyEngine.isHighQualitySetup (erase engine₀) setup.setup := by
  obtain ⟨_, _, hg, hr, _⟩ := hagree
  unfold isHighQualitySetup TradingApp.StrategyEngine.isHighQualitySetup
  rw [hg, hr]
  rfl

theorem generateSetups_foldl_erase (arrange : Nat → (Nat → Nat → Bool) → List Nat)
    (clock : Nat → Nat) (engine₀ : StrategyEngine)
    (historical_data : String → Option HistoricalData)
    (hfree : ∀ s ∈ engine₀.strategies_, ∀ (reads : Nat) (stock : StockData)
      (historical : HistoricalData),
      (s.analyze clock reads stock historical).1.map (fun x => x.signal) =
        s.erase.analyze stock historical) :
    ∀ (stocks : List StockData) (state : List StampedSetup × Nat × StrategyEngine),
      Agree engine₀ state.2.2 →
      (stocks.foldl
          (fun (state : List StampedSetup × Nat × StrategyEngine) stock =>
            match historical_data stock.symbol with
            | none => state
            | some historical =>
              let signals := analyzeStock arrange clock state.2.1 state.2.2 stock historical
              if !signals.1.isEmpty then
                let setup := combineSignalsToSetup clock signals.2.1 stock.symbol signals.1
                if isHighQualitySetup signals.2.2 setup.1 then
                  (state.1 ++ [setup.1], setup.2, signals.2.2)
                else (state.1, setup.2, signals.2.2)
              else (state.1, signals.2.1, signals.2.2))
          state).1.map (fun x => x.setup) =
        stocks.foldl
          (fun setups stock =>
            match historical_data stock.symbol with
            | none => setups
            | some historical =>
              let signals := TradingApp.StrategyEngine.analyzeStock
                (std_sort arrange
                  (fun (a b : TradingSignal) => decide (a.confidence > b.confidence)))
                (erase engine₀) stock historical
              if !signals.isEmpty then
                let setup := TradingApp.StrategyEngine.combineSignalsToSetup stock.symbol signals
                if TradingApp.StrategyEngine.isHighQualitySetup (erase engine₀) setup then
                  setups ++ [setup]
                else setups
              else setups)
          (state.1.map (fun x => x.setup)) ∧
        Agree engine₀ (stocks.foldl
          (fun (state : List StampedSetup × Nat × StrategyEngine) stock =>
            match historical_data stock.symbol with
            | none => state
            | some historical =>
              let signals := analyzeStock arrange clock state.2.1 state.2.2 stock historical
              if !signals.1.isEmpty then
                let setup := combineSignalsToSetup clock signals.2.1 stock.symbol signals.1
                if isHighQualitySetup signals.2.2 setup.1 then
                  (state.1 ++ [setup.1], setup.2, signals.2.2)
                else (state.1, setup.2, signals.2.2)
              else (state.1, signals.2.1, signals.2.2))
          state).2.2 := by
  intro stocks
  induction stocks with
  | nil =>
    intro state hstate
    exact ⟨rfl, hstate⟩
  | cons stock rest ih =>
    intro state hstate
    simp only [List.foldl_cons]
    cases hh : historical_data stock.symbol with
    | none => exact ih state hstate
    | some historical =>
      have herase := analyzeStock_erase arrange clock state.2.1 engine₀ state.2.2 stock
        historical (fun s hs reads => hfree s hs reads stock historical) hstate
      have hempty : (analyzeStock arrange clock state.2.1 state.2.2 stock historical).1.isEmpty =
          (TradingApp.StrategyEngine.analyzeStock
            (std_sort arrange
              (fun (a b : TradingSignal) => decide (a.confidence > b.confidence)))
            (erase engine₀) stock historical).isEmpty := by
        rw [← herase.1]
        cases (analyzeStock arrange clock state.2.1 state.2.2 stock historical).1 <;> rfl
      have hcombine := (combineSignalsToSetup_erase clock
        (analyzeStock arrange clock state.2.1 state.2.2 stock historical).2.1 stock.symbol
        (analyzeStock arrange clock state.2.1 state.2.2 stock historical).1).1
      rw [herase.1] at hcombine
      have hquality := isHighQualitySetup_erase engine₀
        (analyzeStock arrange clock state.2.1 state.2.2 stock historical).2.2 herase.2
        (combineSignalsToSetup clock
          (analyzeStock arrange clock state.2.1 state.2.2 stock historical).2.1 stock.symbol
          (analyzeStock arrange clock state.2.1 state.2.2 stock historical).1).1
      rw [hcombine] at hquality
      dsimp only
      rw [hempty, hquality]
      split_ifs with h1 h2
      · have h := ih (state.1 ++ [(combineSignalsToSetup clock
            (analyzeStock arrange clock state.2.1 state.2.2 stock historical).2.1 stock.symbol
            (analyzeStock arrange clock state.2.1 state.2.2 stock historical).1).1],
          (combineSignalsToSetup clock
            (analyzeStock arrange clock state.2.1 state.2.2 stock historical).2.1 stock.symbol
            (analyzeStock arrange clock state.2.1 state.2.2 stock historical).1).2,
          (analyzeStock arrange clock state.2.1 state.2.2 stock historical).2.2) herase.2
        rw [List.map_append, List.map_singleton, hcombine] at h
        exact h
      · exact ih (state.1, _, _) herase.2
      · exact ih (state.1, _, _) herase.2

theorem generateSetups_erase (arrange arrangeSetups : Nat → (Nat → Nat → Bool) → List Nat)
    (clock : Nat → Nat) (reads : Nat) (engine₀ engine : StrategyEngine)
    (stocks : List StockData) (historical_data : String → Option HistoricalData)
    (hfree : ∀ s ∈ engine₀.strategies_, ∀ (reads : Nat) (stock : StockData)
      (historical : HistoricalData),
      (s.analyze clock reads stock historical).1.map (fun x => x.signal) =
        s.erase.analyze stock historical)
    (hagree : Agree engine₀ engine) :
    (generateSetups arrange arrangeSetups clock reads engine stocks historical_data).1.map
        (fun x => x.setup) =
      TradingApp.StrategyEngine.generateSetups
        (std_sort arrange (fun (a b : TradingSignal) => decide (a.confidence > b.confidence)))
        (std_sort arrangeSetups
          (fun (a b : TradingSetup) => decide (a.overall_confidence > b.overall_confidence)))
        (erase engine₀) stocks historical_data ∧
      Agree engine₀
        (generateSetups arrange arrangeSetups clock reads engine stocks historical_data).2.2 := by
  have hfold := generateSetups_foldl_erase arrange clock engine₀ historical_data hfree stocks
    ([], reads, engine) hagree
  refine ⟨?_, hfold.2⟩
  have h1 := hfold.1
  rw [List.map_nil] at h1
  unfold generateSetups TradingApp.StrategyEngine.generateSetups
  exact (std_sort_map arrangeSetups (fun x : StampedSetup => x.setup)
    (fun (a b : TradingSetup) => decide (a.overall_confidence > b.overall_confidence)) _).trans
    (congrArg (std_sort arrangeSetups
      (fun (a b : TradingSetup) => decide (a.overall_confidence > b.overall_confidence))) h1)

end StrategyEngine

theorem default_strategies_erase :
    ∀ s ∈ StrategyEngine.new.strategies_, ∀ (clock : Nat → Nat) (reads : Nat)
      (stock : StockData) (historical : HistoricalData),
      (s.analyze clock reads stock historical).1.map (fun x => x.signal) =
        s.erase.analyze stock historical := by
  intro s hs clock reads stock historical
  have hlist : StrategyEngine.new.strategies_ =
      [ORBStrategy.strategy, VWAPStrategy.strategy, RSIStrategy.strategy,
        BreakoutStrategy.strategy, VolumeStrategy.strategy] := rfl
  rw [hlist] at hs
  simp only [List.mem_cons, List.mem_singleton, List.not_mem_nil, or_false] at hs
  have hid : ∀ (t : Nat) (l : List TradingSignal),
      (l.map (fun s => ({ signal := s, timestamp := t } : StampedSignal))).map
        (fun x => x.signal) = l := by
    intro t l
    rw [List.map_map]
    exact List.map_id l
  rcases hs with rfl | rfl | rfl | rfl | rfl
  · show (ORBStrategy.analyze clock reads stock historical).1.map (fun x => x.signal) =
      (ORBStrategy.analyze (fun _ => 0) 0 stock historical).1.map (fun x => x.signal)
    rw [orb_analyze_stamps, orb_analyze_stamps, hid, hid]
  · show (VWAPStrategy.analyze clock reads stock historical).1.map (fun x => x.signal) =
      (VWAPStrategy.analyze (fun _ => 0) 0 stock historical).1.map (fun x => x.signal)
    rw [vwap_analyze_stamps, vwap_analyze_stamps, hid, hid]
  · show (RSIStrategy.analyze clock reads stock historical).1.map (fun x => x.signal) =
      (RSIStrategy.analyze (fun _ => 0) 0 stock historical).1.map (fun x => x.signal)
    rw [rsi_analyze_stamps, rsi_analyze_stamps, hid, hid]
  · show (BreakoutStrategy.analyze clock reads stock historical).1.map (fun x => x.signal) =
      (BreakoutStrategy.analyze (fun _ => 0) 0 stock historical).1.map (fun x => x.signal)
    rw [breakout_analyze_stamps, breakout_analyze_stamps, hid, hid]
  · show (VolumeStrategy.analyze clock reads stock historical).1.map (fun x => x.signal) =
      (VolumeStrategy.analyze (fun _ => 0) 0 stock historical).1.map (fun x => x.signal)
    rw [volume_analyze_stamps, volume_analyze_stamps, hid, hid]

theorem new_erase : StrategyEngine.erase StrategyEngine.new = TradingApp.StrategyEngine.new := by
  have hid : ∀ (l : List TradingSignal),
      (l.map (fun s => ({ signal := s, timestamp := 0 } : StampedSignal))).map
        (fun x => x.signal) = l := by
    intro l
    rw [List.map_map]
    exact List.map_id l
  have horb : BaseStrategy.erase ORBStrategy.strategy = TradingApp.ORBStrategy.strategy := by
    unfold BaseStrategy.erase ORBStrategy.strategy TradingApp.ORBStrategy.strategy
    simp only [orb_analyze_stamps, hid]
  have hvwap : BaseStrategy.erase VWAPStrategy.strategy = TradingApp.VWAPStrategy.strategy := by
    unfold BaseStrategy.erase VWAPStrategy.strategy TradingApp.VWAPStrategy.strategy
    simp only [vwap_analyze_stamps, hid]
  have hrsi : BaseStrategy.erase RSIStrategy.strategy = TradingApp.RSIStrategy.strategy := by
    unfold BaseStrategy.erase RSIStrategy.strategy TradingApp.RSIStrategy.strategy
    simp only [rsi_analyze_stamps, hid]
  have hbreakout :
      BaseStrategy.erase BreakoutStrategy.strategy = TradingApp.BreakoutStrategy.strategy := by
    unfold BaseStrategy.erase BreakoutStrategy.strategy TradingApp.BreakoutStrategy.strategy
    simp only [breakout_analyze_stamps, hid]
  have hvolume :
      BaseStrategy.erase VolumeStrategy.strategy = TradingApp.VolumeStrategy.strategy := by
    unfold BaseStrategy.erase VolumeStrategy.strategy TradingApp.VolumeStrategy.strategy
    simp only [volume_analyze_stamps, hid]
  have hlist : StrategyEngine.new.strategies_ =
      [ORBStrategy.strategy, VWAPStrategy.strategy, RSIStrategy.strategy,
        BreakoutStrategy.strategy, VolumeStrategy.strategy] := rfl
  have hmap : StrategyEngine.new.strategy_enabled_ =
      TradingApp.StrategyEngine.new.strategy_enabled_ := rfl
  unfold StrategyEngine.erase
  rw [hlist, hmap]
  simp only [List.map_cons, List.map_nil, horb, hvwap, hrsi, hbreakout, hvolume]
  rfl


namespace StrategyEngine

theorem agree_refl (engine : StrategyEngine) : Agree engine engine :=
  ⟨rfl, fun _ => rfl, rfl, rfl, rfl⟩

/-- C22 amended. With strategies taken from the five strategy classes of the
engine, in any number and order, and any enabled map, thresholds and cap:
running `analyzeStock`, `combineSignalsToSetup` and `generateSetups` a second
time, on the engine the first run leaves and whatever the clock returns in
either run (`clock`, `reads` and `clock'`, `reads'`), yields signal lists and
setups that agree with those of the first run in every member other than
`timestamp` and `created_at`; and a run leaves the engine with the same
strategies, thresholds and cap and with every key of `strategy_enabled_`
reading as before. -/
theorem repeated_run_same_fields (arrange arrangeSetups : Nat → (Nat → Nat → Bool) → List Nat)
    (clock clock' : Nat → Nat) (reads reads' : Nat) (engine : StrategyEngine)
    (hdefault : ∀ s ∈ engine.strategies_, s ∈ StrategyEngine.new.strategies_)
    (stock : StockData) (historical : HistoricalData) (stocks : List StockData)
    (historical_data : String → Option HistoricalData) :
    (analyzeStock arrange clock' reads'
          (analyzeStock arrange clock reads engine stock historical).2.2 stock historical).1.map
        (fun s => s.signal) =
        (analyzeStock arrange clock reads engine stock historical).1.map (fun s => s.signal) ∧
      (combineSignalsToSetup clock'
          (analyzeStock arrange clock' reads'
            (analyzeStock arrange clock reads engine stock historical).2.2 stock historical).2.1
          stock.symbol
          (analyzeStock arrange clock' reads'
            (analyzeStock arrange clock reads engine stock historical).2.2 stock
            historical).1).1.setup =
        (combineSignalsToSetup clock
          (analyzeStock arrange clock reads engine stock historical).2.1 stock.symbol
          (analyzeStock arrange clock reads engine stock historical).1).1.setup ∧
      (generateSetups arrange arrangeSetups clock' reads'
          (generateSetups arrange arrangeSetups clock reads engine stocks historical_data).2.2
          stocks historical_data).1.map (fun s => s.setup) =
        (generateSetups arrange arrangeSetups clock reads engine stocks historical_data).1.map
          (fun s => s.setup) ∧
      Agree engine (analyzeStock arrange clock reads engine stock historical).2.2 ∧
      Agree engine
        (generateSetups arrange arrangeSetups clock reads engine stocks historical_data).2.2 := by
  have hfree : ∀ (clock : Nat → Nat), ∀ s ∈ engine.strategies_, ∀ (reads : Nat)
      (stock : StockData) (historical : HistoricalData),
      (s.analyze clock reads stock historical).1.map (fun x => x.signal) =
        s.erase.analyze stock historical :=
    fun clock s hs reads stock historical =>
      default_strategies_erase s (hdefault s hs) clock reads stock historical
  have h1 := analyzeStock_erase arrange clock reads engine engine stock historical
    (fun s hs r => hfree clock s hs r stock historical) (agree_refl engine)
  have h2 := analyzeStock_erase arrange clock' reads' engine
    (analyzeStock arrange clock reads engine stock historical).2.2 stock historical
    (fun s hs r => hfree clock' s hs r stock historical) h1.2
  have g1 := generateSetups_erase arrange arrangeSetups clock reads engine engine stocks
    historical_data (hfree clock) (agree_refl engine)
  have g2 := generateSetups_erase arrange arrangeSetups clock' reads' engine
    (generateSetups arrange arrangeSetups clock reads engine stocks historical_data).2.2 stocks
    historical_data (hfree clock') g1.2
  refine ⟨h2.1.trans h1.1.symm, ?_, g2.1.trans g1.1.symm, h1.2, g1.2⟩
  rw [(combineSignalsToSetup_erase _ _ _ _).1, (combineSignalsToSetup_erase _ _ _ _).1, h2.1,
    h1.1]


theorem new_mapIndex :
    mapIndex StrategyEngine.new.strategy_enabled_ "Opening Range Breakout" =
        (true, StrategyEngine.new.strategy_enabled_) ∧
      mapIndex StrategyEngine.new.strategy_enabled_ "VWAP" =
        (true, StrategyEngine.new.strategy_enabled_) ∧
      mapIndex StrategyEngine.new.strategy_enabled_ "RSI" =
        (true, StrategyEngine.new.strategy_enabled_) ∧
      mapIndex StrategyEngine.new.strategy_enabled_ "Breakout" =
        (true, StrategyEngine.new.strategy_enabled_) ∧
      mapIndex StrategyEngine.new.strategy_enabled_ "Volume Spike" =
        (true, StrategyEngine.new.strategy_enabled_) := by
  have h : StrategyEngine.new.strategy_enabled_ =
      [("Breakout", true), ("Opening Range Breakout", true), ("RSI", true), ("VWAP", true),
        ("Volume Spike", true)] := by
    decide
  rw [h]
  decide

theorem scenario_collectSignals_stamps (clock : Nat → Nat) (reads : Nat) :
    collectSignals clock reads StrategyEngine.new scenarioStock scenarioHistory =
      ([{ signal := scenarioSignal, timestamp := clock (reads + 1) }], reads + 3,
        StrategyEngine.new.strategy_enabled_) := by
  have hlist : StrategyEngine.new.strategies_ =
      [ORBStrategy.strategy, VWAPStrategy.strategy, RSIStrategy.strategy,
        BreakoutStrategy.strategy, VolumeStrategy.strategy] := rfl
  have hvalid : (TradingApp.ORBStrategy.calculateORBLevels scenarioHistory).is_valid = true := by
    norm_num [TradingApp.ORBStrategy.calculateORBLevels, scenarioHistory, List.replicate, DBL_MAX]
  have hvwap : ¬ scenarioStock.vwap ≤ 0 := by
    norm_num [scenarioStock, StockData.new]
  have hbreak : TradingApp.BreakoutStrategy.detectBreakout scenarioStock scenarioHistory =
      false := by
    simp [TradingApp.BreakoutStrategy.detectBreakout, scenarioStock, StockData.new]
  have hvol : (TradingApp.VolumeStrategy.isVolumeSpike scenarioStock 1.5 &&
      TradingApp.VolumeStrategy.isPriceVolumeAlignment scenarioStock) = false := by
    simp [TradingApp.VolumeStrategy.isPriceVolumeAlignment, scenarioStock, StockData.new]
  unfold collectSignals
  rw [hlist]
  simp only [List.foldl_cons, List.foldl_nil, ORBStrategy.strategy, VWAPStrategy.strategy,
    RSIStrategy.strategy, BreakoutStrategy.strategy, VolumeStrategy.strategy,
    new_mapIndex.1, new_mapIndex.2.1, new_mapIndex.2.2.1, new_mapIndex.2.2.2.1,
    new_mapIndex.2.2.2.2, Bool.not_true, Bool.false_eq_true, if_false, if_true,
    TradingApp.StrategyEngine.scenario_orb_silent.1,
    TradingApp.StrategyEngine.scenario_breakout_silent.1,
    TradingApp.StrategyEngine.scenario_volume_silent.1,
    TradingApp.StrategyEngine.scenario_vwap_fires.1,
    TradingApp.StrategyEngine.scenario_rsi_fires.1,
    orb_analyze_stamps, vwap_analyze_stamps, rsi_analyze_stamps, breakout_analyze_stamps,
    volume_analyze_stamps, TradingApp.StrategyEngine.scenario_orb_silent.2,
    TradingApp.StrategyEngine.scenario_breakout_silent.2,
    TradingApp.StrategyEngine.scenario_volume_silent.2,
    TradingApp.StrategyEngine.scenario_vwap_fires.2,
    TradingApp.StrategyEngine.scenario_rsi_fires.2, hvalid, hvwap, hbreak, hvol, List.map_nil,
    List.map_cons, List.filter_nil, List.append_nil, List.nil_append]
  norm_num [updateSignalMetrics, scenarioSignal, TradingApp.StrategyEngine.updateSignalMetrics,
    List.filter_cons]


theorem scenario_analyzeStock_stamps (arrange : Nat → (Nat → Nat → Bool) → List Nat)
    (clock : Nat → Nat) (reads : Nat) :
    analyzeStock arrange clock reads StrategyEngine.new scenarioStock scenarioHistory =
      ([{ signal := scenarioSignal, timestamp := clock (reads + 1) }], reads + 3,
        StrategyEngine.new) := by
  have hmax : sizeT StrategyEngine.new.max_signals_per_stock_ = 3 := by decide
  unfold analyzeStock
  rw [scenario_collectSignals_stamps]
  dsimp only
  rw [hmax]
  simp only [List.length_singleton, gt_iff_lt, Nat.lt_irrefl, if_false]
  rfl

theorem scenario_runs :
    scenarioFirstRun = ([{ signal := scenarioSignal, timestamp := 1 }], 3, StrategyEngine.new) ∧
      scenarioFirstSetup.1.created_at = 3 ∧ scenarioFirstSetup.2 = 4 ∧
      scenarioSecondRun =
        ([{ signal := scenarioSignal, timestamp := 5 }], 7, StrategyEngine.new) ∧
      scenarioSecondSetup.1.created_at = 7 := by
  have h1 : scenarioFirstRun =
      ([{ signal := scenarioSignal, timestamp := 1 }], 3, StrategyEngine.new) :=
    scenario_analyzeStock_stamps insertionArrange tickingClock 0
  have h2 : scenarioFirstSetup.1.created_at = 3 ∧ scenarioFirstSetup.2 = 4 := by
    unfold scenarioFirstSetup
    rw [h1]
    exact ⟨(combineSignalsToSetup_erase _ _ _ _).2.1,
      (combineSignalsToSetup_erase _ _ _ _).2.2.2⟩
  have h3 : scenarioSecondRun =
      ([{ signal := scenarioSignal, timestamp := 5 }], 7, StrategyEngine.new) := by
    unfold scenarioSecondRun
    rw [h2.2, h1]
    exact scenario_analyzeStock_stamps insertionArrange tickingClock 4
  refine ⟨h1, h2.1, h2.2, h3, ?_⟩
  unfold scenarioSecondSetup
  rw [h3]
  exact (combineSignalsToSetup_erase _ _ _ _).2.1

/-- C22 as stated fails. The default engine runs `analyzeStock` followed by
`combineSignalsToSetup` twice on `scenarioStock` and `scenarioHistory`, the
second run on the engine the first run leaves (the engine it started with),
against a clock that advances by one tick per reading. The two signal lists
differ in `timestamp` (readings 1 and 5) and the two setups in `created_at`
(readings 3 and 7): the outputs are not identical in every field. -/
theorem repeated_run_differs_in_stamps :
    scenarioFirstRun.2.2 = StrategyEngine.new ∧
      scenarioFirstRun.1.map (fun s => s.timestamp) = [1] ∧
      scenarioSecondRun.1.map (fun s => s.timestamp) = [5] ∧
      scenarioFirstRun.1 ≠ scenarioSecondRun.1 ∧
      scenarioFirstSetup.1.created_at = 3 ∧ scenarioSecondSetup.1.created_at = 7 ∧
      scenarioFirstSetup.1 ≠ scenarioSecondSetup.1 := by
  have h := scenario_runs
  refine ⟨?_, ?_, ?_, ?_, h.2.1, h.2.2.2.2, ?_⟩
  · rw [h.1]
  · rw [h.1]; rfl
  · rw [h.2.2.2.1]; rfl
  · intro heq
    have hstamps := congrArg (fun l => l.map (fun s : StampedSignal => s.timestamp)) heq
    rw [h.1, h.2.2.2.1] at hstamps
    exact absurd hstamps (by decide)
  · intro heq
    have hcreated := congrArg (fun s : StampedSetup => s.created_at) heq
    dsimp only at hcreated
    rw [h.2.1, h.2.2.2.2] at hcreated
    exact absurd hcreated (by decide)

/-- Witness for C22 amended: the default engine, run from readings 0 and 4
of `tickingClock` on `scenarioStock` and on the batch `orbStock`, `orbStockY`. -/
theorem repeated_run_same_fields_witness :
    (analyzeStock insertionArrange tickingClock 4
          (analyzeStock insertionArrange tickingClock 0 StrategyEngine.new scenarioStock
            scenarioHistory).2.2 scenarioStock scenarioHistory).1.map
        (fun s => s.signal) =
        (analyzeStock insertionArrange tickingClock 0 StrategyEngine.new scenarioStock
          scenarioHistory).1.map (fun s => s.signal) ∧
      (combineSignalsToSetup tickingClock
          (analyzeStock insertionArrange tickingClock 4
            (analyzeStock insertionArrange tickingClock 0 StrategyEngine.new scenarioStock
              scenarioHistory).2.2 scenarioStock scenarioHistory).2.1
          scenarioStock.symbol
          (analyzeStock insertionArrange tickingClock 4
            (analyzeStock insertionArrange tickingClock 0 StrategyEngine.new scenarioStock
              scenarioHistory).2.2 scenarioStock
            scenarioHistory).1).1.setup =
        (combineSignalsToSetup tickingClock
          (analyzeStock insertionArrange tickingClock 0 StrategyEngine.new scenarioStock
            scenarioHistory).2.1 scenarioStock.symbol
          (analyzeStock insertionArrange tickingClock 0 StrategyEngine.new scenarioStock
            scenarioHistory).1).1.setup ∧
      (generateSetups insertionArrange insertionArrange tickingClock 4
          (generateSetups insertionArrange insertionArrange tickingClock 0 StrategyEngine.new
            [orbStock, orbStockY] batchHistory).2.2
          [orbStock, orbStockY] batchHistory).1.map (fun s => s.setup) =
        (generateSetups insertionArrange insertionArrange tickingClock 0 StrategyEngine.new
          [orbStock, orbStockY] batchHistory).1.map
          (fun s => s.setup) ∧
      Agree StrategyEngine.new
        (analyzeStock insertionArrange tickingClock 0 StrategyEngine.new scenarioStock
          scenarioHistory).2.2 ∧
      Agree StrategyEngine.new
        (generateSetups insertionArrange insertionArrange tickingClock 0 StrategyEngine.new
          [orbStock, orbStockY] batchHistory).2.2 :=
  repeated_run_same_fields insertionArrange insertionArrange tickingClock tickingClock 0 4
    StrategyEngine.new (fun _ hs => hs) scenarioStock scenarioHistory [orbStock, orbStockY]
    batchHistory

end StrategyEngine
end Clocked

end TradingApp
